import Mathlib

/-!
# Verification of the styleguide-pro analyzer / builder core

A shallow embedding of the HTML/CSS style-guide generator:

* `cleanMarkup` and its regex stages (`src/lib/analyzer.ts`, lines 4-18),
* the image store (`imageStore.ts`: `storeImage`, `findImageInStore`,
  `replaceImagePaths`),
* the component extractor and analyzer (`analyzeFiles`, `extractComponents`,
  `categorizeComponents`),
* the style-guide builder (`buildStyleGuide` and its section builders).

Modelling conventions:

* JS strings are Lean `String`s processed as `List Char`; regex global
  replacement is modelled by left-to-right scanners that, at each position,
  either recognise a match of the concrete pattern (emitting the replacement
  and continuing after the match) or emit one character and move on.  The
  scanners take a fuel argument; every step consumes at least one input
  character, so fuel `length + 1` is always sufficient and the top-level
  wrappers pass exactly that.
* The JS whitespace class is modelled by `jsWs` (ASCII whitespace plus
  no-break space); `toLowerCase` is modelled on ASCII letters, which covers
  every pattern the source matches against.
* JS objects used as string maps (`imageStore`) are modelled as
  insertion-ordered association lists: assigning to an existing key updates
  the value in place, a new key is appended; `Object.entries` iterates in
  that order.  (The stored keys are file paths, never integer-like, so this
  matches the JS own-property order.)
* Parsed DOM documents are modelled as node trees (`Node`); `DOMParser` is
  treated as the external collaborator that produced the tree, and
  `outerHTML` is the canonical serialisation of the tree.
-/

namespace SGP

/-- JS regex `\s` / `String.prototype.trim` whitespace, restricted to the
characters that can actually appear in our embedding (ASCII whitespace and
NBSP). -/
def jsWs (c : Char) : Bool :=
  c == ' ' || c == '\t' || c == '\n' || c == '\r' ||
  c == Char.ofNat 11 || c == Char.ofNat 12 || c == Char.ofNat 160

/-- ASCII `toLowerCase` on a character. -/
def lowCh (c : Char) : Char :=
  if 'A' ≤ c && c ≤ 'Z' then Char.ofNat (c.toNat + 32) else c

/-- ASCII `toUpperCase` on a character. -/
def upCh (c : Char) : Char :=
  if 'a' ≤ c && c ≤ 'z' then Char.ofNat (c.toNat - 32) else c

/-- ASCII `toLowerCase` on a string. -/
def lowStr (s : String) : String := ⟨s.data.map lowCh⟩

/-- ASCII `toUpperCase` on a string (DOM `tagName` for HTML elements). -/
def upStr (s : String) : String := ⟨s.data.map upCh⟩

/-- `starts p l`: `p` is a prefix of `l` (char lists). -/
def starts : List Char → List Char → Bool
  | [], _ => true
  | _ :: _, [] => false
  | p :: ps, c :: cs => p == c && starts ps cs

/-- Case-insensitive prefix test (for `i`-flagged regex literals). -/
def startsCI (p l : List Char) : Bool :=
  starts (p.map lowCh) (l.map lowCh)

/-- `hasSub p l`: `p` occurs as a contiguous sublist of `l`
(JS `String.prototype.includes`). -/
def hasSub (p : List Char) : List Char → Bool
  | [] => starts p []
  | c :: cs => starts p (c :: cs) || hasSub p cs

/-- JS `a.includes(b)` on strings. -/
def incl (b a : String) : Bool := hasSub b.data a.data

/-- `endsList p l`: `p` is a suffix of `l` (JS `String.prototype.endsWith`). -/
def endsList (p l : List Char) : Bool := starts p.reverse l.reverse

/-- JS `a.endsWith(b)`. -/
def endsS (b a : String) : Bool := endsList b.data a.data

/-- Split a char list at every occurrence of the separator character
(JS `String.prototype.split` with a one-character separator: empty pieces
are kept). -/
def splitCh (sep : Char) : List Char → List (List Char)
  | [] => [[]]
  | c :: cs =>
    let r := splitCh sep cs
    if c == sep then [] :: r
    else (c :: (r.headD [])) :: r.tail

/-- JS `s.split(sep)` for a one-character separator. -/
def splitS (sep : Char) (s : String) : List String :=
  (splitCh sep s.data).map fun l => ⟨l⟩

/-- Whitespace-token split of a class attribute (CSS class-token matching). -/
def wsTokens (s : String) : List String :=
  ((splitCh ' ' s.data).filterMap fun l =>
    let t := (l.dropWhile jsWs).reverse.dropWhile jsWs |>.reverse
    if t.isEmpty then none else some (⟨t⟩ : String))

/-- JS `String.prototype.trim` on a char list. -/
def trimList (l : List Char) : List Char :=
  ((l.dropWhile jsWs).reverse.dropWhile jsWs).reverse

/-- JS `String.prototype.trim`. -/
def trimS (s : String) : String := ⟨trimList s.data⟩

/-- JS `s.substring(0, n)`. -/
def takeS (n : Nat) (s : String) : String := ⟨s.data.take n⟩

/-! ## The `cleanMarkup` regex stages -/

/-- Match `<name[^>]*>` at the head of `l` (case-insensitively) and return
the remainder after the closing `>`; `none` if the pattern does not match
here. -/
def openTagAt (name : List Char) (l : List Char) : Option (List Char) :=
  if startsCI ('<' :: name) l then
    match (l.drop (name.length + 1)).dropWhile (fun c => !(c == '>')) with
    | [] => none
    | _ :: r => some r
  else none

/-- Search forward for `</name>` (case-insensitively); return the remainder
after it.  Models the lazy `[\s\S]*?<\/name>` tail of the block regex. -/
def closeTagFrom (name : List Char) : Nat → List Char → Option (List Char)
  | 0, _ => none
  | _ + 1, [] => none
  | f + 1, c :: cs =>
    if startsCI ('<' :: '/' :: name ++ ['>']) (c :: cs) then
      some ((c :: cs).drop (name.length + 3))
    else closeTagFrom name f cs

/-- One block match `<name[^>]*>[\s\S]*?<\/name>` at the head of `l`. -/
def tagBlockAt (name : List Char) (l : List Char) : Option (List Char) :=
  match openTagAt name l with
  | none => none
  | some r => closeTagFrom name (r.length + 1) r

/-- Global removal of `<name[^>]*>[\s\S]*?<\/name>` (the `<script>` /
`<style>` stripping stages of `cleanMarkup`). -/
def dropTagBlocks (name : List Char) : Nat → List Char → List Char
  | 0, l => l
  | _ + 1, [] => []
  | f + 1, c :: cs =>
    match tagBlockAt name (c :: cs) with
    | some rest => dropTagBlocks name f rest
    | none => c :: dropTagBlocks name f cs

/-- The inline event-handler attribute names of the sanitizer regex, in
alternation order. -/
def handlerNames : List (List Char) :=
  ["onclick", "onload", "onerror", "onmouseover", "onmouseout",
   "onfocus", "onblur"].map String.data

/-- Match `\s(onclick|…)="[^"]*"` at the head of `l`; return the remainder
after the closing quote. -/
def handlerAt (l : List Char) : Option (List Char) :=
  match l with
  | [] => none
  | c :: cs =>
    if jsWs c then
      handlerNames.findSome? fun nm =>
        if startsCI nm cs then
          let r := cs.drop nm.length
          if starts ['=', '"'] r then
            match (r.drop 2).dropWhile (fun d => !(d == '"')) with
            | [] => none
            | _ :: r2 => some r2
          else none
        else none
    else none

/-- Global removal of inline event-handler attributes. -/
def dropHandlers : Nat → List Char → List Char
  | 0, l => l
  | _ + 1, [] => []
  | f + 1, c :: cs =>
    match handlerAt (c :: cs) with
    | some rest => dropHandlers f rest
    | none => c :: dropHandlers f cs

/-- Global rewrite `href="[^"]*"` → `href="#"` (case-insensitive on the
pattern, lowercase replacement, as in the source). -/
def hrefDq : Nat → List Char → List Char
  | 0, l => l
  | _ + 1, [] => []
  | f + 1, c :: cs =>
    if startsCI "href=\"".data (c :: cs) then
      match ((c :: cs).drop 6).dropWhile (fun d => !(d == '"')) with
      | [] => c :: hrefDq f cs
      | _ :: r2 => "href=\"#\"".data ++ hrefDq f r2
    else c :: hrefDq f cs

/-- Global rewrite `href='[^']*'` → `href='#'`. -/
def hrefSq : Nat → List Char → List Char
  | 0, l => l
  | _ + 1, [] => []
  | f + 1, c :: cs =>
    if startsCI "href=\x27".data (c :: cs) then
      match ((c :: cs).drop 6).dropWhile (fun d => !(d == Char.ofNat 39)) with
      | [] => c :: hrefSq f cs
      | _ :: r2 => "href=\x27#\x27".data ++ hrefSq f r2
    else c :: hrefSq f cs

/-- Global rewrite `\s+` → single space. -/
def wsCollapse : Nat → List Char → List Char
  | 0, l => l
  | _ + 1, [] => []
  | f + 1, c :: cs =>
    if jsWs c then ' ' :: wsCollapse f (cs.dropWhile jsWs)
    else c :: wsCollapse f cs

/-- Match `\s+<` at the head (at least one whitespace char, then `<`);
return the remainder after the `<`. -/
def gapAt (cs : List Char) : Option (List Char) :=
  match cs with
  | [] => none
  | d :: _ =>
    if jsWs d then
      match cs.dropWhile jsWs with
      | '<' :: r => some r
      | _ => none
    else none

/-- Global rewrite `>\s+<` → `>\n<` (the reflow stage). -/
def tagGap : Nat → List Char → List Char
  | 0, l => l
  | _ + 1, [] => []
  | f + 1, c :: cs =>
    if c == '>' then
      match gapAt cs with
      | some r => '>' :: '\n' :: '<' :: tagGap f r
      | none => c :: tagGap f cs
    else c :: tagGap f cs

/-! ## The image store (`imageStore.ts`) -/

/-- The process-wide image store: an insertion-ordered string map. -/
abbrev Store := List (String × String)

/-- JS object property read. -/
def getKey (k : String) (st : Store) : Option String :=
  (List.find? (fun p => p.1 == k) st).map Prod.snd

/-- JS object property write: updates in place, or appends a new key. -/
def setKey (k v : String) (st : Store) : Store :=
  if (st : List (String × String)).any (fun p => p.1 == k) then
    (st : List (String × String)).map fun p => if p.1 == k then (k, v) else p
  else st ++ [(k, v)]

/-- Fold a list of keys into the store, assigning each to `v`. -/
def setKeys (ks : List String) (v : String) (st : Store) : Store :=
  ks.foldl (fun st k => setKey k v st) st

/-- Path with backslashes replaced by slashes. -/
def slashes (p : String) : String :=
  ⟨p.data.map fun c => if c == '\\' then '/' else c⟩

/-- `storeImage(path, dataUrl)`: registers the asset under the exact path,
its filename, and every suffix of the slash-split path, each under several
prefix variants. -/
def storeImage (path dataUrl : String) (st : Store) : Store :=
  let normalized := slashes path
  let fileName := (splitS '/' normalized).getLastD ""
  let st := setKeys [path, normalized, fileName,
                     "./" ++ normalized, "../" ++ normalized] dataUrl st
  let parts := splitS '/' normalized
  (List.range parts.length).foldl
    (fun st i =>
      let piece := String.intercalate "/" (parts.drop i)
      setKeys [piece, "/" ++ piece, "./" ++ piece, "../" ++ piece]
        dataUrl st)
    st

/-- Strip one leading `./` or `../` (the regex `^\.\.?\//`). -/
def stripDots (p : String) : String :=
  if starts "../".data p.data then ⟨p.data.drop 3⟩
  else if starts "./".data p.data then ⟨p.data.drop 2⟩
  else p

/-- JS truthiness of a string-valued property read (`if (imageStore[k])`):
a missing key and an empty-string stored value are both falsy. -/
def truthyKey (k : String) (st : Store) : Option String :=
  match getKey k st with
  | some d => if d.isEmpty then none else some d
  | none => none

/-- `findImageInStore(path)`: truthiness-guarded exact lookup, then
normalized, then filename-only (each skipping empty stored values, as
`if (imageStore[...])` does), then a suffix/prefix containment scan over
the registered keys in insertion order, whose `return dataUrl` carries no
truthiness guard. -/
def findImageInStore (path : String) (st : Store) : Option String :=
  match truthyKey path st with
  | some d => some d
  | none =>
    let normalized := stripDots (slashes path)
    match truthyKey normalized st with
    | some d => some d
    | none =>
      let fileName := (splitS '\\' ((splitS '/' path).getLastD "")).getLastD ""
      match truthyKey fileName st with
      | some d => some d
      | none =>
        st.findSome? fun kv =>
          if endsS normalized kv.1 || endsS (stripDots kv.1) normalized then
            some kv.2
          else none

/-- The supported raster/vector extensions. -/
def imgExts : List (List Char) :=
  ["jpg", "jpeg", "png", "gif", "svg", "webp", "ico", "bmp"].map String.data

/-- Does `t` end (case-insensitively) in `.ext` for a supported extension,
with at least one character before the dot? -/
def hasImgExt (t : List Char) : Bool :=
  imgExts.any fun e =>
    endsList ('.' :: e) (t.map lowCh) && decide (e.length + 2 ≤ t.length)

def isQuote (c : Char) : Bool := c == '"' || c == Char.ofNat 39

/-- Match `src=["']path.ext["']` at the head; returns the path and the
remainder after the closing quote. -/
def srcAt (l : List Char) : Option (List Char × List Char) :=
  if startsCI "src=".data l then
    match l.drop 4 with
    | [] => none
    | q :: r =>
      if isQuote q then
        let t := r.takeWhile (fun c => !(isQuote c))
        match r.dropWhile (fun c => !(isQuote c)) with
        | [] => none
        | _ :: rest => if hasImgExt t then some (t, rest) else none
      else none
  else none

/-- `src="…"` image-path rewriting pass of `replaceImagePaths`; the
replacement callback is `dataUrl ? \x60src="$\x7bdataUrl\x7d"\x60 : match`,
so a falsy (absent or empty) resolution keeps the matched text. -/
def srcRepl (st : Store) : Nat → List Char → List Char
  | 0, l => l
  | _ + 1, [] => []
  | f + 1, c :: cs =>
    match srcAt (c :: cs) with
    | some (t, rest) =>
      match findImageInStore ⟨t⟩ st with
      | some d =>
        if d.isEmpty then
          let n := (c :: cs).length - rest.length
          (c :: cs).take n ++ srcRepl st f rest
        else "src=\"".data ++ d.data ++ ['"'] ++ srcRepl st f rest
      | none =>
        let n := (c :: cs).length - rest.length
        (c :: cs).take n ++ srcRepl st f rest
    | none => c :: srcRepl st f cs

/-- Match `url(["']?path.ext["']?)` at the head; returns the path and the
remainder after the closing parenthesis. -/
def urlAt (l : List Char) : Option (List Char × List Char) :=
  if startsCI "url(".data l then
    let r0 := l.drop 4
    let r1 := match r0 with
      | q :: r => if isQuote q then r else r0
      | [] => r0
    let stop := fun (c : Char) => isQuote c || c == ')'
    let t := r1.takeWhile (fun c => !(stop c))
    let r2 := r1.dropWhile (fun c => !(stop c))
    let r3 := match r2 with
      | q :: r => if isQuote q then r else r2
      | [] => r2
    match r3 with
    | ')' :: rest => if hasImgExt t then some (t, rest) else none
    | _ => none
  else none

/-- `url(…)` image-path rewriting pass of `replaceImagePaths`; like the
`src=` pass, a falsy resolution keeps the matched text. -/
def urlRepl (st : Store) : Nat → List Char → List Char
  | 0, l => l
  | _ + 1, [] => []
  | f + 1, c :: cs =>
    match urlAt (c :: cs) with
    | some (t, rest) =>
      match findImageInStore ⟨t⟩ st with
      | some d =>
        if d.isEmpty then
          let n := (c :: cs).length - rest.length
          (c :: cs).take n ++ urlRepl st f rest
        else "url(\"".data ++ d.data ++ "\")".data ++ urlRepl st f rest
      | none =>
        let n := (c :: cs).length - rest.length
        (c :: cs).take n ++ urlRepl st f rest
    | none => c :: urlRepl st f cs

/-- `replaceImagePaths(content)`: a no-op on an empty store, otherwise the
`src=` pass followed by the `url(` pass. -/
def replaceImagePaths (st : Store) (content : String) : String :=
  if st.isEmpty then content
  else
    let a := srcRepl st (content.data.length + 1) content.data
    ⟨urlRepl st (a.length + 1) a⟩

/-! ## `cleanMarkup` -/

/-- Stage 1-2: script and style block removal. -/
def stripScriptStyle (s : String) : String :=
  let a := dropTagBlocks "script".data (s.data.length + 1) s.data
  ⟨dropTagBlocks "style".data (a.length + 1) a⟩

/-- Stage 3: event-handler attribute removal. -/
def stripHandlersS (s : String) : String :=
  ⟨dropHandlers (s.data.length + 1) s.data⟩

/-- Stage 4: double-quoted `href` neutralisation. -/
def hrefDqS (s : String) : String := ⟨hrefDq (s.data.length + 1) s.data⟩

/-- Stage 5: single-quoted `href` neutralisation. -/
def hrefSqS (s : String) : String := ⟨hrefSq (s.data.length + 1) s.data⟩

/-- Stage 7: whitespace-run collapse. -/
def wsCollapseS (s : String) : String :=
  ⟨wsCollapse (s.data.length + 1) s.data⟩

/-- Stage 8: tag-gap reflow. -/
def tagGapS (s : String) : String := ⟨tagGap (s.data.length + 1) s.data⟩

/-- `cleanMarkup` (analyzer.ts lines 4-18), with the process-wide image
store passed explicitly. -/
def cleanMarkup (st : Store) (html : String) : String :=
  trimS (tagGapS (wsCollapseS (replaceImagePaths st
    (hrefSqS (hrefDqS (stripHandlersS (stripScriptStyle html)))))))

/-! ### Canonical forms of the whitespace pipeline

`wsCollapse` output has only single `' '` whitespace runs (`spOk`);
`tagGap` output additionally has `'\n'` exactly between `>` and `<` and
`' '` never there (`gapCtx`, threading the previous character); `trimList`
strips the boundary whitespace.  On such canonical strings the second
application of the three stages is the identity. -/

/-- The head of the list, if any, is not whitespace. -/
def nextNonWs : List Char → Bool
  | [] => true
  | c :: _ => !jsWs c

/-- The head of the list is the given character. -/
def headIs (x : Char) : List Char → Bool
  | [] => false
  | c :: _ => c == x

/-- Every whitespace character is a `' '` followed by non-whitespace. -/
def spOk : List Char → Bool
  | [] => true
  | c :: cs => (!jsWs c || (c == ' ' && nextNonWs cs)) && spOk cs

/-- Canonical interior form after `tagGap`, scanning with the previous
character `p`: `'\n'` occurs exactly between `>` and `<`, an isolated `' '`
never does, and no other whitespace occurs. -/
def gapCtx (p : Char) : List Char → Bool
  | [] => true
  | c :: cs =>
    if c == '\n' then (p == '>' && headIs '<' cs) && gapCtx c cs
    else if c == ' ' then
      (!(p == '>' && headIs '<' cs)) && nextNonWs cs && gapCtx c cs
    else if jsWs c then false
    else gapCtx c cs

/-- Pointwise whitespace normalisation (what `wsCollapse` does to a string
with only singleton whitespace runs). -/
def mapWs (l : List Char) : List Char := l.map fun c => if jsWs c then ' ' else c

/-- The `href=<quote>` attribute-opening pattern. -/
def hrefPat (q : Char) : List Char := ['h', 'r', 'e', 'f', '=', q]

/-- The common shape of the two href-neutralisation scanners: `hrefDq` is
`hrefGen '"'` and `hrefSq` is `hrefGen` at the single quote. -/
def hrefGen (q : Char) : Nat → List Char → List Char
  | 0, l => l
  | _ + 1, [] => []
  | f + 1, c :: cs =>
    if startsCI (hrefPat q) (c :: cs) then
      match ((c :: cs).drop 6).dropWhile (fun d => !(d == q)) with
      | [] => c :: hrefGen q f cs
      | _ :: r2 =>
        'h' :: 'r' :: 'e' :: 'f' :: '=' :: q :: '#' :: q :: hrefGen q f r2
    else c :: hrefGen q f cs

/-- The quote character does not occur. -/
def noQuote (q : Char) (m : List Char) : Prop := ∀ c ∈ m, (c == q) = false

/-- Every link target is neutralised: wherever the `href=<quote>` pattern
occurs (case-insensitively, as in the source regexes), the quoted value is
exactly `#`, or the quote is never closed (no further quote character at
all, so there is no attribute value to retain). -/
def hrefNeutral (q : Char) (l : List Char) : Prop :=
  ∀ i, startsCI (hrefPat q) (l.drop i) = true →
    starts ['#', q] ((l.drop i).drop 6) = true ∨ noQuote q ((l.drop i).drop 6)

/-- Structural form of trailing-whitespace removal. -/
def rstrip : List Char → List Char
  | [] => []
  | c :: cs =>
    match rstrip cs with
    | [] => if jsWs c then [] else [c]
    | d :: ds => c :: d :: ds

/-! ## The document model

Parsed documents (the output of the browser's `DOMParser`) are node trees;
`querySelectorAll` is pre-order document-order traversal filtered by the
selector predicate, and `outerHTML` is the canonical serialisation of the
tree.  Every candidate carries its position (`path`) — used for the
element-identity `Set` of the table pass — and its ancestor chain
(`parentElement` links, innermost first). -/

inductive Node where
  | elem (tag : String) (attrs : List (String × String)) (children : List Node)
  | text (s : String)
deriving Repr, BEq

/-- The source-document tag (empty for text nodes). -/
def tagOf : Node → String
  | .elem t _ _ => t
  | .text _ => ""

def attrsOf : Node → List (String × String)
  | .elem _ a _ => a
  | .text _ => []

/-- `getAttribute` (`none` models JS `null`). -/
def attr (n : String) (nd : Node) : Option String :=
  ((attrsOf nd).find? fun p => p.1 == n).map Prod.snd

def hasAttr (n : String) (nd : Node) : Bool := (attr n nd).isSome

/-- `element.className` (empty string when the attribute is absent). -/
def className (nd : Node) : String := (attr "class" nd).getD ""

/-- `element.id`. -/
def idStr (nd : Node) : String := (attr "id" nd).getD ""

/-- Lower-cased tag (`el.tagName.toLowerCase()`; also used for
case-insensitive type-selector matching). -/
def tagLower (nd : Node) : String := lowStr (tagOf nd)

/-- DOM `tagName` (upper-cased for HTML elements). -/
def tagDOM (nd : Node) : String := upStr (tagOf nd)

def attrsTxt (attrs : List (String × String)) : String :=
  attrs.foldl (fun acc p => acc ++ " " ++ p.1 ++ "=\"" ++ p.2 ++ "\"") ""

mutual
/-- `outerHTML`: canonical serialisation of the node tree. -/
def serialize : Node → String
  | .text s => s
  | .elem t attrs cs =>
    "<" ++ t ++ attrsTxt attrs ++ ">" ++ serialMany cs ++ "</" ++ t ++ ">"
def serialMany : List Node → String
  | [] => ""
  | c :: cs => serialize c ++ serialMany cs
end

mutual
/-- `textContent`: concatenation of all text nodes in the subtree. -/
def textContent : Node → String
  | .text s => s
  | .elem _ _ cs => textMany cs
def textMany : List Node → String
  | [] => ""
  | c :: cs => textContent c ++ textMany cs
end

/-- A traversal candidate: the element, its position in the tree, and its
ancestor chain (parent first). -/
structure Cand where
  path : List Nat
  anc : List Node
  el : Node
deriving Repr, BEq

mutual
/-- Pre-order element traversal. -/
def descend (path : List Nat) (anc : List Node) : Node → List Cand
  | .text _ => []
  | .elem t a cs =>
    ⟨path, anc, .elem t a cs⟩ :: descendMany path (.elem t a cs :: anc) 0 cs
def descendMany (path : List Nat) (anc : List Node) (i : Nat) :
    List Node → List Cand
  | [] => []
  | c :: cs => descend (path ++ [i]) anc c ++ descendMany path anc (i + 1) cs
end

/-- All elements of the document in document order. -/
def allEls (doc : Node) : List Cand := descend [] [] doc

/-- `document.querySelectorAll(sel)` for a selector predicate. -/
def queryAll (doc : Node) (p : Node → Bool) : List Cand :=
  (allEls doc).filter fun c => p c.el

/-- `.tok` class selector: the class attribute contains the token. -/
def tokHas (tok : String) (nd : Node) : Bool :=
  (wsTokens (className nd)).contains tok

/-- `[class*="sub"]` attribute-substring selector. -/
def clsHas (sub : String) (nd : Node) : Bool := incl sub (className nd)

/-- `[id*="sub"]`. -/
def idHas (sub : String) (nd : Node) : Bool := incl sub (idStr nd)

/-- `[role="r"]`. -/
def roleIs (r : String) (nd : Node) : Bool := attr "role" nd == some r

/-- Type selector. -/
def tagIs (t : String) (nd : Node) : Bool := tagLower nd == t

/-! ## The analysis result (`types/index.ts`) -/

structure ComponentMarkup where
  classes : String
  html : String
  text : Option String := none
  count : Option Nat := none
deriving Repr, BEq

structure ExtractedMarkup where
  buttons : List ComponentMarkup := []
  forms : List ComponentMarkup := []
  tables : List ComponentMarkup := []
  boxes : List ComponentMarkup := []
  helperBoxes : List ComponentMarkup := []
  lists : List ComponentMarkup := []
  stepLists : List ComponentMarkup := []
  breadcrumbs : List ComponentMarkup := []
  menus : List ComponentMarkup := []
  leftMenus : List ComponentMarkup := []
  tabs : List ComponentMarkup := []
  paginations : List ComponentMarkup := []
  modals : List ComponentMarkup := []
  badges : List ComponentMarkup := []
  accordions : List ComponentMarkup := []
deriving Repr, BEq

structure ComponentCategories where
  buttons : List String := []
  forms : List String := []
  tables : List String := []
  boxes : List String := []
  lists : List String := []
  modals : List String := []
  tabs : List String := []
  pagination : List String := []
  typography : List String := []
  badges : List String := []
  accordions : List String := []
deriving Repr, BEq

structure CSSVariable where
  name : String
  value : String
  category : String
deriving Repr, BEq

structure FaviconInfo where
  rel : String
  href : String
  sizes : Option String := none
  typ : Option String := none
deriving Repr, BEq

structure OGTagInfo where
  property : String
  content : String
deriving Repr, BEq

structure TypographyInfo where
  className : String
  tagName : String
  text : Option String := none
  count : Option Nat := none
deriving Repr, BEq

structure BtnObs where
  classes : String
  text : String
deriving Repr, BEq

structure InputObs where
  itype : String
  classes : String
deriving Repr, BEq

structure AnalysisResult where
  htmlFiles : Nat := 0
  cssFiles : Nat := 0
  jsFiles : Nat := 0
  imageFiles : Nat := 0
  classes : List String := []
  ids : List String := []
  tags : List String := []
  colors : List String := []
  cssVariables : List CSSVariable := []
  buttons : List BtnObs := []
  inputs : List InputObs := []
  tables : List String := []
  modals : List String := []
  icons : List String := []
  components : ComponentCategories := {}
  extractedMarkup : ExtractedMarkup := {}
  hasFavicon : Bool := false
  hasOG : Bool := false
  favicons : List FaviconInfo := []
  ogTags : List OGTagInfo := []
  typographyInfo : List TypographyInfo := []
deriving Repr, BEq

/-- JS `Set.add`: insertion-ordered, duplicates ignored. -/
def addSet (x : String) (l : List String) : List String :=
  if l.contains x then l else l ++ [x]

/-- `existing.count = (existing.count || 1) + 1` on the first entry with the
given key. -/
def bumpFirst (key : String) : List ComponentMarkup → List ComponentMarkup
  | [] => []
  | e :: es =>
    if e.classes == key then { e with count := some (e.count.getD 1 + 1) } :: es
    else e :: bumpFirst key es

def hasKey (key : String) (l : List ComponentMarkup) : Bool :=
  l.any fun e => e.classes == key

/-- Count-bump-or-append step shared by the class-based extraction passes. -/
def pushOrBump (key html : String) (txt : Option String)
    (l : List ComponentMarkup) : List ComponentMarkup :=
  if hasKey key l then bumpFirst key l
  else l ++ [{ classes := key, html := html, text := txt, count := some 1 }]

/-! Field updaters for the shared mutable `AnalysisResult`. -/

def setMkButtons (l : List ComponentMarkup) (r : AnalysisResult) : AnalysisResult :=
  { r with extractedMarkup := { r.extractedMarkup with buttons := l } }
def setMkForms (l : List ComponentMarkup) (r : AnalysisResult) : AnalysisResult :=
  { r with extractedMarkup := { r.extractedMarkup with forms := l } }
def setMkTables (l : List ComponentMarkup) (r : AnalysisResult) : AnalysisResult :=
  { r with extractedMarkup := { r.extractedMarkup with tables := l } }
def setMkBoxes (l : List ComponentMarkup) (r : AnalysisResult) : AnalysisResult :=
  { r with extractedMarkup := { r.extractedMarkup with boxes := l } }
def setMkHelperBoxes (l : List ComponentMarkup) (r : AnalysisResult) : AnalysisResult :=
  { r with extractedMarkup := { r.extractedMarkup with helperBoxes := l } }
def setMkLists (l : List ComponentMarkup) (r : AnalysisResult) : AnalysisResult :=
  { r with extractedMarkup := { r.extractedMarkup with lists := l } }
def setMkStepLists (l : List ComponentMarkup) (r : AnalysisResult) : AnalysisResult :=
  { r with extractedMarkup := { r.extractedMarkup with stepLists := l } }
def setMkBreadcrumbs (l : List ComponentMarkup) (r : AnalysisResult) : AnalysisResult :=
  { r with extractedMarkup := { r.extractedMarkup with breadcrumbs := l } }
def setMkMenus (l : List ComponentMarkup) (r : AnalysisResult) : AnalysisResult :=
  { r with extractedMarkup := { r.extractedMarkup with menus := l } }
def setMkLeftMenus (l : List ComponentMarkup) (r : AnalysisResult) : AnalysisResult :=
  { r with extractedMarkup := { r.extractedMarkup with leftMenus := l } }
def setMkTabs (l : List ComponentMarkup) (r : AnalysisResult) : AnalysisResult :=
  { r with extractedMarkup := { r.extractedMarkup with tabs := l } }
def setMkPaginations (l : List ComponentMarkup) (r : AnalysisResult) : AnalysisResult :=
  { r with extractedMarkup := { r.extractedMarkup with paginations := l } }
def setMkModals (l : List ComponentMarkup) (r : AnalysisResult) : AnalysisResult :=
  { r with extractedMarkup := { r.extractedMarkup with modals := l } }
def setMkBadges (l : List ComponentMarkup) (r : AnalysisResult) : AnalysisResult :=
  { r with extractedMarkup := { r.extractedMarkup with badges := l } }
def setMkAccordions (l : List ComponentMarkup) (r : AnalysisResult) : AnalysisResult :=
  { r with extractedMarkup := { r.extractedMarkup with accordions := l } }

def pushCompButtons (c : String) (r : AnalysisResult) : AnalysisResult :=
  { r with components := { r.components with buttons := r.components.buttons ++ [c] } }
def pushCompForms (c : String) (r : AnalysisResult) : AnalysisResult :=
  { r with components := { r.components with forms := r.components.forms ++ [c] } }
def pushCompTables (c : String) (r : AnalysisResult) : AnalysisResult :=
  { r with components := { r.components with tables := r.components.tables ++ [c] } }
def pushCompLists (c : String) (r : AnalysisResult) : AnalysisResult :=
  { r with components := { r.components with lists := r.components.lists ++ [c] } }
def pushCompModals (c : String) (r : AnalysisResult) : AnalysisResult :=
  { r with components := { r.components with modals := r.components.modals ++ [c] } }
def pushCompTabs (c : String) (r : AnalysisResult) : AnalysisResult :=
  { r with components := { r.components with tabs := r.components.tabs ++ [c] } }
def pushCompPagination (c : String) (r : AnalysisResult) : AnalysisResult :=
  { r with components := { r.components with pagination := r.components.pagination ++ [c] } }
def pushCompAccordions (c : String) (r : AnalysisResult) : AnalysisResult :=
  { r with components := { r.components with accordions := r.components.accordions ++ [c] } }

/-! ## `extractComponents` -/

/-- Carousel/slider library class substrings (checked on lower-cased class
strings). -/
def isSliderClassStr (s : String) : Bool :=
  incl "swiper" s || incl "slick" s || incl "owl-" s ||
  incl "bx-" s || incl "splide" s

/-- `isSliderRelated`: the element's own class, or any ancestor's class,
contains a carousel library substring. -/
def isSliderRelated (c : Cand) : Bool :=
  isSliderClassStr (lowStr (className c.el)) ||
  c.anc.any fun p => isSliderClassStr (lowStr (className p))

/-- `button, .btn, [class*="btn-"]`. -/
def btnSel (nd : Node) : Bool :=
  tagIs "button" nd || tokHas "btn" nd || clsHas "btn-" nd

def buttonsPass (ist : Store) (doc : Node) (r : AnalysisResult) :
    AnalysisResult :=
  (queryAll doc btnSel).foldl
    (fun r c =>
      let isButtonTag := tagIs "button" c.el
      let cls := className c.el
      let classKey := if cls != "" then cls else if isButtonTag then "button" else ""
      if isSliderRelated c then r
      else
        let html := cleanMarkup ist (serialize c.el)
        let txt := takeS 30 (trimS (textContent c.el))
        let r :=
          if isButtonTag || cls != "" then
            setMkButtons (pushOrBump classKey html (some txt) r.extractedMarkup.buttons) r
          else r
        { r with buttons := r.buttons ++ [{ classes := cls, text := txt }] })
    r

/-- `.form-group, .form-row, .form-item, .write-form`. -/
def formSel (nd : Node) : Bool :=
  tokHas "form-group" nd || tokHas "form-row" nd ||
  tokHas "form-item" nd || tokHas "write-form" nd

def formsPass (ist : Store) (doc : Node) (r : AnalysisResult) :
    AnalysisResult :=
  (queryAll doc formSel).foldl
    (fun r c =>
      let html := cleanMarkup ist (serialize c.el)
      if html.length < 2000 then
        setMkForms (pushOrBump (className c.el) html none r.extractedMarkup.forms) r
      else r)
    r

def inputSel (nd : Node) : Bool :=
  tagIs "input" nd || tagIs "select" nd || tagIs "textarea" nd

/-- `input, select, textarea` observations.  The DOM `type` property is
modelled as the `type` attribute when present, else the tag name (the exact
DOM default is immaterial here: `result.inputs` is never read again). -/
def inputsPass (doc : Node) (r : AnalysisResult) : AnalysisResult :=
  (queryAll doc inputSel).foldl
    (fun r c =>
      let ob : InputObs :=
        { itype := (attr "type" c.el).getD (tagLower c.el),
          classes := className c.el }
      { r with inputs := r.inputs ++ [ob] })
    r

/-- Table-wrapper heuristic (analyzer.ts lines 284-296). -/
def isTableWrapper (nd : Node) : Bool :=
  tagDOM nd == "DIV" &&
  (incl "table-wrap" (className nd) || incl "table_wrap" (className nd) ||
   incl "table-responsive" (className nd) || incl "tbl-wrap" (className nd) ||
   incl "tbl_wrap" (className nd) || tokHas "table" nd || tokHas "tbl" nd)

/-- Wrapper promotion: the grandparent is checked first, then the parent;
the matched element itself is the fallback.  Returns the capture target and
its tree position. -/
def promoteTarget (c : Cand) (isWrap : Node → Bool) : Node × List Nat :=
  match c.anc with
  | p :: g :: _ =>
    if isWrap g then (g, c.path.dropLast.dropLast)
    else if isWrap p then (p, c.path.dropLast)
    else (c.el, c.path)
  | [p] => if isWrap p then (p, c.path.dropLast) else (c.el, c.path)
  | [] => (c.el, c.path)

def tablesPass (ist : Store) (doc : Node) (r : AnalysisResult) :
    AnalysisResult :=
  ((queryAll doc (tagIs "table")).foldl
    (fun (p : AnalysisResult × List (List Nat)) c =>
      let r := p.1
      let seen := p.2
      let r := { r with tables := r.tables ++ [className c.el] }
      let tgt := promoteTarget c isTableWrapper
      let tEl := tgt.1
      let tPath := tgt.2
      let targetClass := if className tEl != "" then className tEl else "table"
      let html := cleanMarkup ist (serialize tEl)
      if html.length < 5000 then
        if hasKey targetClass r.extractedMarkup.tables then
          (setMkTables (bumpFirst targetClass r.extractedMarkup.tables) r, seen)
        else if seen.contains tPath then (r, seen)
        else
          (setMkTables (r.extractedMarkup.tables ++
            [{ classes := targetClass, html := html, count := some 1 }]) r,
           seen ++ [tPath])
      else (r, seen))
    (r, [])).1

def boxSel (nd : Node) : Bool :=
  tokHas "box" nd || tokHas "box-wrap" nd || tokHas "flex-box" nd

def boxesPass (ist : Store) (doc : Node) (r : AnalysisResult) :
    AnalysisResult :=
  (queryAll doc boxSel).foldl
    (fun r c =>
      let html := cleanMarkup ist (serialize c.el)
      if html.length < 2000 then
        setMkBoxes (pushOrBump (className c.el) html none r.extractedMarkup.boxes) r
      else r)
    r

def helperBoxesPass (ist : Store) (doc : Node) (r : AnalysisResult) :
    AnalysisResult :=
  (queryAll doc (tokHas "helper-box")).foldl
    (fun r c =>
      let html := cleanMarkup ist (serialize c.el)
      if html.length < 2000 then
        setMkHelperBoxes
          (pushOrBump (className c.el) html none r.extractedMarkup.helperBoxes) r
      else r)
    r

def listSel (nd : Node) : Bool :=
  tokHas "list-dot" nd || tokHas "list-order" nd ||
  tokHas "list-dash" nd || tokHas "list-sdot" nd

def listsPass (ist : Store) (doc : Node) (r : AnalysisResult) :
    AnalysisResult :=
  (queryAll doc listSel).foldl
    (fun r c =>
      let html := cleanMarkup ist (serialize c.el)
      if html.length < 1500 then
        setMkLists (pushOrBump (className c.el) html none r.extractedMarkup.lists) r
      else r)
    r

def stepListsPass (ist : Store) (doc : Node) (r : AnalysisResult) :
    AnalysisResult :=
  (queryAll doc fun nd => tokHas "step-list" nd || tokHas "list-procedure" nd).foldl
    (fun r c =>
      let html := cleanMarkup ist (serialize c.el)
      if html.length < 3000 then
        setMkStepLists
          (pushOrBump (className c.el) html none r.extractedMarkup.stepLists) r
      else r)
    r

def breadcrumbsPass (ist : Store) (doc : Node) (r : AnalysisResult) :
    AnalysisResult :=
  (queryAll doc fun nd => tokHas "breadcrumb-wrap" nd || tokHas "breadcrumb" nd).foldl
    (fun r c =>
      let html := cleanMarkup ist (serialize c.el)
      setMkBreadcrumbs
        (pushOrBump (className c.el) html none r.extractedMarkup.breadcrumbs) r)
    r

def menusPass (ist : Store) (doc : Node) (r : AnalysisResult) :
    AnalysisResult :=
  (queryAll doc fun nd => tokHas "topmenu" nd || tokHas "head-gnb" nd).foldl
    (fun r c =>
      let html := cleanMarkup ist (serialize c.el)
      if html.length < 5000 then
        setMkMenus (pushOrBump (className c.el) html none r.extractedMarkup.menus) r
      else r)
    r

def leftMenusPass (ist : Store) (doc : Node) (r : AnalysisResult) :
    AnalysisResult :=
  (queryAll doc fun nd => tokHas "left-menu" nd || idStr nd == "snb").foldl
    (fun r c =>
      let html := cleanMarkup ist (serialize c.el)
      if html.length < 5000 then
        setMkLeftMenus
          (pushOrBump (className c.el) html none r.extractedMarkup.leftMenus) r
      else r)
    r

/-- `.tabs, .tab-nav, .tab-conts-wrap, [role="tablist"]`. -/
def tabSel (nd : Node) : Bool :=
  tokHas "tabs" nd || tokHas "tab-nav" nd || tokHas "tab-conts-wrap" nd ||
  roleIs "tablist" nd

def tabsPass (ist : Store) (doc : Node) (r : AnalysisResult) :
    AnalysisResult :=
  (queryAll doc tabSel).foldl
    (fun r c =>
      let cls := className c.el
      if incl "contents" cls || incl "section" cls || incl "page-" cls then r
      else
        let html := cleanMarkup ist (serialize c.el)
        if html.length < 1500 then
          setMkTabs (pushOrBump cls html none r.extractedMarkup.tabs) r
        else r)
    r

def pagSel (nd : Node) : Bool :=
  tokHas "page-navi" nd || tokHas "page-links" nd || tokHas "paging" nd ||
  tokHas "pagination" nd || clsHas "paging" nd || clsHas "pager" nd ||
  clsHas "_pager" nd || clsHas "-pager" nd

def isPaginationWrapper (nd : Node) : Bool :=
  incl "paging" (className nd) || incl "pager" (className nd) ||
  incl "pagination" (className nd) || incl "page-navi" (className nd) ||
  tagDOM nd == "NAV"

def paginationsPass (ist : Store) (doc : Node) (r : AnalysisResult) :
    AnalysisResult :=
  (queryAll doc pagSel).foldl
    (fun r c =>
      let tEl := (promoteTarget c isPaginationWrapper).1
      let html := cleanMarkup ist (serialize tEl)
      let targetClass := if className tEl != "" then className tEl else "pagination"
      let isDup := r.extractedMarkup.paginations.any fun p =>
        incl html p.html || incl p.html html
      if html.length < 3000 then
        if hasKey targetClass r.extractedMarkup.paginations then
          setMkPaginations (bumpFirst targetClass r.extractedMarkup.paginations) r
        else if isDup then r
        else
          setMkPaginations (r.extractedMarkup.paginations ++
            [{ classes := targetClass, html := html, count := some 1 }]) r
      else r)
    r

def modalSel (nd : Node) : Bool :=
  tokHas "modal" nd || tokHas "popup" nd || clsHas "layer" nd

def modalsPass (ist : Store) (doc : Node) (r : AnalysisResult) :
    AnalysisResult :=
  (queryAll doc modalSel).foldl
    (fun r c =>
      let html := cleanMarkup ist (serialize c.el)
      let r :=
        if html.length < 5000 then
          setMkModals
            (pushOrBump (className c.el) html none r.extractedMarkup.modals) r
        else r
      { r with modals := r.modals ++ [className c.el] })
    r

def badgeSel (nd : Node) : Bool :=
  tokHas "badge" nd || clsHas "badge" nd || tokHas "tag" nd ||
  clsHas "state-" nd || clsHas "status-" nd

def badgesPass (ist : Store) (doc : Node) (r : AnalysisResult) :
    AnalysisResult :=
  (queryAll doc badgeSel).foldl
    (fun r c =>
      let html := cleanMarkup ist (serialize c.el)
      if html.length < 500 then
        setMkBadges
          (pushOrBump (className c.el) html
            (some (takeS 30 (trimS (textContent c.el))))
            r.extractedMarkup.badges) r
      else r)
    r

def accordionSel (nd : Node) : Bool :=
  tokHas "accordion" nd || clsHas "accordion" nd || tokHas "collapse" nd ||
  tokHas "toggle-wrap" nd || tokHas "aco-wrap" nd

def accordionsPass (ist : Store) (doc : Node) (r : AnalysisResult) :
    AnalysisResult :=
  (queryAll doc accordionSel).foldl
    (fun r c =>
      let html := cleanMarkup ist (serialize c.el)
      if html.length < 5000 then
        setMkAccordions
          (pushOrBump (className c.el) html none r.extractedMarkup.accordions) r
      else r)
    r

def headingTag (nd : Node) : Bool :=
  ["h1", "h2", "h3", "h4", "h5", "h6"].contains (tagLower nd)

/-- Typography scope selection: `main` descendants, else `.contents`
descendants, else the whole document (first scope found wins). -/
def typoCands (doc : Node) : List Cand :=
  let inScope : Cand → Bool :=
    if (allEls doc).any (fun c => tagIs "main" c.el) then
      fun c => c.anc.any (tagIs "main")
    else if (allEls doc).any (fun c => tokHas "contents" c.el) then
      fun c => c.anc.any (tokHas "contents")
    else fun _ => true
  (allEls doc).filter fun c =>
    headingTag c.el && hasAttr "class" c.el && inScope c

/-- `existing.count = (existing.count || 0) + 1` on the first matching
typography entry. -/
def bumpTypo (cls : String) : List TypographyInfo → List TypographyInfo
  | [] => []
  | t :: ts =>
    if t.className == cls then { t with count := some (t.count.getD 0 + 1) } :: ts
    else t :: bumpTypo cls ts

def typographyPass (doc : Node) (r : AnalysisResult) : AnalysisResult :=
  (typoCands doc).foldl
    (fun r c =>
      let tag := tagLower c.el
      (splitS ' ' (className c.el)).foldl
        (fun r cls0 =>
          let cls := trimS cls0
          if cls != "" &&
              (incl "title" (lowStr cls) || incl "tit" (lowStr cls)) then
            if r.typographyInfo.any (fun t => t.className == cls) then
              { r with typographyInfo := bumpTypo cls r.typographyInfo }
            else
              let ti : TypographyInfo :=
                { className := cls, tagName := tag,
                  text := some (takeS 50 (trimS (textContent c.el))),
                  count := some 1 }
              { r with typographyInfo := r.typographyInfo ++ [ti] }
          else r)
        r)
    r

def iconSel (nd : Node) : Bool :=
  clsHas "ico-" nd || clsHas "icon-" nd || tokHas "svg-icon" nd

def iconsPass (doc : Node) (r : AnalysisResult) : AnalysisResult :=
  (queryAll doc iconSel).foldl
    (fun r c =>
      (splitS ' ' ((attr "class" c.el).getD "")).foldl
        (fun r cls =>
          if incl "ico-" cls || incl "icon-" cls then
            { r with icons := addSet cls r.icons }
          else r)
        r)
    r

def roleListPass (ist : Store) (doc : Node) (r : AnalysisResult) :
    AnalysisResult :=
  (queryAll doc (roleIs "list")).foldl
    (fun r c =>
      let cls := className c.el
      let html := cleanMarkup ist (serialize c.el)
      let r :=
        if r.extractedMarkup.lists.length < 5 && html.length < 1500 then
          if (r.extractedMarkup.lists.map (fun l => l.classes)).contains cls then r
          else
            setMkLists (r.extractedMarkup.lists ++
              [{ classes := if cls != "" then cls else "role-list", html := html }]) r
        else r
      if cls != "" then pushCompLists cls r else r)
    r

def roleTablistPass (doc : Node) (r : AnalysisResult) : AnalysisResult :=
  (queryAll doc (roleIs "tablist")).foldl
    (fun r c =>
      if className c.el != "" then pushCompTabs (className c.el) r else r)
    r

def roleDialogPass (ist : Store) (doc : Node) (r : AnalysisResult) :
    AnalysisResult :=
  (queryAll doc fun nd => roleIs "dialog" nd || roleIs "alertdialog" nd).foldl
    (fun r c =>
      let cls := className c.el
      let html := cleanMarkup ist (serialize c.el)
      let r :=
        if r.extractedMarkup.modals.length < 3 && html.length < 5000 then
          if (r.extractedMarkup.modals.map (fun m => m.classes)).contains cls then r
          else
            setMkModals (r.extractedMarkup.modals ++
              [{ classes := if cls != "" then cls else "role-dialog", html := html }]) r
        else r
      if cls != "" then
        pushCompModals cls { r with modals := r.modals ++ [cls] }
      else r)
    r

/-- `role="button"` pass: only the element's **own** class is checked
against the carousel exclusion list (no ancestor walk here). -/
def roleButtonPass (ist : Store) (doc : Node) (r : AnalysisResult) :
    AnalysisResult :=
  (queryAll doc (roleIs "button")).foldl
    (fun r c =>
      let cls := className c.el
      if isSliderClassStr (lowStr cls) then r
      else
        let html := cleanMarkup ist (serialize c.el)
        let r :=
          if !hasKey cls r.extractedMarkup.buttons && cls != "" then
            setMkButtons (r.extractedMarkup.buttons ++
              [{ classes := cls, html := html,
                 text := some (takeS 30 (trimS (textContent c.el))) }]) r
          else r
        if cls != "" then pushCompButtons cls r else r)
    r

def roleNavPass (doc : Node) (r : AnalysisResult) : AnalysisResult :=
  (queryAll doc (roleIs "navigation")).foldl
    (fun r c =>
      if className c.el != "" then pushCompLists (className c.el) r else r)
    r

def roleTablePass (ist : Store) (doc : Node) (r : AnalysisResult) :
    AnalysisResult :=
  (queryAll doc fun nd => roleIs "table" nd || roleIs "grid" nd).foldl
    (fun r c =>
      let cls := className c.el
      let html := cleanMarkup ist (serialize c.el)
      let r :=
        if r.extractedMarkup.tables.length < 5 && html.length < 5000 then
          if (r.extractedMarkup.tables.map (fun t => t.classes)).contains cls then r
          else
            setMkTables (r.extractedMarkup.tables ++
              [{ classes := if cls != "" then cls else "role-table", html := html }]) r
        else r
      if cls != "" then
        pushCompTables cls { r with tables := r.tables ++ [cls] }
      else r)
    r

def idTabPass (ist : Store) (doc : Node) (r : AnalysisResult) :
    AnalysisResult :=
  (queryAll doc (idHas "tab")).foldl
    (fun r c =>
      let idName := idStr c.el
      let cls := className c.el
      if idName != "" && !incl "table" idName && !incl "contents" cls &&
          !incl "section" cls && !incl "page-" cls then
        let html := cleanMarkup ist (serialize c.el)
        let r :=
          if html.length < 1500 then
            setMkTabs (pushOrBump ("#" ++ idName) html none r.extractedMarkup.tabs) r
          else r
        pushCompTabs ("#" ++ idName) r
      else r)
    r

def idModalPass (ist : Store) (doc : Node) (r : AnalysisResult) :
    AnalysisResult :=
  (queryAll doc fun nd => idHas "modal" nd || idHas "popup" nd ||
      idHas "layer" nd || idHas "dialog" nd).foldl
    (fun r c =>
      let idName := idStr c.el
      if idName != "" then
        let html := cleanMarkup ist (serialize c.el)
        let r :=
          if r.extractedMarkup.modals.length < 3 && html.length < 5000 then
            if (r.extractedMarkup.modals.map (fun m => m.classes)).contains idName then r
            else
              setMkModals (r.extractedMarkup.modals ++
                [{ classes := "#" ++ idName, html := html }]) r
          else r
        pushCompModals ("#" ++ idName)
          { r with modals := r.modals ++ ["#" ++ idName] }
      else r)
    r

def idAccordionPass (ist : Store) (doc : Node) (r : AnalysisResult) :
    AnalysisResult :=
  (queryAll doc fun nd => idHas "accordion" nd || idHas "collapse" nd ||
      idHas "toggle" nd || idHas "faq" nd).foldl
    (fun r c =>
      let idName := idStr c.el
      if idName != "" then
        let html := cleanMarkup ist (serialize c.el)
        let r :=
          if r.extractedMarkup.accordions.length < 3 && html.length < 5000 then
            if (r.extractedMarkup.accordions.map (fun a => a.classes)).contains idName then r
            else
              setMkAccordions (r.extractedMarkup.accordions ++
                [{ classes := "#" ++ idName, html := html }]) r
          else r
        pushCompAccordions ("#" ++ idName) r
      else r)
    r

def idPagingPass (ist : Store) (doc : Node) (r : AnalysisResult) :
    AnalysisResult :=
  (queryAll doc fun nd => idHas "paging" nd || idHas "pagination" nd ||
      idHas "page-nav" nd).foldl
    (fun r c =>
      let idName := idStr c.el
      if idName != "" then
        let html := cleanMarkup ist (serialize c.el)
        let r :=
          if r.extractedMarkup.paginations.length < 2 && html.length < 3000 then
            if (r.extractedMarkup.paginations.map (fun p => p.classes)).contains idName then r
            else
              setMkPaginations (r.extractedMarkup.paginations ++
                [{ classes := "#" ++ idName, html := html }]) r
          else r
        pushCompPagination ("#" ++ idName) r
      else r)
    r

def idFormPass (ist : Store) (doc : Node) (r : AnalysisResult) :
    AnalysisResult :=
  (queryAll doc fun nd => (tagIs "form" nd && hasAttr "id" nd) ||
      idHas "form" nd || idHas "search" nd).foldl
    (fun r c =>
      let idName := idStr c.el
      if idName != "" then
        let html := cleanMarkup ist (serialize c.el)
        let r :=
          if r.extractedMarkup.forms.length < 5 && html.length < 3000 then
            if (r.extractedMarkup.forms.map (fun f => f.classes)).contains idName then r
            else
              setMkForms (r.extractedMarkup.forms ++
                [{ classes := "#" ++ idName, html := html }]) r
          else r
        pushCompForms ("#" ++ idName) r
      else r)
    r

/-- `extractComponents(doc, result)`: all passes in source order. -/
def extractComponents (ist : Store) (doc : Node) (r : AnalysisResult) :
    AnalysisResult :=
  let r := buttonsPass ist doc r
  let r := formsPass ist doc r
  let r := inputsPass doc r
  let r := tablesPass ist doc r
  let r := boxesPass ist doc r
  let r := helperBoxesPass ist doc r
  let r := listsPass ist doc r
  let r := stepListsPass ist doc r
  let r := breadcrumbsPass ist doc r
  let r := menusPass ist doc r
  let r := leftMenusPass ist doc r
  let r := tabsPass ist doc r
  let r := paginationsPass ist doc r
  let r := modalsPass ist doc r
  let r := badgesPass ist doc r
  let r := accordionsPass ist doc r
  let r := typographyPass doc r
  let r := iconsPass doc r
  let r := roleListPass ist doc r
  let r := roleTablistPass doc r
  let r := roleDialogPass ist doc r
  let r := roleButtonPass ist doc r
  let r := roleNavPass doc r
  let r := roleTablePass ist doc r
  let r := idTabPass ist doc r
  let r := idModalPass ist doc r
  let r := idAccordionPass ist doc r
  let r := idPagingPass ist doc r
  idFormPass ist doc r

/-! ## `analyzeFiles` -/

inductive UFile where
  | htmlF (name : String) (doc : Node)
  | cssF (name : String) (content : String)
  | jsF (name : String) (content : String)
  | imageF (name : String) (content : String)
deriving Repr, BEq

def isHtmlF : UFile → Bool | .htmlF _ _ => true | _ => false
def isCssF : UFile → Bool | .cssF _ _ => true | _ => false
def isJsF : UFile → Bool | .jsF _ _ => true | _ => false
def isImageF : UFile → Bool | .imageF _ _ => true | _ => false

def ufName : UFile → String
  | .htmlF n _ => n | .cssF n _ => n | .jsF n _ => n | .imageF n _ => n

def ufText : UFile → String
  | .htmlF _ _ => "" | .cssF _ c => c | .jsF _ c => c | .imageF _ c => c

/-- Class-vocabulary collection (analyzer.ts lines 81-86). -/
def classesPass (doc : Node) (r : AnalysisResult) : AnalysisResult :=
  (queryAll doc (hasAttr "class")).foldl
    (fun r c =>
      (splitS ' ' ((attr "class" c.el).getD "")).foldl
        (fun r cls =>
          let t := trimS cls
          if t != "" then { r with classes := addSet t r.classes } else r)
        r)
    r

def idsPass (doc : Node) (r : AnalysisResult) : AnalysisResult :=
  (queryAll doc (hasAttr "id")).foldl
    (fun r c => { r with ids := addSet (idStr c.el) r.ids }) r

def tagsPass (doc : Node) (r : AnalysisResult) : AnalysisResult :=
  (allEls doc).foldl
    (fun r c => { r with tags := addSet (tagLower c.el) r.tags }) r

def faviconsPass (doc : Node) (r : AnalysisResult) : AnalysisResult :=
  let r := (queryAll doc fun nd =>
      tagIs "link" nd && incl "icon" ((attr "rel" nd).getD "")).foldl
    (fun r c =>
      match attr "href" c.el with
      | some href =>
        if href != "" then
          let rel0 := (attr "rel" c.el).getD ""
          let fi : FaviconInfo :=
            { rel := if rel0 != "" then rel0 else "icon", href := href,
              sizes := match attr "sizes" c.el with
                | some s => if s != "" then some s else none
                | none => none,
              typ := match attr "type" c.el with
                | some s => if s != "" then some s else none
                | none => none }
          if r.favicons.any (fun f => f.href == href) then r
          else { r with favicons := r.favicons ++ [fi] }
        else r
      | none => r)
    r
  if r.favicons.length > 0 then { r with hasFavicon := true } else r

def ogPass (doc : Node) (r : AnalysisResult) : AnalysisResult :=
  let r := (queryAll doc fun nd => tagIs "meta" nd &&
      starts "og:".data ((attr "property" nd).getD "").data).foldl
    (fun r c =>
      match attr "property" c.el, attr "content" c.el with
      | some property, some content =>
        if property != "" && content != "" then
          if r.ogTags.any (fun t => t.property == property) then r
          else { r with ogTags := r.ogTags ++ [{ property, content }] }
        else r
      | _, _ => r)
    r
  if r.ogTags.length > 0 then { r with hasOG := true } else r

/-- Per-document metadata collection (classes/ids/tags sets, favicons, OG
tags) followed by component extraction. -/
def analyzeDoc (ist : Store) (doc : Node) (r : AnalysisResult) :
    AnalysisResult :=
  extractComponents ist doc
    (ogPass doc (faviconsPass doc (tagsPass doc (idsPass doc (classesPass doc r)))))

/-! ### CSS token scanners -/

def isHexDigit (c : Char) : Bool :=
  ('0' ≤ c && c ≤ '9') || ('a' ≤ c && c ≤ 'f') || ('A' ≤ c && c ≤ 'F')

def isWordDash (c : Char) : Bool :=
  ('0' ≤ c && c ≤ '9') || ('a' ≤ c && c ≤ 'z') || ('A' ≤ c && c ≤ 'Z') ||
  c == '_' || c == '-'

/-- One function-style colour alternative `name(…)` at the head of `l`. -/
def colorFnAt (name : List Char) (l : List Char) : Option (List Char × List Char) :=
  if starts (name ++ ['(']) l then
    let r := l.drop (name.length + 1)
    let t := r.takeWhile fun c => !(c == ')')
    if t.isEmpty then none
    else match r.dropWhile (fun c => !(c == ')')) with
      | ')' :: rest => some (name ++ '(' :: (t ++ [')']), rest)
      | _ => none
  else none

/-- One alternative of the colour-literal regex at the head of `l`:
`#hex{3,8}`, `rgb(…)`, `rgba(…)` or `hsl(…)` (first alternative wins,
case-sensitively: the source regex has no `i` flag). -/
def colorAt (l : List Char) : Option (List Char × List Char) :=
  match l with
  | '#' :: r =>
    let run := r.takeWhile isHexDigit
    if 3 ≤ run.length then
      some ('#' :: run.take 8, r.drop (min 8 run.length))
    else none
  | _ =>
    match colorFnAt "rgb".data l with
    | some m => some m
    | none =>
      match colorFnAt "rgba".data l with
      | some m => some m
      | none => colorFnAt "hsl".data l

/-- All colour-literal matches in document order. -/
def cssColors : Nat → List Char → List String
  | 0, _ => []
  | _ + 1, [] => []
  | f + 1, c :: cs =>
    match colorAt (c :: cs) with
    | some (m, rest) => (⟨m⟩ : String) :: cssColors f rest
    | none => cssColors f cs

/-- One `--name\s*:\s*value;` declaration at the head of `l`: returns the
trimmed name, the trimmed value, and the remainder after the `;`. -/
def cssVarAt (l : List Char) : Option (String × String × List Char) :=
  if starts "--".data l then
    let name := (l.drop 2).takeWhile isWordDash
    if name.isEmpty then none
    else
      let r1 := (l.drop 2).drop name.length
      match r1.dropWhile jsWs with
      | ':' :: r3 =>
        let total := r3.takeWhile fun c => !(c == ';')
        if total.isEmpty then none
        else match r3.dropWhile (fun c => !(c == ';')) with
          | ';' :: rest => some (⟨name⟩, ⟨trimList total⟩, rest)
          | _ => none
      | _ => none
  else none

/-- All custom-property declarations in document order. -/
def cssVarDecls : Nat → List Char → List (String × String)
  | 0, _ => []
  | _ + 1, [] => []
  | f + 1, c :: cs =>
    match cssVarAt (c :: cs) with
    | some (n, v, rest) => (n, v) :: cssVarDecls f rest
    | none => cssVarDecls f cs

def startsS (p s : String) : Bool := starts p.data s.data

/-- Category classification of one custom property (value-based colour
check first, then font, then size, else other). -/
def classifyVar (name value : String) : String :=
  if startsS "#" value || startsS "rgb" value || startsS "hsl" value then
    "color"
  else if incl "font" name || incl "letter" name || incl "family" name then
    "font"
  else if incl "rem" value || incl "px" value || incl "em" value ||
      incl "size" name || incl "height" name || incl "width" name ||
      incl "space" name || incl "inner" name then
    "size"
  else "other"

/-- The first-seen-wins fold over one declaration list (analyzer.ts lines
140-173). -/
def cssVarStep (r : AnalysisResult) (nv : String × String) : AnalysisResult :=
  if r.cssVariables.any (fun v => v.name == nv.1) then r
  else
    { r with cssVariables := r.cssVariables ++
        [{ name := nv.1, value := nv.2, category := classifyVar nv.1 nv.2 }] }

def analyzeCss (content : String) (r : AnalysisResult) : AnalysisResult :=
  let cols := cssColors (content.data.length + 1) content.data
  let r := { r with colors := cols.foldl (fun l c => addSet c l) r.colors }
  (cssVarDecls (content.data.length + 1) content.data).foldl cssVarStep r

/-- The `CSSVariable` record built from one declaration. -/
def cssEntry (nv : String × String) : CSSVariable :=
  { name := nv.1, value := nv.2, category := classifyVar nv.1 nv.2 }

/-- Spec-side reference: keep the first declaration of each name, in
declaration order ("unique by name, first-seen-wins"). -/
def firstWins (seen : List String) : List (String × String) → List (String × String)
  | [] => []
  | nv :: rest =>
    if seen.any (fun s => s == nv.1) then firstWins seen rest
    else nv :: firstWins (seen ++ [nv.1]) rest

/-- The accumulated `cssVariables` list after folding `cssVarStep` over a
declaration stream. -/
def varAcc (acc : List CSSVariable) : List (String × String) → List CSSVariable
  | [] => acc
  | nv :: rest =>
    if acc.any (fun v => v.name == nv.1) then varAcc acc rest
    else varAcc (acc ++ [cssEntry nv]) rest

/-! ### Sorting and classification -/

/-- Stable insertion sort step: the earlier element `x` moves past a later
`y` only when `y` strictly precedes it, so tied elements keep their
original relative order (models the stable JS `Array.prototype.sort`). -/
def insertBy (gt : α → α → Bool) (x : α) : List α → List α
  | [] => [x]
  | y :: ys => if gt y x then y :: insertBy gt x ys else x :: y :: ys

def sortBy (gt : α → α → Bool) : List α → List α
  | [] => []
  | x :: xs => insertBy gt x (sortBy gt xs)

def cmGt (a b : ComponentMarkup) : Bool := b.count.getD 0 < a.count.getD 0

def tiGt (a b : TypographyInfo) : Bool := b.count.getD 0 < a.count.getD 0

def sortMarkup (m : ExtractedMarkup) : ExtractedMarkup :=
  { buttons := sortBy cmGt m.buttons
    forms := sortBy cmGt m.forms
    tables := sortBy cmGt m.tables
    boxes := sortBy cmGt m.boxes
    helperBoxes := sortBy cmGt m.helperBoxes
    lists := sortBy cmGt m.lists
    stepLists := sortBy cmGt m.stepLists
    breadcrumbs := sortBy cmGt m.breadcrumbs
    menus := sortBy cmGt m.menus
    leftMenus := sortBy cmGt m.leftMenus
    tabs := sortBy cmGt m.tabs
    paginations := sortBy cmGt m.paginations
    modals := sortBy cmGt m.modals
    badges := sortBy cmGt m.badges
    accordions := sortBy cmGt m.accordions }

/-- `categorizeComponents`: recomputes the component buckets from the
accumulated class/id vocabulary (overwriting whatever the extraction passes
pushed). -/
def categorizeComponents (r : AnalysisResult) : AnalysisResult :=
  let classes := r.classes
  let ids := r.ids.map fun i => "#" ++ i
  let allIdentifiers := classes ++ ids
  let comps : ComponentCategories :=
    { buttons := classes.filter fun c =>
        (incl "btn" c || incl "button" c) && !isSliderClassStr (lowStr c)
      forms := allIdentifiers.filter fun c =>
        incl "form" c || incl "input" c || incl "select" c || incl "search" c
      tables := classes.filter fun c => incl "table" c || incl "tbl" c
      boxes := classes.filter fun c => incl "box" c || incl "card" c
      lists := allIdentifiers.filter fun c => incl "list" c
      modals := allIdentifiers.filter fun c =>
        incl "modal" c || incl "popup" c || incl "layer" c || incl "dialog" c
      tabs := allIdentifiers.filter fun c => incl "tab" c && !incl "table" c
      pagination := allIdentifiers.filter fun c =>
        incl "page" c || incl "paging" c
      typography := r.typographyInfo.map (fun t => t.className)
      badges := classes.filter fun c =>
        incl "badge" c || incl "tag" c || incl "state" c || incl "status" c
      accordions := allIdentifiers.filter fun c =>
        incl "accordion" c || incl "collapse" c || incl "toggle" c ||
        incl "aco" c || incl "faq" c }
  { r with components := comps }

/-- `analyzeFiles(files)` (with the process-wide image store passed
explicitly). -/
def analyzeFiles (ist : Store) (files : List UFile) : AnalysisResult :=
  let init : AnalysisResult :=
    { htmlFiles := (files.filter isHtmlF).length
      cssFiles := (files.filter isCssF).length
      jsFiles := (files.filter isJsF).length
      imageFiles := (files.filter isImageF).length }
  let r := (files.filter isHtmlF).foldl
    (fun r f => match f with
      | .htmlF _ doc => analyzeDoc ist doc r
      | _ => r)
    init
  let r := (files.filter isCssF).foldl
    (fun r f => analyzeCss (ufText f) r) r
  let r := { r with
    typographyInfo := sortBy tiGt r.typographyInfo,
    extractedMarkup := sortMarkup r.extractedMarkup }
  categorizeComponents r

/-! ## The style-guide builder (`builder.ts`) -/

structure SectionOptions where
  layout : Bool := true
  typography : Bool := true
  buttons : Bool := true
  forms : Bool := true
  tables : Bool := true
  boxes : Bool := true
  lists : Bool := true
  tabs : Bool := true
  modal : Bool := true
  icons : Bool := true
  pagination : Bool := true
  badge : Bool := true
  accordion : Bool := true
  colors : Bool := true
  favicon : Bool := true
deriving Repr, BEq

structure AdditionalClasses where
  colors : String := ""
  typography : String := ""
  icons : String := ""
  badge : String := ""
  lists : String := ""
  tabs : String := ""
  tables : String := ""
  buttons : String := ""
  forms : String := ""
  boxes : String := ""
  modal : String := ""
  pagination : String := ""
  accordion : String := ""
deriving Repr, BEq

structure StyleOptions where
  darkmode : Bool := false
  codeblock : Bool := true
  toc : Bool := true
  responsive : Bool := true
  fontFamily : String := "pretendard"
deriving Repr, BEq

structure ProjectInfo where
  name : String := ""
  version : String := ""
deriving Repr, BEq

/-- `escapeHtml` (a DOM text-node round-trip: `&`, `<`, `>` and NBSP are
entity-escaped). -/
def escapeHtml (t : String) : String :=
  ⟨t.data.foldr
    (fun c acc =>
      (if c == '&' then "&amp;".data
       else if c == '<' then "&lt;".data
       else if c == '>' then "&gt;".data
       else if c == Char.ofNat 160 then "&nbsp;".data
       else [c]) ++ acc)
    []⟩

/-- The id string of the `n`-th code block created by the process. -/
def cbName (n : Nat) : String := "code-block-" ++ toString n

/-- The code-block wrapper template with the id spliced in (builder.ts
lines 14-25). -/
def renderCodeBlock (id codeHtml : String) : String :=
  "<div class=\"sg-code-wrapper\">\n    <div class=\"sg-code-header\">\n      " ++
  "<button class=\"sg-code-toggle\" id=\"" ++ id ++ "-toggle\" style=\"display: none;\" " ++
  "onclick=\"document.getElementById(\x27" ++ id ++ "\x27).style.display = \x27block\x27; " ++
  "document.getElementById(\x27" ++ id ++ "-btns\x27).style.display = \x27flex\x27; " ++
  "this.style.display = \x27none\x27;\">코드열기</button>\n      " ++
  "<div class=\"sg-code-btns\" id=\"" ++ id ++ "-btns\">\n        " ++
  "<button class=\"sg-code-btn\" onclick=\"navigator.clipboard.writeText(" ++
  "document.getElementById(\x27" ++ id ++ "\x27).querySelector(\x27pre\x27).textContent)" ++
  ".then(() => \x7b this.textContent = \x27복사됨!\x27; setTimeout(() => \x7b " ++
  "this.textContent = \x27코드복사\x27; \x7d, 1500); \x7d)\">코드복사</button>\n        " ++
  "<button class=\"sg-code-btn\" onclick=\"document.getElementById(\x27" ++ id ++
  "\x27).style.display = \x27none\x27; document.getElementById(\x27" ++ id ++
  "-btns\x27).style.display = \x27none\x27; document.getElementById(\x27" ++ id ++
  "-toggle\x27).style.display = \x27inline-block\x27;\">코드닫기</button>\n      </div>\n    " ++
  "</div>\n    <div class=\"sg-code\" id=\"" ++ id ++ "\">\n      <pre>" ++
  escapeHtml codeHtml ++ "</pre>\n    </div>\n  </div>"

/-- `buildCodeBlock`, with the process-wide `codeBlockId` counter threaded
explicitly: the `n+1`-st block gets id `code-block-(n+1)`. -/
def buildCodeBlock (codeHtml : String) (includeCode : Bool) (cnt : Nat) :
    String × Nat :=
  if !includeCode || codeHtml == "" then ("", cnt)
  else (renderCodeBlock (cbName (cnt + 1)) codeHtml, cnt + 1)

/-- `[...new Set(l)]`: first-occurrence dedup preserving order. -/
def dedupFirst (l : List String) : List String :=
  l.foldl (fun acc x => addSet x acc) []

/-- Keep the first entry for each `classes` value (the `seenClasses`
filters of the section builders). -/
def dedupCM : List ComponentMarkup → List String → List ComponentMarkup
  | [], _ => []
  | e :: es, seen =>
    if seen.contains e.classes then dedupCM es seen
    else e :: dedupCM es (seen ++ [e.classes])

def dedupByClasses (l : List ComponentMarkup) : List ComponentMarkup :=
  dedupCM l []

def joinS (sep : String) (l : List String) : String := String.intercalate sep l

/-- The `countMap.get` of `buildSortedClassList` (last write wins, only
entries with a truthy count are stored). -/
def countMapGet (items : List ComponentMarkup) (a : String) : Option Nat :=
  items.foldl
    (fun acc it =>
      if it.classes == a then
        match it.count with
        | some n => if n != 0 then some n else acc
        | none => acc
      else acc)
    none

/-- `countMap.get(a) || items.find(e => e.classes === a ||
e.classes.includes(a))?.count || 0`. -/
def clsCount (items : List ComponentMarkup) (a : String) : Nat :=
  match countMapGet items a with
  | some n => n
  | none =>
    match items.find? (fun e => e.classes == a || incl a e.classes) with
    | some e => e.count.getD 0
    | none => 0

/-- `buildSortedClassList`: frequency-sorted class label line. -/
def buildSortedClassList (classes : List String)
    (items : List ComponentMarkup) : String :=
  if classes.length == 0 then ""
  else
    let sortedClasses := sortBy (fun a b => clsCount items b < clsCount items a) classes
    let classListWithCount := joinS ", " (sortedClasses.map fun c =>
      let count := clsCount items c
      let displayName := if startsS "#" c then c else "." ++ c
      if count > 0 then displayName ++ "(" ++ toString count ++ ")" else displayName)
    "<p class=\"sg-section-class\">" ++ classListWithCount ++ "</p>"

/-- `buildButtonSection`: everything except the code block, which is
spliced between `pre` and the closing tag. -/
def buttonSectionParts (id : Nat) (result : AnalysisResult)
    (extraClasses : List String) : String × String :=
  let buttonClasses := (dedupFirst (result.components.buttons ++ extraClasses)).take 20
  let extracted := result.extractedMarkup.buttons.take 10
  let extraButtons := joinS "\n" (extraClasses.map fun cls =>
    "<button class=\"" ++ cls ++ "\">버튼 (." ++ cls ++ ")</button>")
  let previewHtml :=
    if extracted.length > 0 then
      joinS "\n" (extracted.map (fun b => b.html)) ++
        (if extraButtons != "" then "\n" ++ extraButtons else "")
    else joinS "\n" ((buttonClasses.take 5).map fun cls =>
      "<button class=\"" ++ cls ++ "\">버튼</button>")
  let codeHtml :=
    if extracted.length > 0 then
      joinS "\n\n" (extracted.map (fun b => b.html)) ++
        (if extraButtons != "" then "\n\n<!-- 추가 클래스 -->\n" ++ extraButtons else "")
    else joinS "\n" (buttonClasses.map fun cls =>
      "<button class=\"" ++ cls ++ "\">버튼</button>")
  let classListHtml := buildSortedClassList buttonClasses result.extractedMarkup.buttons
  ("<section class=\"sg-section\" id=\"buttons\"><h2 class=\"sg-title\">" ++
     toString id ++ ". 버튼</h2>" ++ classListHtml ++
     "<div class=\"sg-preview sg-button-grid\">" ++ previewHtml ++ "</div>",
   codeHtml)

def buildButtonSection (id : Nat) (includeCode : Bool) (result : AnalysisResult)
    (extraClasses : List String) (cnt : Nat) : String × Nat :=
  let parts := buttonSectionParts id result extraClasses
  let cb := buildCodeBlock parts.2 includeCode cnt
  (parts.1 ++ cb.1 ++ "</section>", cb.2)

def formSectionParts (id : Nat) (result : AnalysisResult)
    (extraClasses : List String) : String × String :=
  let formClasses := (dedupFirst (result.components.forms ++ extraClasses)).take 20
  let allForms := result.extractedMarkup.forms
  let extracted := (dedupByClasses allForms).take 5
  let extraFormsHtml := joinS "" (extraClasses.map fun cls =>
    "<div class=\"sg-extracted-item\"><div class=\"" ++ cls ++ "\">폼 요소 (." ++
      cls ++ ")</div></div>")
  let previewHtml :=
    if extracted.length > 0 then
      joinS "" (extracted.map fun f =>
        "<div class=\"sg-extracted-item\">" ++ f.html ++ "</div>") ++ extraFormsHtml
    else extraFormsHtml
  let codeHtml := joinS "\n\n" (extracted.map fun f => f.html)
  let classListHtml := buildSortedClassList formClasses allForms
  ("<section class=\"sg-section\" id=\"forms\"><h2 class=\"sg-title\">" ++
     toString id ++ ". 폼 요소</h2>" ++ classListHtml ++
     "<div class=\"sg-preview\">" ++ previewHtml ++ "</div>",
   codeHtml)

def buildFormSection (id : Nat) (includeCode : Bool) (result : AnalysisResult)
    (extraClasses : List String) (cnt : Nat) : String × Nat :=
  let parts := formSectionParts id result extraClasses
  let cb := buildCodeBlock parts.2 includeCode cnt
  (parts.1 ++ cb.1 ++ "</section>", cb.2)

/-- `getTagForClass` of the typography section. -/
def getTagForClass (result : AnalysisResult) (cls : String) : String :=
  match result.typographyInfo.find? (fun t => t.className == cls) with
  | some info => info.tagName
  | none =>
    if cls == "title-1" || incl "title-1" cls then "h1"
    else if cls == "title-2" || incl "title-2" cls then "h2"
    else if cls == "title-3" || incl "title-3" cls then "h3"
    else if incl "title" cls || incl "heading" cls then "div"
    else "span"

def typoSectionParts (id : Nat) (result : AnalysisResult)
    (extraClasses : List String) : String × String :=
  let typoClasses := (dedupFirst (result.components.typography ++ extraClasses)).take 15
  let headingExamples := joinS "" (typoClasses.map fun cls =>
    let tag := getTagForClass result cls
    let isId := startsS "#" cls
    let attrName := if isId then "id" else "class"
    let attrValue := if isId then (⟨cls.data.drop 1⟩ : String) else cls
    let displayName := if isId then cls else "." ++ cls
    if ["h1", "h2", "h3", "h4", "h5", "h6"].contains tag then
      "<" ++ tag ++ " " ++ attrName ++ "=\"" ++ attrValue ++ "\">제목 (" ++
        displayName ++ ")</" ++ tag ++ ">"
    else if tag == "span" || tag == "em" || tag == "strong" then
      "<p><" ++ tag ++ " " ++ attrName ++ "=\"" ++ attrValue ++ "\">텍스트 (" ++
        displayName ++ ")</" ++ tag ++ "></p>"
    else
      "<" ++ tag ++ " " ++ attrName ++ "=\"" ++ attrValue ++ "\">제목 (" ++
        displayName ++ ")</" ++ tag ++ ">")
  let classListWithCount := joinS ", " (typoClasses.map fun c =>
    let count := match result.typographyInfo.find? (fun t => t.className == c) with
      | some info => info.count.getD 0
      | none => 0
    let displayName := if startsS "#" c then c else "." ++ c
    if count > 0 then displayName ++ "(" ++ toString count ++ ")" else displayName)
  let classListHtml :=
    if typoClasses.length > 0 then
      "<p class=\"sg-section-class\">" ++ classListWithCount ++ "</p>"
    else ""
  ("<section class=\"sg-section\" id=\"typography\"><h2 class=\"sg-title\">" ++
     toString id ++ ". 타이포그래피</h2>" ++ classListHtml ++
     "<div class=\"sg-preview\">" ++ headingExamples ++ "</div>",
   headingExamples)

def buildTypographySection (id : Nat) (includeCode : Bool)
    (result : AnalysisResult) (extraClasses : List String) (cnt : Nat) :
    String × Nat :=
  let parts := typoSectionParts id result extraClasses
  let cb := buildCodeBlock parts.2 includeCode cnt
  (parts.1 ++ cb.1 ++ "</section>", cb.2)

def boxSectionParts (id : Nat) (result : AnalysisResult)
    (extraClasses : List String) : String × String :=
  let boxClasses := (dedupFirst (result.components.boxes ++ extraClasses)).take 15
  let allBoxes := result.extractedMarkup.boxes
  let extracted := (dedupByClasses allBoxes).take 3
  let extraBoxesHtml := joinS "" (extraClasses.map fun cls =>
    "<div class=\"sg-extracted-item\"><div class=\"" ++ cls ++ "\">박스/카드 (." ++
      cls ++ ")</div></div>")
  let previewHtml :=
    if extracted.length > 0 then
      joinS "" (extracted.map fun b =>
        "<div class=\"sg-extracted-item\">" ++ b.html ++ "</div>") ++ extraBoxesHtml
    else extraBoxesHtml
  let codeHtml := joinS "\n\n" (extracted.map fun b => b.html)
  let classListHtml := buildSortedClassList boxClasses allBoxes
  ("<section class=\"sg-section\" id=\"boxes\"><h2 class=\"sg-title\">" ++
     toString id ++ ". 박스/카드</h2>" ++ classListHtml ++
     "<div class=\"sg-preview\">" ++ previewHtml ++ "</div>",
   codeHtml)

def buildBoxSection (id : Nat) (includeCode : Bool) (result : AnalysisResult)
    (extraClasses : List String) (cnt : Nat) : String × Nat :=
  let parts := boxSectionParts id result extraClasses
  let cb := buildCodeBlock parts.2 includeCode cnt
  (parts.1 ++ cb.1 ++ "</section>", cb.2)

def listSectionParts (id : Nat) (result : AnalysisResult)
    (extraClasses : List String) : String × String :=
  let listClasses := (dedupFirst (result.components.lists ++ extraClasses)).take 15
  let allLists := result.extractedMarkup.lists
  let extracted := (dedupByClasses allLists).take 4
  let extraListsHtml := joinS "" (extraClasses.map fun cls =>
    "<div class=\"sg-extracted-item\"><ul class=\"" ++ cls ++
      "\"><li>리스트 항목 (." ++ cls ++ ")</li></ul></div>")
  let previewHtml :=
    if extracted.length > 0 then
      joinS "" (extracted.map fun l =>
        "<div class=\"sg-extracted-item\">" ++ l.html ++ "</div>") ++ extraListsHtml
    else extraListsHtml
  let codeHtml := joinS "\n\n" (extracted.map fun l => l.html)
  let classListHtml := buildSortedClassList listClasses allLists
  ("<section class=\"sg-section\" id=\"lists\"><h2 class=\"sg-title\">" ++
     toString id ++ ". 리스트</h2>" ++ classListHtml ++
     "<div class=\"sg-preview\">" ++ previewHtml ++ "</div>",
   codeHtml)

def buildListSection (id : Nat) (includeCode : Bool) (result : AnalysisResult)
    (extraClasses : List String) (cnt : Nat) : String × Nat :=
  let parts := listSectionParts id result extraClasses
  let cb := buildCodeBlock parts.2 includeCode cnt
  (parts.1 ++ cb.1 ++ "</section>", cb.2)

def tableSectionParts (id : Nat) (result : AnalysisResult)
    (extraClasses : List String) : String × String :=
  let tableClasses :=
    (dedupFirst ((result.tables.filter fun c => c != "") ++ extraClasses)).take 10
  let allTables := result.extractedMarkup.tables
  let extracted := (dedupByClasses allTables).take 3
  let extraTablesHtml := joinS "" (extraClasses.map fun cls =>
    "<div class=\"sg-extracted-item\"><table class=\"" ++ cls ++
      "\"><thead><tr><th>테이블 (." ++ cls ++
      ")</th></tr></thead><tbody><tr><td>내용</td></tr></tbody></table></div>")
  let previewHtml :=
    if extracted.length > 0 then
      joinS "" (extracted.map fun t =>
        "<div class=\"sg-extracted-item\">" ++ t.html ++ "</div>") ++ extraTablesHtml
    else extraTablesHtml
  let codeHtml := joinS "\n\n" (extracted.map fun t => t.html)
  let classListHtml := buildSortedClassList tableClasses allTables
  ("<section class=\"sg-section\" id=\"tables\"><h2 class=\"sg-title\">" ++
     toString id ++ ". 테이블</h2>" ++ classListHtml ++
     "<div class=\"sg-preview sg-table-preview\">" ++ previewHtml ++ "</div>",
   codeHtml)

def buildTableSection (id : Nat) (includeCode : Bool) (result : AnalysisResult)
    (extraClasses : List String) (cnt : Nat) : String × Nat :=
  let parts := tableSectionParts id result extraClasses
  let cb := buildCodeBlock parts.2 includeCode cnt
  (parts.1 ++ cb.1 ++ "</section>", cb.2)

def modalSectionParts (id : Nat) (result : AnalysisResult)
    (extraClasses : List String) : String × String :=
  let modalClasses :=
    (dedupFirst ((result.modals.filter fun c => c != "") ++ extraClasses)).take 10
  let allModals := result.extractedMarkup.modals
  let extracted := (dedupByClasses allModals).take 2
  let extraModalsHtml := joinS "" (extraClasses.map fun cls =>
    "<div class=\"sg-extracted-item\"><div class=\"sg-modal-preview\"><div class=\"" ++
      cls ++ "\">모달 (." ++ cls ++ ")</div></div></div>")
  let previewHtml :=
    if extracted.length > 0 then
      joinS "" (extracted.map fun m =>
        "<div class=\"sg-extracted-item\"><div class=\"sg-modal-preview\">" ++
          m.html ++ "</div></div>") ++ extraModalsHtml
    else extraModalsHtml
  let codeHtml := joinS "\n\n" (extracted.map fun m => m.html)
  let classListHtml := buildSortedClassList modalClasses allModals
  ("<section class=\"sg-section\" id=\"modal\"><h2 class=\"sg-title\">" ++
     toString id ++ ". 모달</h2>" ++ classListHtml ++
     "<div class=\"sg-preview\">" ++ previewHtml ++ "</div>",
   codeHtml)

def buildModalSection (id : Nat) (includeCode : Bool) (result : AnalysisResult)
    (extraClasses : List String) (cnt : Nat) : String × Nat :=
  let parts := modalSectionParts id result extraClasses
  let cb := buildCodeBlock parts.2 includeCode cnt
  (parts.1 ++ cb.1 ++ "</section>", cb.2)

def buildIconSection (id : Nat) (result : AnalysisResult) : String :=
  let icons := result.icons.take 30
  "<section class=\"sg-section\" id=\"icons\"><h2 class=\"sg-title\">" ++
    toString id ++ ". 아이콘</h2><div class=\"sg-icon-grid\">" ++
    joinS "" (icons.map fun icon =>
      "<div class=\"sg-icon-item\"><i class=\"svg-icon " ++ icon ++
        "\"></i><span class=\"sg-icon-name\">" ++ icon ++ "</span></div>") ++
    "</div></section>"

def tabSectionParts (id : Nat) (result : AnalysisResult)
    (extraClasses : List String) : String × String :=
  let tabClasses := (dedupFirst (result.components.tabs ++ extraClasses)).take 15
  let allTabs := result.extractedMarkup.tabs
  let extracted := (dedupByClasses allTabs).take 3
  let extraTabsHtml := joinS "" (extraClasses.map fun cls =>
    "<div class=\"sg-extracted-item\"><div class=\"" ++ cls ++
      "\" role=\"tablist\">탭 (." ++ cls ++ ")</div></div>")
  let previewHtml :=
    if extracted.length > 0 then
      joinS "" (extracted.map fun t =>
        "<div class=\"sg-extracted-item\">" ++ t.html ++ "</div>") ++ extraTabsHtml
    else extraTabsHtml
  let codeHtml := joinS "\n\n" (extracted.map fun t => t.html)
  let classListHtml := buildSortedClassList tabClasses allTabs
  ("<section class=\"sg-section\" id=\"tabs\"><h2 class=\"sg-title\">" ++
     toString id ++ ". 탭</h2>" ++ classListHtml ++
     "<div class=\"sg-preview\">" ++ previewHtml ++ "</div>",
   codeHtml)

def buildTabSection (id : Nat) (includeCode : Bool) (result : AnalysisResult)
    (extraClasses : List String) (cnt : Nat) : String × Nat :=
  let parts := tabSectionParts id result extraClasses
  let cb := buildCodeBlock parts.2 includeCode cnt
  (parts.1 ++ cb.1 ++ "</section>", cb.2)

def pagSectionParts (id : Nat) (result : AnalysisResult)
    (extraClasses : List String) : String × String :=
  let pageClasses := (dedupFirst (result.components.pagination ++ extraClasses)).take 15
  let allPaginations := result.extractedMarkup.paginations
  let extracted := (dedupByClasses allPaginations).take 2
  let extraPaginationsHtml := joinS "" (extraClasses.map fun cls =>
    "<div class=\"sg-extracted-item\"><nav class=\"" ++ cls ++
      "\">페이지네이션 (." ++ cls ++ ")</nav></div>")
  let previewHtml :=
    if extracted.length > 0 then
      joinS "" (extracted.map fun p =>
        "<div class=\"sg-extracted-item\">" ++ p.html ++ "</div>") ++
        extraPaginationsHtml
    else extraPaginationsHtml
  let codeHtml := joinS "\n\n" (extracted.map fun p => p.html)
  let classListHtml := buildSortedClassList pageClasses allPaginations
  ("<section class=\"sg-section\" id=\"pagination\"><h2 class=\"sg-title\">" ++
     toString id ++ ". 페이지네이션</h2>" ++ classListHtml ++
     "<div class=\"sg-preview\">" ++ previewHtml ++ "</div>",
   codeHtml)

def buildPaginationSection (id : Nat) (includeCode : Bool)
    (result : AnalysisResult) (extraClasses : List String) (cnt : Nat) :
    String × Nat :=
  let parts := pagSectionParts id result extraClasses
  let cb := buildCodeBlock parts.2 includeCode cnt
  (parts.1 ++ cb.1 ++ "</section>", cb.2)

def badgeSectionParts (id : Nat) (result : AnalysisResult)
    (extraClasses : List String) : String × String :=
  let badgeClasses := (dedupFirst (result.components.badges ++ extraClasses)).take 20
  let allBadges := result.extractedMarkup.badges
  let extracted := (dedupByClasses allBadges).take 15
  let extraBadgesHtml := joinS "" (extraClasses.map fun cls =>
    "<span class=\"" ++ cls ++ "\">배지 (." ++ cls ++ ")</span>")
  let previewHtml :=
    if extracted.length > 0 || extraClasses.length > 0 then
      "<div class=\"sg-badge-grid\">" ++ joinS "" (extracted.map fun b => b.html) ++
        extraBadgesHtml ++ "</div>"
    else ""
  let codeHtml := joinS "\n\n" (extracted.map fun b => b.html)
  let classListHtml := buildSortedClassList badgeClasses allBadges
  ("<section class=\"sg-section\" id=\"badges\"><h2 class=\"sg-title\">" ++
     toString id ++ ". 배지</h2>" ++ classListHtml ++
     "<div class=\"sg-preview\">" ++ previewHtml ++ "</div>",
   codeHtml)

def buildBadgeSection (id : Nat) (includeCode : Bool) (result : AnalysisResult)
    (extraClasses : List String) (cnt : Nat) : String × Nat :=
  let parts := badgeSectionParts id result extraClasses
  let cb := buildCodeBlock parts.2 includeCode cnt
  (parts.1 ++ cb.1 ++ "</section>", cb.2)

def accSectionParts (id : Nat) (result : AnalysisResult)
    (extraClasses : List String) : String × String :=
  let accordionClasses :=
    (dedupFirst (result.components.accordions ++ extraClasses)).take 20
  let allAccordions := result.extractedMarkup.accordions
  let extracted := (dedupByClasses allAccordions).take 3
  let extraAccordionsHtml := joinS "" (extraClasses.map fun cls =>
    "<div class=\"sg-extracted-item\"><div class=\"" ++ cls ++ "\">아코디언 (." ++
      cls ++ ")</div></div>")
  let previewHtml :=
    if extracted.length > 0 then
      joinS "" (extracted.map fun a =>
        "<div class=\"sg-extracted-item\">" ++ a.html ++ "</div>") ++
        extraAccordionsHtml
    else extraAccordionsHtml
  let codeHtml := joinS "\n\n" (extracted.map fun a => a.html)
  let classListHtml := buildSortedClassList accordionClasses allAccordions
  ("<section class=\"sg-section\" id=\"accordions\"><h2 class=\"sg-title\">" ++
     toString id ++ ". 아코디언</h2>" ++ classListHtml ++
     "<div class=\"sg-preview\">" ++ previewHtml ++ "</div>",
   codeHtml)

def buildAccordionSection (id : Nat) (includeCode : Bool)
    (result : AnalysisResult) (extraClasses : List String) (cnt : Nat) :
    String × Nat :=
  let parts := accSectionParts id result extraClasses
  let cb := buildCodeBlock parts.2 includeCode cnt
  (parts.1 ++ cb.1 ++ "</section>", cb.2)

/-! ### Colour section -/

def isAsciiDigit (c : Char) : Bool := '0' ≤ c && c ≤ '9'

def isAlphaDash (c : Char) : Bool :=
  ('a' ≤ c && c ≤ 'z') || ('A' ≤ c && c ≤ 'Z') || c == '-'

/-- Does the remainder match `(?:-?\d+)?$`? -/
def groupRest (r : List Char) : Bool :=
  r.isEmpty ||
  (let r2 := if starts ['-'] r then r.drop 1 else r
   !r2.isEmpty && r2.all isAsciiDigit)

/-- The group key of a colour variable name: lazy `^([a-zA-Z-]+?)` followed
by an optional `-?\d+` suffix, with a single trailing dash stripped;
`other` when the regex does not match. -/
def groupOf (name : String) : String :=
  let d := name.data
  match (List.range d.length).findSome? fun i =>
      let k := i + 1
      if (d.take k).all isAlphaDash && groupRest (d.drop k) then
        some (d.take k)
      else none with
  | some g =>
    let g := if endsList ['-'] g then g.dropLast else g
    (⟨g⟩ : String)
  | none => "other"

def etcGroups : List String :=
  ["danger", "warning", "success", "information", "border", "facebook",
   "twitter", "blog", "kakaotalk", "instagram", "youtube"]

def excludeGroups : List String := ["black", "white"]

/-- Insertion-ordered `groupedColors` accumulation. -/
def groupAdd (g : String) (v : CSSVariable)
    (m : List (String × List CSSVariable)) : List (String × List CSSVariable) :=
  if m.any (fun p => p.1 == g) then
    m.map fun p => if p.1 == g then (g, p.2 ++ [v]) else p
  else m ++ [(g, [v])]

def groupedColorsOf (colorVariables : List CSSVariable) :
    List (String × List CSSVariable) :=
  colorVariables.foldl
    (fun m v =>
      let g := groupOf v.name
      if excludeGroups.contains g then m
      else groupAdd (if etcGroups.contains g then "etc" else g) v m)
    []

def groupOrder : List String := ["primary", "secondary", "point", "gray", "bg", "etc"]

/-- The group-comparator of the colour section: known groups by fixed
priority, unknown groups after them alphabetically. -/
def groupBefore (a b : String) : Bool :=
  match groupOrder.findIdx? (fun g => g == a), groupOrder.findIdx? (fun g => g == b) with
  | none, none => decide (a < b)
  | none, some _ => false
  | some _, none => true
  | some i, some j => decide (i < j)

def groupNames : List (String × String) :=
  [("primary", "Primary"), ("secondary", "Secondary"), ("point", "Point"),
   ("gray", "Gray"), ("bg", "Background"), ("etc", "Etc")]

/-- `parseInt` of the trailing digit run of a variable name (`0` when there
is none). -/
def trailNum (name : String) : Nat :=
  let ds := (name.data.reverse.takeWhile isAsciiDigit).reverse
  ds.foldl (fun n c => n * 10 + (c.toNat - 48)) 0

/-- First `var\(--([^,)]+)` match of the regex search (a candidate
position with an empty capture is skipped, as regex backtracking would). -/
def varRefAt : List Char → Option (List Char)
  | [] => none
  | c :: cs =>
    if starts "var(--".data (c :: cs) then
      let ref := ((c :: cs).drop 6).takeWhile fun ch => !(ch == ',' || ch == ')')
      if ref.isEmpty then varRefAt cs else some ref
    else varRefAt cs

/-- One-level `var(--ref)` resolution for the swatch background. -/
def swatchBg (result : AnalysisResult) (v : CSSVariable) : String :=
  if startsS "var(" v.value then
    match varRefAt v.value.data with
    | some ref =>
      match result.cssVariables.find? (fun rv => rv.name == (⟨ref⟩ : String)) with
      | some refVar => refVar.value
      | none => v.value
    | none => v.value
  else v.value

def capitalize (s : String) : String :=
  match s.data with
  | [] => s
  | c :: cs => ⟨upCh c :: cs⟩

def buildColorSection (id : Nat) (result : AnalysisResult) : String :=
  let colorVariables := result.cssVariables.filter fun v => v.category == "color"
  let groupedColors := groupedColorsOf colorVariables
  let sortedGroups := sortBy groupBefore (groupedColors.map fun p => p.1)
  let groupsHtml := joinS "" (sortedGroups.map fun group =>
    let vars := ((groupedColors.find? fun p => p.1 == group).map fun p => p.2).getD []
    let vars := sortBy (fun a b => trailNum a.name < trailNum b.name) vars
    let colorsHtml := joinS "" (vars.map fun v =>
      "<div class=\"sg-color-item\">\n        <div class=\"sg-color-swatch\" " ++
        "style=\"background: " ++ swatchBg result v ++ ";\"></div>\n        " ++
        "<span class=\"sg-color-value\">var(--" ++ v.name ++ ", " ++ v.value ++
        ")</span>\n      </div>")
    let displayName :=
      match groupNames.find? fun p => p.1 == group with
      | some p => p.2
      | none => capitalize group
    "<div class=\"sg-color-group\">\n      <h4 class=\"sg-color-group-title\">" ++
      displayName ++ "</h4>\n      <div class=\"sg-color-grid\">" ++ colorsHtml ++
      "</div>\n    </div>")
  let rawColors := result.colors.take 20
  let rawColorsHtml :=
    if rawColors.length > 0 && colorVariables.length == 0 then
      "<div class=\"sg-color-group\">\n        <h4 class=\"sg-color-group-title\">" ++
        "색상 코드</h4>\n        <div class=\"sg-color-grid\">" ++
        joinS "" (rawColors.map fun c =>
          "<div class=\"sg-color-item\"><div class=\"sg-color-swatch\" " ++
            "style=\"background:" ++ c ++ ";\"></div><span class=\"sg-color-value\">" ++
            c ++ "</span></div>") ++
        "</div>\n      </div>"
    else ""
  "<section class=\"sg-section\" id=\"colors\">\n    <h2 class=\"sg-title\">" ++
    toString id ++ ". 컬러 팔레트</h2>\n    <p class=\"sg-desc\">CSS 변수로 정의된 " ++
    toString colorVariables.length ++ "개 색상</p>\n    " ++ groupsHtml ++ "\n    " ++
    rawColorsHtml ++ "\n    <style>\n      .sg-color-group \x7b margin-bottom: 25px; \x7d\n" ++
    "      .sg-color-group-title \x7b font-size: 16px; font-weight: 600; color: #374151; " ++
    "margin-bottom: 12px; padding-left: 10px; border-left: 3px solid var(--krds-primary); \x7d\n" ++
    "      .sg-color-value \x7b font-size: 11px; word-break: break-all; line-height: 1.4; \x7d\n" ++
    "    </style>\n  </section>"

def buildFaviconSection (id : Nat) (result : AnalysisResult) : String :=
  let head :=
    "<section class=\"sg-section\" id=\"favicon\">\n    <h2 class=\"sg-title\">" ++
    toString id ++ ". 파비콘과 OG</h2>\n    <style>\n      .sg-url-list \x7b " ++
    "list-style: none; padding: 0; margin: 0; \x7d\n      .sg-url-list li \x7b " ++
    "padding: 10px 15px; background: #F9FAFB; border-radius: 6px; margin-bottom: 8px; " ++
    "font-size: 14px; color: #374151; word-break: break-all; \x7d\n      " ++
    ".sg-url-list li:last-child \x7b margin-bottom: 0; \x7d\n    </style>"
  let favHtml :=
    if result.favicons.length > 0 then
      "\n    <h3 class=\"sg-subtitle\">파비콘 (Favicon)</h3>\n    " ++
      "<div class=\"sg-preview\">\n      <ul class=\"sg-url-list\">" ++
      joinS "" (result.favicons.map fun favicon =>
        "\n        <li>" ++ escapeHtml favicon.href ++ "</li>") ++
      "\n      </ul>\n    </div>"
    else ""
  let ogHtml :=
    if result.ogTags.length > 0 then
      match result.ogTags.find? fun t => t.property == "og:image" with
      | some ogImage =>
        "\n    <h3 class=\"sg-subtitle\">Open Graph (OG) 이미지</h3>\n    " ++
        "<div class=\"sg-preview\">\n      <ul class=\"sg-url-list\">\n        <li>" ++
        escapeHtml ogImage.content ++ "</li>\n      </ul>\n    </div>"
      | none => ""
    else ""
  head ++ favHtml ++ ogHtml ++ "\n  </section>"

/-! ### The main builder -/

/-- Keyword → matching-classes expansion of the user-supplied "additional
classes" string. -/
def parseAdditionalClasses (result : AnalysisResult) (input : String) :
    List String :=
  if input == "" then []
  else
    let keywords := ((splitS ',' input).map fun c =>
      let t := trimS c
      let t := if startsS "." t then (⟨t.data.drop 1⟩ : String) else t
      lowStr t).filter fun c => c.length > 0
    keywords.foldl
      (fun matched keyword =>
        (result.classes.filter fun cls => incl keyword (lowStr cls)).foldl
          (fun m mt => if m.contains mt then m else m ++ [mt]) matched)
      []

/-- One entry of the ordered section-builder list: the `shouldRender`
predicate (already evaluated against the analysis result), the section id
and title, and the builder (display number → counter → rendered section and
new counter). -/
structure SectionB where
  check : Bool
  sid : String
  title : String
  build : Nat → Nat → String × Nat

def addlGet (addl : Option AdditionalClasses) (f : AdditionalClasses → String) :
    String :=
  match addl with
  | some a => f a
  | none => ""

/-- The fixed, ordered section-builder list of `buildStyleGuide` (builder.ts
lines 101-205), with the per-section additional-class strings of
`sectionExtraClasses` baked in. -/
def buildersOf (result : AnalysisResult) (secOpts : SectionOptions)
    (styOpts : StyleOptions) (addl : Option AdditionalClasses) :
    List SectionB :=
  let ic := styOpts.codeblock
  let pac := fun s => parseAdditionalClasses result s
  [ { check := secOpts.colors &&
        (result.colors.length > 0 || result.cssVariables.length > 0),
      sid := "colors", title := "컬러 팔레트",
      build := fun n c => (buildColorSection n result, c) },
    { check := secOpts.typography &&
        (result.components.typography.length > 0 ||
         (addlGet addl (fun a => a.typography)).length > 0),
      sid := "typography", title := "타이포그래피",
      build := fun n c =>
        buildTypographySection n ic result (pac (addlGet addl (fun a => a.typography))) c },
    { check := secOpts.icons && result.icons.length > 0,
      sid := "icons", title := "아이콘",
      build := fun n c => (buildIconSection n result, c) },
    { check := secOpts.badge &&
        (result.components.badges.length > 0 ||
         result.extractedMarkup.badges.length > 0 ||
         (addlGet addl (fun a => a.badge)).length > 0),
      sid := "badges", title := "배지",
      build := fun n c =>
        buildBadgeSection n ic result (pac (addlGet addl (fun a => a.badge))) c },
    { check := secOpts.lists &&
        (result.components.lists.length > 0 ||
         (addlGet addl (fun a => a.lists)).length > 0),
      sid := "lists", title := "리스트",
      build := fun n c =>
        buildListSection n ic result (pac (addlGet addl (fun a => a.lists))) c },
    { check := secOpts.tabs &&
        (result.components.tabs.length > 0 ||
         (addlGet addl (fun a => a.tabs)).length > 0),
      sid := "tabs", title := "탭",
      build := fun n c =>
        buildTabSection n ic result (pac (addlGet addl (fun a => a.tabs))) c },
    { check := secOpts.tables &&
        (result.tables.length > 0 ||
         (addlGet addl (fun a => a.tables)).length > 0),
      sid := "tables", title := "테이블",
      build := fun n c =>
        buildTableSection n ic result (pac (addlGet addl (fun a => a.tables))) c },
    { check := secOpts.buttons &&
        (result.components.buttons.length > 0 ||
         (addlGet addl (fun a => a.buttons)).length > 0),
      sid := "buttons", title := "버튼",
      build := fun n c =>
        buildButtonSection n ic result (pac (addlGet addl (fun a => a.buttons))) c },
    { check := secOpts.forms &&
        (result.components.forms.length > 0 ||
         (addlGet addl (fun a => a.forms)).length > 0),
      sid := "forms", title := "폼 요소",
      build := fun n c =>
        buildFormSection n ic result (pac (addlGet addl (fun a => a.forms))) c },
    { check := secOpts.boxes &&
        (result.components.boxes.length > 0 ||
         (addlGet addl (fun a => a.boxes)).length > 0),
      sid := "boxes", title := "박스/카드",
      build := fun n c =>
        buildBoxSection n ic result (pac (addlGet addl (fun a => a.boxes))) c },
    { check := secOpts.modal &&
        (result.modals.length > 0 ||
         (addlGet addl (fun a => a.modal)).length > 0),
      sid := "modal", title := "모달",
      build := fun n c =>
        buildModalSection n ic result (pac (addlGet addl (fun a => a.modal))) c },
    { check := secOpts.pagination &&
        (result.components.pagination.length > 0 ||
         (addlGet addl (fun a => a.pagination)).length > 0),
      sid := "pagination", title := "페이지네이션",
      build := fun n c =>
        buildPaginationSection n ic result (pac (addlGet addl (fun a => a.pagination))) c },
    { check := secOpts.accordion &&
        (result.components.accordions.length > 0 ||
         result.extractedMarkup.accordions.length > 0 ||
         (addlGet addl (fun a => a.accordion)).length > 0),
      sid := "accordions", title := "아코디언",
      build := fun n c =>
        buildAccordionSection n ic result (pac (addlGet addl (fun a => a.accordion))) c },
    { check := secOpts.favicon && (result.hasFavicon || result.hasOG),
      sid := "favicon", title := "파비콘과 OG",
      build := fun n c => (buildFaviconSection n result, c) } ]

/-- The `builders.forEach` loop: a skipped builder leaves the display
number, the rendered list, the TOC list and the counter untouched; a
rendered builder gets the next sequential display number. -/
def runBuilders : List SectionB → Nat → Nat →
    List String × List (String × String) × Nat × Nat
  | [], num, cnt => ([], [], num, cnt)
  | b :: bs, num, cnt =>
    if b.check then
      let r := b.build (num + 1) cnt
      let rest := runBuilders bs (num + 1) r.2
      (r.1 :: rest.1, (b.sid, b.title) :: rest.2.1, rest.2.2.1, rest.2.2.2)
    else runBuilders bs num cnt

/-- Spec-side reference for the section loop: the rendered sections are the
builders that passed the filter, built in order with strictly sequential
display numbers (`num + 1`, `num + 2`, …) and the counter threaded through. -/
def numberedBuilds : List SectionB → Nat → Nat → List String
  | [], _, _ => []
  | b :: bs, num, cnt =>
    (b.build (num + 1) cnt).1 ::
      numberedBuilds bs (num + 1) (b.build (num + 1) cnt).2

/-- The table-of-contents markup. -/
def tocHtml (tocItems : List (String × String)) : String :=
  "\n    <nav class=\"sg-toc\">\n        <h3><svg xmlns=\"http://www.w3.org/2000/svg\" " ++
  "width=\"16\" height=\"16\" viewBox=\"0 0 24 24\" fill=\"none\" stroke=\"currentColor\" " ++
  "stroke-width=\"2\" stroke-linecap=\"round\" stroke-linejoin=\"round\" " ++
  "style=\"display:inline-block;vertical-align:middle;margin-right:6px;\">" ++
  "<line x1=\"8\" y1=\"6\" x2=\"21\" y2=\"6\"></line><line x1=\"8\" y1=\"12\" x2=\"21\" y2=\"12\"></line>" ++
  "<line x1=\"8\" y1=\"18\" x2=\"21\" y2=\"18\"></line><line x1=\"3\" y1=\"6\" x2=\"3.01\" y2=\"6\"></line>" ++
  "<line x1=\"3\" y1=\"12\" x2=\"3.01\" y2=\"12\"></line><line x1=\"3\" y1=\"18\" x2=\"3.01\" y2=\"18\"></line>" ++
  "</svg>목차</h3>\n        <ul>" ++
  joinS "" ((List.range tocItems.length).zip tocItems |>.map fun p =>
    "<li><a href=\"#" ++ p.2.1 ++ "\" onclick=\"event.preventDefault(); " ++
    "document.getElementById(\x27" ++ p.2.1 ++ "\x27).scrollIntoView(\x7bbehavior:\x27smooth\x27\x7d); " ++
    "return false;\">" ++ toString (p.1 + 1) ++ ". " ++ p.2.2 ++ "</a></li>") ++
  "</ul>\n    </nav>"

/-- The guide's own stylesheet (builder.ts lines 249-293). -/
def styleguideCss (includeTOC : Bool) (fontFamilyCSS : String) : String :=
  joinS "\n" [
    "    <style id=\"styleguide-styles\">",
    "        :root \x7b --krds-primary: #246BEB; --krds-primary-dark: #1A4FAD; \x7d",
    "        .sg-section \x7b margin-bottom: 60px; padding: 2.4rem; background: #fff; border: 1px solid #E5E8EB; border-radius: 12px; \x7d",
    "        .sg-title \x7b font-size: 24px; font-weight: 700; color: #111827; margin-bottom: 20px; padding-bottom: 15px; border-bottom: 3px solid var(--krds-primary); \x7d",
    "        .sg-subtitle \x7b font-size: 18px; font-weight: 600; color: #374151; margin: 25px 0 15px; \x7d",
    "        .sg-desc \x7b font-size: 14px; color: #6B7280; margin-bottom: 15px; \x7d",
    "        .sg-preview \x7b margin-bottom: 15px; \x7d",
    "        .sg-code-wrapper \x7b margin-top: 15px; \x7d",
    "        .sg-code-header \x7b display: flex; justify-content: flex-end; gap: 8px; margin-bottom: 8px; \x7d",
    "        .sg-code-btns \x7b display: flex; gap: 8px; \x7d",
    "        .sg-code-toggle \x7b background: #3C3C3C; color: #D4D4D4; border: none; padding: 8px 16px; border-radius: 6px; font-size: 13px; cursor: pointer; transition: background 0.2s; \x7d",
    "        .sg-code-toggle:hover \x7b background: #505050; \x7d",
    "        .sg-code \x7b background: #1E1E1E; border-radius: 8px; padding: 20px; overflow: auto; max-height: 360px; \x7d",
    "        .sg-code-btn \x7b background: #3C3C3C; color: #D4D4D4; border: none; padding: 6px 12px; border-radius: 4px; font-size: 12px; cursor: pointer; transition: background 0.2s; \x7d",
    "        .sg-code-btn:hover \x7b background: #505050; \x7d",
    "        .sg-code pre \x7b color: #D4D4D4; font-family: \x27JetBrains Mono\x27, monospace; font-size: 13px; margin: 0; white-space: pre-wrap; \x7d",
    "        .sg-toc \x7b position: fixed; left: 40px; top: 40px; width: 200px; background: #fff; border: 1px solid #E5E8EB; border-radius: 12px; padding: 20px; z-index: 100; max-height: calc(100vh - 80px); overflow-y: auto; \x7d",
    "        .sg-toc h3 \x7b font-size: 16px; margin-bottom: 15px; color: #111827; \x7d",
    "        .sg-toc ul \x7b list-style: none; padding: 0; margin: 0; \x7d",
    "        .sg-toc li \x7b margin-bottom: 8px; \x7d",
    "        .sg-toc a \x7b font-size: 15px; color: #6B7280; text-decoration: none; \x7d",
    "        .sg-toc a:hover \x7b color: var(--krds-primary); \x7d",
    "        .sg-main \x7b " ++ (if includeTOC then "margin-left: 240px;" else "") ++ " padding: 40px; \x7d",
    "        .sg-header \x7b text-align: center; padding: 48px; background: linear-gradient(135deg, var(--krds-primary) 0%, var(--krds-primary-dark) 100%); color: #fff; margin-bottom: 40px; border-radius: 12px; \x7d",
    "        .sg-class-list \x7b display: flex; flex-wrap: wrap; gap: 8px; \x7d",
    "        .sg-class-item \x7b background: #F5F7FA; padding: 6px 12px; border-radius: 6px; font-family: monospace; font-size: 12px; border: 1px solid #E5E8EB; \x7d",
    "        .sg-color-grid \x7b display: grid; grid-template-columns: repeat(auto-fill, minmax(120px, 1fr)); gap: 16px; \x7d",
    "        .sg-color-item \x7b text-align: center; \x7d",
    "        .sg-color-swatch \x7b height: 64px; border-radius: 8px; margin-bottom: 8px; border: 1px solid #E5E8EB; \x7d",
    "        .sg-color-value \x7b font-family: monospace; font-size: 11px; color: #6B7280; \x7d",
    "        .sg-icon-grid \x7b display: grid; grid-template-columns: repeat(auto-fill, minmax(100px, 1fr)); gap: 16px; text-align: center; \x7d",
    "        .sg-icon-item \x7b padding: 16px; background: #FAFAFA; border-radius: 8px; border: 1px solid #E5E8EB; \x7d",
    "        .sg-icon-item i \x7b font-size: 24px; display: block; margin-bottom: 8px; \x7d",
    "        .sg-icon-name \x7b font-size: 11px; color: #6B7280; word-break: break-all; \x7d",
    "        .sg-extracted-item \x7b margin-bottom: 25px; padding-bottom: 25px; border-bottom: 1px solid #E5E8EB; \x7d",
    "        .sg-section-class \x7b font-size: 13px; font-weight: bold; color: #6B7280; margin: 0 0 20px 0; line-height: 1.6; \x7d",
    "        .sg-extracted-item:last-child \x7b margin-bottom: 0; padding-bottom: 0; border-bottom: none; \x7d",
    "        .sg-button-grid \x7b display: flex; flex-wrap: wrap; gap: 12px; \x7d",
    "        .sg-badge-grid \x7b display: flex; flex-wrap: wrap; gap: 10px; align-items: center; \x7d",
    "        .sg-table-preview \x7b overflow-x: auto; \x7d",
    "        .sg-modal-preview \x7b border: 1px solid #E5E8EB; border-radius: 8px; overflow: hidden; max-height: 400px; overflow-y: auto; \x7d",
    "        @media (max-width: 1024px) \x7b .sg-toc \x7b position: static; width: 100%; margin-bottom: 30px; max-height: none; \x7d .sg-main \x7b margin-left: 0; \x7d \x7d",
    "        html \x7b scroll-behavior: smooth; \x7d",
    "        body \x7b background: #F5F7FA; margin: 0; padding: 0; " ++ fontFamilyCSS ++ " \x7d",
    "    </style>" ]

/-- Everything of the output document before the joined sections. -/
def headOf (ist : Store) (files : List UFile) (styOpts : StyleOptions)
    (proj : ProjectInfo) (today : String)
    (tocItems : List (String × String)) : String :=
  let fontCDN :=
    if styOpts.fontFamily == "pretendard" then
      "<!-- Pretendard GOV 폰트 -->\n    <link rel=\"stylesheet\" href=\"https://cdn.jsdelivr.net/gh/nicegov/font@1.0.3/pretendard.css\">"
    else
      "<!-- Noto Sans KR 폰트 -->\n    <link rel=\"preconnect\" href=\"https://fonts.googleapis.com\">\n    <link rel=\"preconnect\" href=\"https://fonts.gstatic.com\" crossorigin>\n    <link href=\"https://fonts.googleapis.com/css2?family=Noto+Sans+KR:wght@100..900&display=swap\" rel=\"stylesheet\">"
  let iconCDN := "<!-- Remixicon 아이콘 폰트 -->\n    <link href=\"https://cdn.jsdelivr.net/npm/remixicon@4.2.0/fonts/remixicon.css\" rel=\"stylesheet\">"
  let fontFamilyCSS :=
    if styOpts.fontFamily == "pretendard" then
      "font-family: \x27Pretendard GOV\x27, \x27Pretendard\x27, -apple-system, BlinkMacSystemFont, sans-serif;"
    else
      "font-family: \x27Noto Sans KR\x27, -apple-system, BlinkMacSystemFont, sans-serif;"
  let cssFiles := files.filter isCssF
  let cssContents := joinS "\n\n" (cssFiles.map fun f =>
    "/* ========== " ++ ufName f ++ " ========== */\n" ++ replaceImagePaths ist (ufText f))
  let projectStyles :=
    "\n    <style id=\"project-styles\">\n      /* ============================================ */\n      /* 프로젝트 CSS 파일들 (" ++
    toString cssFiles.length ++
    "개) */\n      /* ============================================ */\n      " ++
    cssContents ++ "\n    </style>"
  let toc := if styOpts.toc then tocHtml tocItems else ""
  "<!DOCTYPE html>\n<html lang=\"ko\">\n<head>\n    <meta charset=\"UTF-8\">\n    <meta name=\"viewport\" content=\"width=device-width, initial-scale=1.0\">\n    <base target=\"_self\">\n    <title>" ++
  proj.name ++ "</title>\n    \n" ++ fontCDN ++ "\n" ++ iconCDN ++ "\n\n" ++
  projectStyles ++ "\n" ++ styleguideCss styOpts.toc fontFamilyCSS ++
  "\n</head>\n<body>\n" ++ toc ++
  "\n<main class=\"sg-main\">\n    <header class=\"sg-header\">\n        <h1 style=\"font-size: 32px; margin-bottom: 12px; color: #fff;\">" ++
  proj.name ++
  "</h1>\n        <p style=\"opacity: 0.9;\">자동 생성된 UI 스타일 가이드</p>\n        <p style=\"font-size: 12px; margin-top: 12px; opacity: 0.7;\">Version " ++
  proj.version ++ " | Generated: " ++ today ++ "</p>\n    </header>\n\n"

/-- The document footer after the joined sections. -/
def tailOf : String :=
  "\n\n    <footer style=\"text-align: center; padding: 30px; color: #6B7280; border-top: 1px solid #E5E8EB; margin-top: 40px;\">\n        <p>Generated by Style Guide Generator</p>\n    </footer>\n</main>\n</body>\n</html>"

/-- `buildStyleGuide` (builder.ts lines 35-312): pure in all its inputs
except the explicit code-block counter `cnt` (the process-wide mutable
`codeBlockId`) and the date string `today` (`new Date()`); returns the
document and the new counter value. -/
def buildStyleGuide (ist : Store) (files : List UFile)
    (result : AnalysisResult) (secOpts : SectionOptions)
    (styOpts : StyleOptions) (proj : ProjectInfo)
    (addl : Option AdditionalClasses) (today : String) (cnt : Nat) :
    String × Nat :=
  let bs := buildersOf result secOpts styOpts addl
  let run := runBuilders bs 0 cnt
  let sections := run.1
  let tocItems := run.2.1
  let cntEnd := run.2.2.2
  (headOf ist files styOpts proj today tocItems ++
     joinS "\n\n" sections ++ tailOf,
   cntEnd)

/-! ### The counter-free skeleton (for the determinism claim)

A `Chunk` list is the output with the code blocks left uninstantiated;
`renderChunks` instantiates them with sequential ids starting after a given
counter value.  The skeleton itself does not depend on the counter. -/

inductive Chunk where
  | lit (s : String)
  | blk (codeHtml : String)
deriving Repr, BEq

def renderChunks : List Chunk → Nat → String × Nat
  | [], c => ("", c)
  | .lit s :: ks, c =>
    let r := renderChunks ks c
    (s ++ r.1, r.2)
  | .blk h :: ks, c =>
    let r := renderChunks ks (c + 1)
    (renderCodeBlock (cbName (c + 1)) h ++ r.1, r.2)

/-- Chunk form of one section: the pre-code-block markup, the optional code
block, the closing tag. -/
def sectionChunks (parts : String × String) (includeCode : Bool) :
    List Chunk :=
  if !includeCode || parts.2 == "" then [.lit (parts.1 ++ "</section>")]
  else [.lit parts.1, .blk parts.2, .lit "</section>"]

structure SectionC where
  check : Bool
  sid : String
  title : String
  chunks : Nat → List Chunk

/-- Chunk form of the section-builder list. -/
def chunkBuildersOf (result : AnalysisResult) (secOpts : SectionOptions)
    (styOpts : StyleOptions) (addl : Option AdditionalClasses) :
    List SectionC :=
  let ic := styOpts.codeblock
  let pac := fun s => parseAdditionalClasses result s
  [ { check := secOpts.colors &&
        (result.colors.length > 0 || result.cssVariables.length > 0),
      sid := "colors", title := "컬러 팔레트",
      chunks := fun n => [.lit (buildColorSection n result)] },
    { check := secOpts.typography &&
        (result.components.typography.length > 0 ||
         (addlGet addl (fun a => a.typography)).length > 0),
      sid := "typography", title := "타이포그래피",
      chunks := fun n =>
        sectionChunks (typoSectionParts n result (pac (addlGet addl (fun a => a.typography)))) ic },
    { check := secOpts.icons && result.icons.length > 0,
      sid := "icons", title := "아이콘",
      chunks := fun n => [.lit (buildIconSection n result)] },
    { check := secOpts.badge &&
        (result.components.badges.length > 0 ||
         result.extractedMarkup.badges.length > 0 ||
         (addlGet addl (fun a => a.badge)).length > 0),
      sid := "badges", title := "배지",
      chunks := fun n =>
        sectionChunks (badgeSectionParts n result (pac (addlGet addl (fun a => a.badge)))) ic },
    { check := secOpts.lists &&
        (result.components.lists.length > 0 ||
         (addlGet addl (fun a => a.lists)).length > 0),
      sid := "lists", title := "리스트",
      chunks := fun n =>
        sectionChunks (listSectionParts n result (pac (addlGet addl (fun a => a.lists)))) ic },
    { check := secOpts.tabs &&
        (result.components.tabs.length > 0 ||
         (addlGet addl (fun a => a.tabs)).length > 0),
      sid := "tabs", title := "탭",
      chunks := fun n =>
        sectionChunks (tabSectionParts n result (pac (addlGet addl (fun a => a.tabs)))) ic },
    { check := secOpts.tables &&
        (result.tables.length > 0 ||
         (addlGet addl (fun a => a.tables)).length > 0),
      sid := "tables", title := "테이블",
      chunks := fun n =>
        sectionChunks (tableSectionParts n result (pac (addlGet addl (fun a => a.tables)))) ic },
    { check := secOpts.buttons &&
        (result.components.buttons.length > 0 ||
         (addlGet addl (fun a => a.buttons)).length > 0),
      sid := "buttons", title := "버튼",
      chunks := fun n =>
        sectionChunks (buttonSectionParts n result (pac (addlGet addl (fun a => a.buttons)))) ic },
    { check := secOpts.forms &&
        (result.components.forms.length > 0 ||
         (addlGet addl (fun a => a.forms)).length > 0),
      sid := "forms", title := "폼 요소",
      chunks := fun n =>
        sectionChunks (formSectionParts n result (pac (addlGet addl (fun a => a.forms)))) ic },
    { check := secOpts.boxes &&
        (result.components.boxes.length > 0 ||
         (addlGet addl (fun a => a.boxes)).length > 0),
      sid := "boxes", title := "박스/카드",
      chunks := fun n =>
        sectionChunks (boxSectionParts n result (pac (addlGet addl (fun a => a.boxes)))) ic },
    { check := secOpts.modal &&
        (result.modals.length > 0 ||
         (addlGet addl (fun a => a.modal)).length > 0),
      sid := "modal", title := "모달",
      chunks := fun n =>
        sectionChunks (modalSectionParts n result (pac (addlGet addl (fun a => a.modal)))) ic },
    { check := secOpts.pagination &&
        (result.components.pagination.length > 0 ||
         (addlGet addl (fun a => a.pagination)).length > 0),
      sid := "pagination", title := "페이지네이션",
      chunks := fun n =>
        sectionChunks (pagSectionParts n result (pac (addlGet addl (fun a => a.pagination)))) ic },
    { check := secOpts.accordion &&
        (result.components.accordions.length > 0 ||
         result.extractedMarkup.accordions.length > 0 ||
         (addlGet addl (fun a => a.accordion)).length > 0),
      sid := "accordions", title := "아코디언",
      chunks := fun n =>
        sectionChunks (accSectionParts n result (pac (addlGet addl (fun a => a.accordion)))) ic },
    { check := secOpts.favicon && (result.hasFavicon || result.hasOG),
      sid := "favicon", title := "파비콘과 OG",
      chunks := fun n => [.lit (buildFaviconSection n result)] } ]

def runBuildersC : List SectionC → Nat →
    List (List Chunk) × List (String × String) × Nat
  | [], num => ([], [], num)
  | b :: bs, num =>
    if b.check then
      let rest := runBuildersC bs (num + 1)
      (b.chunks (num + 1) :: rest.1, (b.sid, b.title) :: rest.2.1, rest.2.2)
    else runBuildersC bs num

def joinChunks (sep : String) : List (List Chunk) → List Chunk
  | [] => []
  | [k] => k
  | k :: ks => k ++ [.lit sep] ++ joinChunks sep ks

/-- The counter-free skeleton of the whole document. -/
def buildStyleGuideChunks (ist : Store) (files : List UFile)
    (result : AnalysisResult) (secOpts : SectionOptions)
    (styOpts : StyleOptions) (proj : ProjectInfo)
    (addl : Option AdditionalClasses) (today : String) : List Chunk :=
  let bs := chunkBuildersOf result secOpts styOpts addl
  let run := runBuildersC bs 0
  Chunk.lit (headOf ist files styOpts proj today run.2.1) ::
    (joinChunks "\n\n" run.1 ++ [Chunk.lit tailOf])

/-- Sequential rendering of a list of chunk lists, threading the code-block
counter left to right. -/
def renderSeq : List (List Chunk) → Nat → List String × Nat
  | [], c => ([], c)
  | k :: ks, c =>
    let r := renderChunks k c
    let rest := renderSeq ks r.2
    (r.1 :: rest.1, rest.2)

/-- One counter-based section builder is the rendering of one counter-free
chunk builder: same gate, same id and title, and for every display number
the built string and final counter are the chunk rendering at any starting
counter. -/
def Bridged (b : SectionB) (c : SectionC) : Prop :=
  b.check = c.check ∧ b.sid = c.sid ∧ b.title = c.title ∧
  ∀ n k, b.build n k = renderChunks (c.chunks n) k

/-! ## Projections tracked by the verification -/

/-- The result fields the correctness claims track: raw button
observations, CSS variables, and the buttons/tables markup lists. -/
def keyFields (r : AnalysisResult) :
    List BtnObs × List CSSVariable × List ComponentMarkup × List ComponentMarkup :=
  (r.buttons, r.cssVariables, r.extractedMarkup.buttons, r.extractedMarkup.tables)

def keyCT (r : AnalysisResult) : List CSSVariable × List ComponentMarkup :=
  (r.cssVariables, r.extractedMarkup.tables)

def keyBCT (r : AnalysisResult) :
    List BtnObs × List CSSVariable × List ComponentMarkup :=
  (r.buttons, r.cssVariables, r.extractedMarkup.tables)

def keyBCB (r : AnalysisResult) :
    List BtnObs × List CSSVariable × List ComponentMarkup :=
  (r.buttons, r.cssVariables, r.extractedMarkup.buttons)

abbrev keyBCBp (p : AnalysisResult × List (List Nat)) :
    List BtnObs × List CSSVariable × List ComponentMarkup :=
  keyBCB p.1

def keyBEm (r : AnalysisResult) : List BtnObs × ExtractedMarkup :=
  (r.buttons, r.extractedMarkup)

/-! ## Concrete input families used by the verification -/

/-- A page whose only feature is a `div` with id `modal1`. -/
def modalIdDoc : Node :=
  .elem "html" [] [.elem "body" [] [.elem "div" [("id", "modal1")] [.text "notice"]]]

/-- A table whose parent and grandparent are both wrapper-looking `div`s. -/
def tableDocA (tcls txt : String) : Node :=
  .elem "div" [("class", "table-wrap outer")]
    [.elem "div" [("class", "table-wrap inner")]
      [.elem "table" [("class", tcls)] [.text txt]]]

/-- The parent wrapper of `tableDocA` alone. -/
def tableParentA (tcls txt : String) : Node :=
  .elem "div" [("class", "table-wrap inner")]
    [.elem "table" [("class", tcls)] [.text txt]]

/-- A table whose immediate parent is a wrapper `div` but whose grandparent
is not a `div`. -/
def tableDocB (tcls txt : String) : Node :=
  .elem "main" []
    [.elem "div" [("class", "table-wrap only")]
      [.elem "table" [("class", tcls)] [.text txt]]]

def tableParentB (tcls txt : String) : Node :=
  .elem "div" [("class", "table-wrap only")]
    [.elem "table" [("class", tcls)] [.text txt]]

/-- A `<button>` nested two levels below a carousel container. -/
def carouselBtnDoc (bcls txt : String) : Node :=
  .elem "div" [("class", "swiper-container")]
    [.elem "div" [("class", "item")]
      [.elem "button" [("class", bcls)] [.text txt]]]

/-- A `role="button"` element with a clean class inside a carousel
container. -/
def carouselRoleBtnDoc : Node :=
  .elem "div" [("class", "swiper-wrapper")]
    [.elem "a" [("role", "button"), ("class", "next-link")] [.text "go"]]

/-- A `role="button"` element whose own class is carousel-related. -/
def swiperOwnRoleDoc : Node :=
  .elem "div" [("class", "page")]
    [.elem "a" [("role", "button"), ("class", "swiper-next")] [.text "go"]]

/-- The `i`-th structurally distinct one-button page. -/
def btnDoc (i : Nat) : Node :=
  .elem "div" []
    [.elem "button" [("class", "btn-primary")] [.text ("Go" ++ toString i)]]

def btnFiles (n : Nat) : List UFile :=
  (List.range n).map fun i => .htmlF ("page" ++ toString i ++ ".html") (btnDoc i)

/-- The sanitized markup of the `i`-th one-button page's button. -/
def btnHtml (i : Nat) : String :=
  cleanMarkup []
    (serialize (.elem "button" [("class", "btn-primary")] [.text ("Go" ++ toString i)]))

/-- The truncated text sample of the `i`-th button. -/
def btnTxt (i : Nat) : String :=
  takeS 30 (trimS (("Go" ++ toString i) ++ ""))

/-- The single `btn-primary` entry with count `c` that the one-button pages
accumulate into: key and markup come from the first page, page 0. -/
def Ebtn (c : Nat) : ComponentMarkup :=
  { classes := "btn-primary", html := btnHtml 0, text := some (btnTxt 0), count := some c }

def btnFileOf (i : Nat) : UFile :=
  .htmlF ("page" ++ toString i ++ ".html") (btnDoc i)

/-! ## Verification -/

theorem foldl_proj_const {σ α β : Type _} (proj : σ → β) (f : σ → α → σ)
    (h : ∀ s a, proj (f s a) = proj s) (l : List α) (s : σ) :
    proj (l.foldl f s) = proj s := by
  induction l generalizing s with
  | nil => rfl
  | cons a as ih => rw [List.foldl_cons, ih, h]

theorem keyFields_hasFav (r : AnalysisResult) (b : Bool) :
    keyFields { r with hasFavicon := b } = keyFields r := rfl

theorem keyFields_hasOG (r : AnalysisResult) (b : Bool) :
    keyFields { r with hasOG := b } = keyFields r := rfl

theorem formsPass_key (ist : Store) (doc : Node) (r : AnalysisResult) :
    keyFields (formsPass ist doc r) = keyFields r := by
  unfold formsPass
  apply foldl_proj_const
  intro s a
  dsimp only
  repeat' split
  all_goals simp [keyFields, setMkForms, setMkBoxes, setMkHelperBoxes, setMkLists, setMkStepLists, setMkBreadcrumbs, setMkMenus, setMkLeftMenus, setMkTabs, setMkPaginations, setMkModals, setMkBadges, setMkAccordions, pushCompButtons, pushCompForms, pushCompTables, pushCompLists, pushCompModals, pushCompTabs, pushCompPagination, pushCompAccordions]

theorem boxesPass_key (ist : Store) (doc : Node) (r : AnalysisResult) :
    keyFields (boxesPass ist doc r) = keyFields r := by
  unfold boxesPass
  apply foldl_proj_const
  intro s a
  dsimp only
  repeat' split
  all_goals simp [keyFields, setMkForms, setMkBoxes, setMkHelperBoxes, setMkLists, setMkStepLists, setMkBreadcrumbs, setMkMenus, setMkLeftMenus, setMkTabs, setMkPaginations, setMkModals, setMkBadges, setMkAccordions, pushCompButtons, pushCompForms, pushCompTables, pushCompLists, pushCompModals, pushCompTabs, pushCompPagination, pushCompAccordions]

theorem helperBoxesPass_key (ist : Store) (doc : Node) (r : AnalysisResult) :
    keyFields (helperBoxesPass ist doc r) = keyFields r := by
  unfold helperBoxesPass
  apply foldl_proj_const
  intro s a
  dsimp only
  repeat' split
  all_goals simp [keyFields, setMkForms, setMkBoxes, setMkHelperBoxes, setMkLists, setMkStepLists, setMkBreadcrumbs, setMkMenus, setMkLeftMenus, setMkTabs, setMkPaginations, setMkModals, setMkBadges, setMkAccordions, pushCompButtons, pushCompForms, pushCompTables, pushCompLists, pushCompModals, pushCompTabs, pushCompPagination, pushCompAccordions]

theorem listsPass_key (ist : Store) (doc : Node) (r : AnalysisResult) :
    keyFields (listsPass ist doc r) = keyFields r := by
  unfold listsPass
  apply foldl_proj_const
  intro s a
  dsimp only
  repeat' split
  all_goals simp [keyFields, setMkForms, setMkBoxes, setMkHelperBoxes, setMkLists, setMkStepLists, setMkBreadcrumbs, setMkMenus, setMkLeftMenus, setMkTabs, setMkPaginations, setMkModals, setMkBadges, setMkAccordions, pushCompButtons, pushCompForms, pushCompTables, pushCompLists, pushCompModals, pushCompTabs, pushCompPagination, pushCompAccordions]

theorem stepListsPass_key (ist : Store) (doc : Node) (r : AnalysisResult) :
    keyFields (stepListsPass ist doc r) = keyFields r := by
  unfold stepListsPass
  apply foldl_proj_const
  intro s a
  dsimp only
  repeat' split
  all_goals simp [keyFields, setMkForms, setMkBoxes, setMkHelperBoxes, setMkLists, setMkStepLists, setMkBreadcrumbs, setMkMenus, setMkLeftMenus, setMkTabs, setMkPaginations, setMkModals, setMkBadges, setMkAccordions, pushCompButtons, pushCompForms, pushCompTables, pushCompLists, pushCompModals, pushCompTabs, pushCompPagination, pushCompAccordions]

theorem breadcrumbsPass_key (ist : Store) (doc : Node) (r : AnalysisResult) :
    keyFields (breadcrumbsPass ist doc r) = keyFields r := by
  unfold breadcrumbsPass
  apply foldl_proj_const
  intro s a
  dsimp only
  repeat' split
  all_goals simp [keyFields, setMkForms, setMkBoxes, setMkHelperBoxes, setMkLists, setMkStepLists, setMkBreadcrumbs, setMkMenus, setMkLeftMenus, setMkTabs, setMkPaginations, setMkModals, setMkBadges, setMkAccordions, pushCompButtons, pushCompForms, pushCompTables, pushCompLists, pushCompModals, pushCompTabs, pushCompPagination, pushCompAccordions]

theorem menusPass_key (ist : Store) (doc : Node) (r : AnalysisResult) :
    keyFields (menusPass ist doc r) = keyFields r := by
  unfold menusPass
  apply foldl_proj_const
  intro s a
  dsimp only
  repeat' split
  all_goals simp [keyFields, setMkForms, setMkBoxes, setMkHelperBoxes, setMkLists, setMkStepLists, setMkBreadcrumbs, setMkMenus, setMkLeftMenus, setMkTabs, setMkPaginations, setMkModals, setMkBadges, setMkAccordions, pushCompButtons, pushCompForms, pushCompTables, pushCompLists, pushCompModals, pushCompTabs, pushCompPagination, pushCompAccordions]

theorem leftMenusPass_key (ist : Store) (doc : Node) (r : AnalysisResult) :
    keyFields (leftMenusPass ist doc r) = keyFields r := by
  unfold leftMenusPass
  apply foldl_proj_const
  intro s a
  dsimp only
  repeat' split
  all_goals simp [keyFields, setMkForms, setMkBoxes, setMkHelperBoxes, setMkLists, setMkStepLists, setMkBreadcrumbs, setMkMenus, setMkLeftMenus, setMkTabs, setMkPaginations, setMkModals, setMkBadges, setMkAccordions, pushCompButtons, pushCompForms, pushCompTables, pushCompLists, pushCompModals, pushCompTabs, pushCompPagination, pushCompAccordions]

theorem tabsPass_key (ist : Store) (doc : Node) (r : AnalysisResult) :
    keyFields (tabsPass ist doc r) = keyFields r := by
  unfold tabsPass
  apply foldl_proj_const
  intro s a
  dsimp only
  repeat' split
  all_goals simp [keyFields, setMkForms, setMkBoxes, setMkHelperBoxes, setMkLists, setMkStepLists, setMkBreadcrumbs, setMkMenus, setMkLeftMenus, setMkTabs, setMkPaginations, setMkModals, setMkBadges, setMkAccordions, pushCompButtons, pushCompForms, pushCompTables, pushCompLists, pushCompModals, pushCompTabs, pushCompPagination, pushCompAccordions]

theorem paginationsPass_key (ist : Store) (doc : Node) (r : AnalysisResult) :
    keyFields (paginationsPass ist doc r) = keyFields r := by
  unfold paginationsPass
  apply foldl_proj_const
  intro s a
  dsimp only
  repeat' split
  all_goals simp [keyFields, setMkForms, setMkBoxes, setMkHelperBoxes, setMkLists, setMkStepLists, setMkBreadcrumbs, setMkMenus, setMkLeftMenus, setMkTabs, setMkPaginations, setMkModals, setMkBadges, setMkAccordions, pushCompButtons, pushCompForms, pushCompTables, pushCompLists, pushCompModals, pushCompTabs, pushCompPagination, pushCompAccordions]

theorem modalsPass_key (ist : Store) (doc : Node) (r : AnalysisResult) :
    keyFields (modalsPass ist doc r) = keyFields r := by
  unfold modalsPass
  apply foldl_proj_const
  intro s a
  dsimp only
  repeat' split
  all_goals simp [keyFields, setMkForms, setMkBoxes, setMkHelperBoxes, setMkLists, setMkStepLists, setMkBreadcrumbs, setMkMenus, setMkLeftMenus, setMkTabs, setMkPaginations, setMkModals, setMkBadges, setMkAccordions, pushCompButtons, pushCompForms, pushCompTables, pushCompLists, pushCompModals, pushCompTabs, pushCompPagination, pushCompAccordions]

theorem badgesPass_key (ist : Store) (doc : Node) (r : AnalysisResult) :
    keyFields (badgesPass ist doc r) = keyFields r := by
  unfold badgesPass
  apply foldl_proj_const
  intro s a
  dsimp only
  repeat' split
  all_goals simp [keyFields, setMkForms, setMkBoxes, setMkHelperBoxes, setMkLists, setMkStepLists, setMkBreadcrumbs, setMkMenus, setMkLeftMenus, setMkTabs, setMkPaginations, setMkModals, setMkBadges, setMkAccordions, pushCompButtons, pushCompForms, pushCompTables, pushCompLists, pushCompModals, pushCompTabs, pushCompPagination, pushCompAccordions]

theorem accordionsPass_key (ist : Store) (doc : Node) (r : AnalysisResult) :
    keyFields (accordionsPass ist doc r) = keyFields r := by
  unfold accordionsPass
  apply foldl_proj_const
  intro s a
  dsimp only
  repeat' split
  all_goals simp [keyFields, setMkForms, setMkBoxes, setMkHelperBoxes, setMkLists, setMkStepLists, setMkBreadcrumbs, setMkMenus, setMkLeftMenus, setMkTabs, setMkPaginations, setMkModals, setMkBadges, setMkAccordions, pushCompButtons, pushCompForms, pushCompTables, pushCompLists, pushCompModals, pushCompTabs, pushCompPagination, pushCompAccordions]

theorem roleListPass_key (ist : Store) (doc : Node) (r : AnalysisResult) :
    keyFields (roleListPass ist doc r) = keyFields r := by
  unfold roleListPass
  apply foldl_proj_const
  intro s a
  dsimp only
  repeat' split
  all_goals simp [keyFields, setMkForms, setMkBoxes, setMkHelperBoxes, setMkLists, setMkStepLists, setMkBreadcrumbs, setMkMenus, setMkLeftMenus, setMkTabs, setMkPaginations, setMkModals, setMkBadges, setMkAccordions, pushCompButtons, pushCompForms, pushCompTables, pushCompLists, pushCompModals, pushCompTabs, pushCompPagination, pushCompAccordions]

theorem roleDialogPass_key (ist : Store) (doc : Node) (r : AnalysisResult) :
    keyFields (roleDialogPass ist doc r) = keyFields r := by
  unfold roleDialogPass
  apply foldl_proj_const
  intro s a
  dsimp only
  repeat' split
  all_goals simp [keyFields, setMkForms, setMkBoxes, setMkHelperBoxes, setMkLists, setMkStepLists, setMkBreadcrumbs, setMkMenus, setMkLeftMenus, setMkTabs, setMkPaginations, setMkModals, setMkBadges, setMkAccordions, pushCompButtons, pushCompForms, pushCompTables, pushCompLists, pushCompModals, pushCompTabs, pushCompPagination, pushCompAccordions]

theorem idTabPass_key (ist : Store) (doc : Node) (r : AnalysisResult) :
    keyFields (idTabPass ist doc r) = keyFields r := by
  unfold idTabPass
  apply foldl_proj_const
  intro s a
  dsimp only
  repeat' split
  all_goals simp [keyFields, setMkForms, setMkBoxes, setMkHelperBoxes, setMkLists, setMkStepLists, setMkBreadcrumbs, setMkMenus, setMkLeftMenus, setMkTabs, setMkPaginations, setMkModals, setMkBadges, setMkAccordions, pushCompButtons, pushCompForms, pushCompTables, pushCompLists, pushCompModals, pushCompTabs, pushCompPagination, pushCompAccordions]

theorem idModalPass_key (ist : Store) (doc : Node) (r : AnalysisResult) :
    keyFields (idModalPass ist doc r) = keyFields r := by
  unfold idModalPass
  apply foldl_proj_const
  intro s a
  dsimp only
  repeat' split
  all_goals simp [keyFields, setMkForms, setMkBoxes, setMkHelperBoxes, setMkLists, setMkStepLists, setMkBreadcrumbs, setMkMenus, setMkLeftMenus, setMkTabs, setMkPaginations, setMkModals, setMkBadges, setMkAccordions, pushCompButtons, pushCompForms, pushCompTables, pushCompLists, pushCompModals, pushCompTabs, pushCompPagination, pushCompAccordions]

theorem idAccordionPass_key (ist : Store) (doc : Node) (r : AnalysisResult) :
    keyFields (idAccordionPass ist doc r) = keyFields r := by
  unfold idAccordionPass
  apply foldl_proj_const
  intro s a
  dsimp only
  repeat' split
  all_goals simp [keyFields, setMkForms, setMkBoxes, setMkHelperBoxes, setMkLists, setMkStepLists, setMkBreadcrumbs, setMkMenus, setMkLeftMenus, setMkTabs, setMkPaginations, setMkModals, setMkBadges, setMkAccordions, pushCompButtons, pushCompForms, pushCompTables, pushCompLists, pushCompModals, pushCompTabs, pushCompPagination, pushCompAccordions]

theorem idPagingPass_key (ist : Store) (doc : Node) (r : AnalysisResult) :
    keyFields (idPagingPass ist doc r) = keyFields r := by
  unfold idPagingPass
  apply foldl_proj_const
  intro s a
  dsimp only
  repeat' split
  all_goals simp [keyFields, setMkForms, setMkBoxes, setMkHelperBoxes, setMkLists, setMkStepLists, setMkBreadcrumbs, setMkMenus, setMkLeftMenus, setMkTabs, setMkPaginations, setMkModals, setMkBadges, setMkAccordions, pushCompButtons, pushCompForms, pushCompTables, pushCompLists, pushCompModals, pushCompTabs, pushCompPagination, pushCompAccordions]

theorem idFormPass_key (ist : Store) (doc : Node) (r : AnalysisResult) :
    keyFields (idFormPass ist doc r) = keyFields r := by
  unfold idFormPass
  apply foldl_proj_const
  intro s a
  dsimp only
  repeat' split
  all_goals simp [keyFields, setMkForms, setMkBoxes, setMkHelperBoxes, setMkLists, setMkStepLists, setMkBreadcrumbs, setMkMenus, setMkLeftMenus, setMkTabs, setMkPaginations, setMkModals, setMkBadges, setMkAccordions, pushCompButtons, pushCompForms, pushCompTables, pushCompLists, pushCompModals, pushCompTabs, pushCompPagination, pushCompAccordions]

theorem inputsPass_key (doc : Node) (r : AnalysisResult) :
    keyFields (inputsPass doc r) = keyFields r := by
  unfold inputsPass
  apply foldl_proj_const
  intro s a
  dsimp only
  repeat' split
  all_goals simp [keyFields, setMkForms, setMkBoxes, setMkHelperBoxes, setMkLists, setMkStepLists, setMkBreadcrumbs, setMkMenus, setMkLeftMenus, setMkTabs, setMkPaginations, setMkModals, setMkBadges, setMkAccordions, pushCompButtons, pushCompForms, pushCompTables, pushCompLists, pushCompModals, pushCompTabs, pushCompPagination, pushCompAccordions]

theorem roleTablistPass_key (doc : Node) (r : AnalysisResult) :
    keyFields (roleTablistPass doc r) = keyFields r := by
  unfold roleTablistPass
  apply foldl_proj_const
  intro s a
  dsimp only
  repeat' split
  all_goals simp [keyFields, setMkForms, setMkBoxes, setMkHelperBoxes, setMkLists, setMkStepLists, setMkBreadcrumbs, setMkMenus, setMkLeftMenus, setMkTabs, setMkPaginations, setMkModals, setMkBadges, setMkAccordions, pushCompButtons, pushCompForms, pushCompTables, pushCompLists, pushCompModals, pushCompTabs, pushCompPagination, pushCompAccordions]

theorem roleNavPass_key (doc : Node) (r : AnalysisResult) :
    keyFields (roleNavPass doc r) = keyFields r := by
  unfold roleNavPass
  apply foldl_proj_const
  intro s a
  dsimp only
  repeat' split
  all_goals simp [keyFields, setMkForms, setMkBoxes, setMkHelperBoxes, setMkLists, setMkStepLists, setMkBreadcrumbs, setMkMenus, setMkLeftMenus, setMkTabs, setMkPaginations, setMkModals, setMkBadges, setMkAccordions, pushCompButtons, pushCompForms, pushCompTables, pushCompLists, pushCompModals, pushCompTabs, pushCompPagination, pushCompAccordions]

theorem idsPass_key (doc : Node) (r : AnalysisResult) :
    keyFields (idsPass doc r) = keyFields r := by
  unfold idsPass
  apply foldl_proj_const
  intro s a
  dsimp only
  repeat' split
  all_goals simp [keyFields, setMkForms, setMkBoxes, setMkHelperBoxes, setMkLists, setMkStepLists, setMkBreadcrumbs, setMkMenus, setMkLeftMenus, setMkTabs, setMkPaginations, setMkModals, setMkBadges, setMkAccordions, pushCompButtons, pushCompForms, pushCompTables, pushCompLists, pushCompModals, pushCompTabs, pushCompPagination, pushCompAccordions]

theorem tagsPass_key (doc : Node) (r : AnalysisResult) :
    keyFields (tagsPass doc r) = keyFields r := by
  unfold tagsPass
  apply foldl_proj_const
  intro s a
  dsimp only
  repeat' split
  all_goals simp [keyFields, setMkForms, setMkBoxes, setMkHelperBoxes, setMkLists, setMkStepLists, setMkBreadcrumbs, setMkMenus, setMkLeftMenus, setMkTabs, setMkPaginations, setMkModals, setMkBadges, setMkAccordions, pushCompButtons, pushCompForms, pushCompTables, pushCompLists, pushCompModals, pushCompTabs, pushCompPagination, pushCompAccordions]

theorem typographyPass_key (doc : Node) (r : AnalysisResult) :
    keyFields (typographyPass doc r) = keyFields r := by
  unfold typographyPass
  apply foldl_proj_const
  intro s a
  dsimp only
  apply foldl_proj_const
  intro s2 a2
  dsimp only
  repeat' split
  all_goals simp [keyFields, setMkForms, setMkBoxes, setMkHelperBoxes, setMkLists, setMkStepLists, setMkBreadcrumbs, setMkMenus, setMkLeftMenus, setMkTabs, setMkPaginations, setMkModals, setMkBadges, setMkAccordions, pushCompButtons, pushCompForms, pushCompTables, pushCompLists, pushCompModals, pushCompTabs, pushCompPagination, pushCompAccordions]

theorem iconsPass_key (doc : Node) (r : AnalysisResult) :
    keyFields (iconsPass doc r) = keyFields r := by
  unfold iconsPass
  apply foldl_proj_const
  intro s a
  dsimp only
  apply foldl_proj_const
  intro s2 a2
  dsimp only
  repeat' split
  all_goals simp [keyFields, setMkForms, setMkBoxes, setMkHelperBoxes, setMkLists, setMkStepLists, setMkBreadcrumbs, setMkMenus, setMkLeftMenus, setMkTabs, setMkPaginations, setMkModals, setMkBadges, setMkAccordions, pushCompButtons, pushCompForms, pushCompTables, pushCompLists, pushCompModals, pushCompTabs, pushCompPagination, pushCompAccordions]

theorem classesPass_key (doc : Node) (r : AnalysisResult) :
    keyFields (classesPass doc r) = keyFields r := by
  unfold classesPass
  apply foldl_proj_const
  intro s a
  dsimp only
  apply foldl_proj_const
  intro s2 a2
  dsimp only
  repeat' split
  all_goals simp [keyFields, setMkForms, setMkBoxes, setMkHelperBoxes, setMkLists, setMkStepLists, setMkBreadcrumbs, setMkMenus, setMkLeftMenus, setMkTabs, setMkPaginations, setMkModals, setMkBadges, setMkAccordions, pushCompButtons, pushCompForms, pushCompTables, pushCompLists, pushCompModals, pushCompTabs, pushCompPagination, pushCompAccordions]

theorem faviconsPass_key (doc : Node) (r : AnalysisResult) :
    keyFields (faviconsPass doc r) = keyFields r := by
  unfold faviconsPass
  dsimp only
  split
  · rw [keyFields_hasFav]
    apply foldl_proj_const
    intro s a
    dsimp only
    repeat' split
    all_goals simp [keyFields]
  · apply foldl_proj_const
    intro s a
    dsimp only
    repeat' split
    all_goals simp [keyFields]

theorem ogPass_key (doc : Node) (r : AnalysisResult) :
    keyFields (ogPass doc r) = keyFields r := by
  unfold ogPass
  dsimp only
  split
  · rw [keyFields_hasOG]
    apply foldl_proj_const
    intro s a
    dsimp only
    repeat' split
    all_goals simp [keyFields]
  · apply foldl_proj_const
    intro s a
    dsimp only
    repeat' split
    all_goals simp [keyFields]

theorem buttonsPass_keyCT (ist : Store) (doc : Node) (r : AnalysisResult) :
    keyCT (buttonsPass ist doc r) = keyCT r := by
  unfold buttonsPass
  apply foldl_proj_const
  intro s a
  dsimp only
  repeat' split
  all_goals simp [keyCT, setMkButtons]

theorem roleButtonPass_keyBCT (ist : Store) (doc : Node) (r : AnalysisResult) :
    keyBCT (roleButtonPass ist doc r) = keyBCT r := by
  unfold roleButtonPass
  apply foldl_proj_const
  intro s a
  dsimp only
  repeat' split
  all_goals simp [keyBCT, setMkButtons, pushCompButtons]

theorem roleTablePass_keyBCB (ist : Store) (doc : Node) (r : AnalysisResult) :
    keyBCB (roleTablePass ist doc r) = keyBCB r := by
  unfold roleTablePass
  apply foldl_proj_const
  intro s a
  dsimp only
  repeat' split
  all_goals simp [keyBCB, setMkTables, pushCompTables]

theorem tablesPass_keyBCB (ist : Store) (doc : Node) (r : AnalysisResult) :
    keyBCB (tablesPass ist doc r) = keyBCB r := by
  unfold tablesPass
  show keyBCBp (List.foldl _ _ _) = keyBCB r
  refine foldl_proj_const keyBCBp _ ?_ _ _
  intro s a
  dsimp only
  repeat' split
  all_goals simp [keyBCB, setMkTables]

theorem analyzeCss_keyBEm (content : String) (r : AnalysisResult) :
    keyBEm (analyzeCss content r) = keyBEm r := by
  unfold analyzeCss
  dsimp only
  have hstep : ∀ s nv, keyBEm (cssVarStep s nv) = keyBEm s := by
    intro s nv
    unfold cssVarStep
    split <;> rfl
  rw [foldl_proj_const keyBEm cssVarStep hstep]
  rfl

theorem formsPass_css (ist : Store) (doc : Node) (r : AnalysisResult) :
    (formsPass ist doc r).cssVariables = r.cssVariables :=
  congrArg (fun t => t.2.1) (formsPass_key ist doc r)

theorem formsPass_emT (ist : Store) (doc : Node) (r : AnalysisResult) :
    (formsPass ist doc r).extractedMarkup.tables = r.extractedMarkup.tables :=
  congrArg (fun t => t.2.2.2) (formsPass_key ist doc r)

theorem formsPass_emB (ist : Store) (doc : Node) (r : AnalysisResult) :
    (formsPass ist doc r).extractedMarkup.buttons = r.extractedMarkup.buttons :=
  congrArg (fun t => t.2.2.1) (formsPass_key ist doc r)

theorem formsPass_rawB (ist : Store) (doc : Node) (r : AnalysisResult) :
    (formsPass ist doc r).buttons = r.buttons :=
  congrArg (fun t => t.1) (formsPass_key ist doc r)

theorem boxesPass_css (ist : Store) (doc : Node) (r : AnalysisResult) :
    (boxesPass ist doc r).cssVariables = r.cssVariables :=
  congrArg (fun t => t.2.1) (boxesPass_key ist doc r)

theorem boxesPass_emT (ist : Store) (doc : Node) (r : AnalysisResult) :
    (boxesPass ist doc r).extractedMarkup.tables = r.extractedMarkup.tables :=
  congrArg (fun t => t.2.2.2) (boxesPass_key ist doc r)

theorem boxesPass_emB (ist : Store) (doc : Node) (r : AnalysisResult) :
    (boxesPass ist doc r).extractedMarkup.buttons = r.extractedMarkup.buttons :=
  congrArg (fun t => t.2.2.1) (boxesPass_key ist doc r)

theorem boxesPass_rawB (ist : Store) (doc : Node) (r : AnalysisResult) :
    (boxesPass ist doc r).buttons = r.buttons :=
  congrArg (fun t => t.1) (boxesPass_key ist doc r)

theorem helperBoxesPass_css (ist : Store) (doc : Node) (r : AnalysisResult) :
    (helperBoxesPass ist doc r).cssVariables = r.cssVariables :=
  congrArg (fun t => t.2.1) (helperBoxesPass_key ist doc r)

theorem helperBoxesPass_emT (ist : Store) (doc : Node) (r : AnalysisResult) :
    (helperBoxesPass ist doc r).extractedMarkup.tables = r.extractedMarkup.tables :=
  congrArg (fun t => t.2.2.2) (helperBoxesPass_key ist doc r)

theorem helperBoxesPass_emB (ist : Store) (doc : Node) (r : AnalysisResult) :
    (helperBoxesPass ist doc r).extractedMarkup.buttons = r.extractedMarkup.buttons :=
  congrArg (fun t => t.2.2.1) (helperBoxesPass_key ist doc r)

theorem helperBoxesPass_rawB (ist : Store) (doc : Node) (r : AnalysisResult) :
    (helperBoxesPass ist doc r).buttons = r.buttons :=
  congrArg (fun t => t.1) (helperBoxesPass_key ist doc r)

theorem listsPass_css (ist : Store) (doc : Node) (r : AnalysisResult) :
    (listsPass ist doc r).cssVariables = r.cssVariables :=
  congrArg (fun t => t.2.1) (listsPass_key ist doc r)

theorem listsPass_emT (ist : Store) (doc : Node) (r : AnalysisResult) :
    (listsPass ist doc r).extractedMarkup.tables = r.extractedMarkup.tables :=
  congrArg (fun t => t.2.2.2) (listsPass_key ist doc r)

theorem listsPass_emB (ist : Store) (doc : Node) (r : AnalysisResult) :
    (listsPass ist doc r).extractedMarkup.buttons = r.extractedMarkup.buttons :=
  congrArg (fun t => t.2.2.1) (listsPass_key ist doc r)

theorem listsPass_rawB (ist : Store) (doc : Node) (r : AnalysisResult) :
    (listsPass ist doc r).buttons = r.buttons :=
  congrArg (fun t => t.1) (listsPass_key ist doc r)

theorem stepListsPass_css (ist : Store) (doc : Node) (r : AnalysisResult) :
    (stepListsPass ist doc r).cssVariables = r.cssVariables :=
  congrArg (fun t => t.2.1) (stepListsPass_key ist doc r)

theorem stepListsPass_emT (ist : Store) (doc : Node) (r : AnalysisResult) :
    (stepListsPass ist doc r).extractedMarkup.tables = r.extractedMarkup.tables :=
  congrArg (fun t => t.2.2.2) (stepListsPass_key ist doc r)

theorem stepListsPass_emB (ist : Store) (doc : Node) (r : AnalysisResult) :
    (stepListsPass ist doc r).extractedMarkup.buttons = r.extractedMarkup.buttons :=
  congrArg (fun t => t.2.2.1) (stepListsPass_key ist doc r)

theorem stepListsPass_rawB (ist : Store) (doc : Node) (r : AnalysisResult) :
    (stepListsPass ist doc r).buttons = r.buttons :=
  congrArg (fun t => t.1) (stepListsPass_key ist doc r)

theorem breadcrumbsPass_css (ist : Store) (doc : Node) (r : AnalysisResult) :
    (breadcrumbsPass ist doc r).cssVariables = r.cssVariables :=
  congrArg (fun t => t.2.1) (breadcrumbsPass_key ist doc r)

theorem breadcrumbsPass_emT (ist : Store) (doc : Node) (r : AnalysisResult) :
    (breadcrumbsPass ist doc r).extractedMarkup.tables = r.extractedMarkup.tables :=
  congrArg (fun t => t.2.2.2) (breadcrumbsPass_key ist doc r)

theorem breadcrumbsPass_emB (ist : Store) (doc : Node) (r : AnalysisResult) :
    (breadcrumbsPass ist doc r).extractedMarkup.buttons = r.extractedMarkup.buttons :=
  congrArg (fun t => t.2.2.1) (breadcrumbsPass_key ist doc r)

theorem breadcrumbsPass_rawB (ist : Store) (doc : Node) (r : AnalysisResult) :
    (breadcrumbsPass ist doc r).buttons = r.buttons :=
  congrArg (fun t => t.1) (breadcrumbsPass_key ist doc r)

theorem menusPass_css (ist : Store) (doc : Node) (r : AnalysisResult) :
    (menusPass ist doc r).cssVariables = r.cssVariables :=
  congrArg (fun t => t.2.1) (menusPass_key ist doc r)

theorem menusPass_emT (ist : Store) (doc : Node) (r : AnalysisResult) :
    (menusPass ist doc r).extractedMarkup.tables = r.extractedMarkup.tables :=
  congrArg (fun t => t.2.2.2) (menusPass_key ist doc r)

theorem menusPass_emB (ist : Store) (doc : Node) (r : AnalysisResult) :
    (menusPass ist doc r).extractedMarkup.buttons = r.extractedMarkup.buttons :=
  congrArg (fun t => t.2.2.1) (menusPass_key ist doc r)

theorem menusPass_rawB (ist : Store) (doc : Node) (r : AnalysisResult) :
    (menusPass ist doc r).buttons = r.buttons :=
  congrArg (fun t => t.1) (menusPass_key ist doc r)

theorem leftMenusPass_css (ist : Store) (doc : Node) (r : AnalysisResult) :
    (leftMenusPass ist doc r).cssVariables = r.cssVariables :=
  congrArg (fun t => t.2.1) (leftMenusPass_key ist doc r)

theorem leftMenusPass_emT (ist : Store) (doc : Node) (r : AnalysisResult) :
    (leftMenusPass ist doc r).extractedMarkup.tables = r.extractedMarkup.tables :=
  congrArg (fun t => t.2.2.2) (leftMenusPass_key ist doc r)

theorem leftMenusPass_emB (ist : Store) (doc : Node) (r : AnalysisResult) :
    (leftMenusPass ist doc r).extractedMarkup.buttons = r.extractedMarkup.buttons :=
  congrArg (fun t => t.2.2.1) (leftMenusPass_key ist doc r)

theorem leftMenusPass_rawB (ist : Store) (doc : Node) (r : AnalysisResult) :
    (leftMenusPass ist doc r).buttons = r.buttons :=
  congrArg (fun t => t.1) (leftMenusPass_key ist doc r)

theorem tabsPass_css (ist : Store) (doc : Node) (r : AnalysisResult) :
    (tabsPass ist doc r).cssVariables = r.cssVariables :=
  congrArg (fun t => t.2.1) (tabsPass_key ist doc r)

theorem tabsPass_emT (ist : Store) (doc : Node) (r : AnalysisResult) :
    (tabsPass ist doc r).extractedMarkup.tables = r.extractedMarkup.tables :=
  congrArg (fun t => t.2.2.2) (tabsPass_key ist doc r)

theorem tabsPass_emB (ist : Store) (doc : Node) (r : AnalysisResult) :
    (tabsPass ist doc r).extractedMarkup.buttons = r.extractedMarkup.buttons :=
  congrArg (fun t => t.2.2.1) (tabsPass_key ist doc r)

theorem tabsPass_rawB (ist : Store) (doc : Node) (r : AnalysisResult) :
    (tabsPass ist doc r).buttons = r.buttons :=
  congrArg (fun t => t.1) (tabsPass_key ist doc r)

theorem paginationsPass_css (ist : Store) (doc : Node) (r : AnalysisResult) :
    (paginationsPass ist doc r).cssVariables = r.cssVariables :=
  congrArg (fun t => t.2.1) (paginationsPass_key ist doc r)

theorem paginationsPass_emT (ist : Store) (doc : Node) (r : AnalysisResult) :
    (paginationsPass ist doc r).extractedMarkup.tables = r.extractedMarkup.tables :=
  congrArg (fun t => t.2.2.2) (paginationsPass_key ist doc r)

theorem paginationsPass_emB (ist : Store) (doc : Node) (r : AnalysisResult) :
    (paginationsPass ist doc r).extractedMarkup.buttons = r.extractedMarkup.buttons :=
  congrArg (fun t => t.2.2.1) (paginationsPass_key ist doc r)

theorem paginationsPass_rawB (ist : Store) (doc : Node) (r : AnalysisResult) :
    (paginationsPass ist doc r).buttons = r.buttons :=
  congrArg (fun t => t.1) (paginationsPass_key ist doc r)

theorem modalsPass_css (ist : Store) (doc : Node) (r : AnalysisResult) :
    (modalsPass ist doc r).cssVariables = r.cssVariables :=
  congrArg (fun t => t.2.1) (modalsPass_key ist doc r)

theorem modalsPass_emT (ist : Store) (doc : Node) (r : AnalysisResult) :
    (modalsPass ist doc r).extractedMarkup.tables = r.extractedMarkup.tables :=
  congrArg (fun t => t.2.2.2) (modalsPass_key ist doc r)

theorem modalsPass_emB (ist : Store) (doc : Node) (r : AnalysisResult) :
    (modalsPass ist doc r).extractedMarkup.buttons = r.extractedMarkup.buttons :=
  congrArg (fun t => t.2.2.1) (modalsPass_key ist doc r)

theorem modalsPass_rawB (ist : Store) (doc : Node) (r : AnalysisResult) :
    (modalsPass ist doc r).buttons = r.buttons :=
  congrArg (fun t => t.1) (modalsPass_key ist doc r)

theorem badgesPass_css (ist : Store) (doc : Node) (r : AnalysisResult) :
    (badgesPass ist doc r).cssVariables = r.cssVariables :=
  congrArg (fun t => t.2.1) (badgesPass_key ist doc r)

theorem badgesPass_emT (ist : Store) (doc : Node) (r : AnalysisResult) :
    (badgesPass ist doc r).extractedMarkup.tables = r.extractedMarkup.tables :=
  congrArg (fun t => t.2.2.2) (badgesPass_key ist doc r)

theorem badgesPass_emB (ist : Store) (doc : Node) (r : AnalysisResult) :
    (badgesPass ist doc r).extractedMarkup.buttons = r.extractedMarkup.buttons :=
  congrArg (fun t => t.2.2.1) (badgesPass_key ist doc r)

theorem badgesPass_rawB (ist : Store) (doc : Node) (r : AnalysisResult) :
    (badgesPass ist doc r).buttons = r.buttons :=
  congrArg (fun t => t.1) (badgesPass_key ist doc r)

theorem accordionsPass_css (ist : Store) (doc : Node) (r : AnalysisResult) :
    (accordionsPass ist doc r).cssVariables = r.cssVariables :=
  congrArg (fun t => t.2.1) (accordionsPass_key ist doc r)

theorem accordionsPass_emT (ist : Store) (doc : Node) (r : AnalysisResult) :
    (accordionsPass ist doc r).extractedMarkup.tables = r.extractedMarkup.tables :=
  congrArg (fun t => t.2.2.2) (accordionsPass_key ist doc r)

theorem accordionsPass_emB (ist : Store) (doc : Node) (r : AnalysisResult) :
    (accordionsPass ist doc r).extractedMarkup.buttons = r.extractedMarkup.buttons :=
  congrArg (fun t => t.2.2.1) (accordionsPass_key ist doc r)

theorem accordionsPass_rawB (ist : Store) (doc : Node) (r : AnalysisResult) :
    (accordionsPass ist doc r).buttons = r.buttons :=
  congrArg (fun t => t.1) (accordionsPass_key ist doc r)

theorem roleListPass_css (ist : Store) (doc : Node) (r : AnalysisResult) :
    (roleListPass ist doc r).cssVariables = r.cssVariables :=
  congrArg (fun t => t.2.1) (roleListPass_key ist doc r)

theorem roleListPass_emT (ist : Store) (doc : Node) (r : AnalysisResult) :
    (roleListPass ist doc r).extractedMarkup.tables = r.extractedMarkup.tables :=
  congrArg (fun t => t.2.2.2) (roleListPass_key ist doc r)

theorem roleListPass_emB (ist : Store) (doc : Node) (r : AnalysisResult) :
    (roleListPass ist doc r).extractedMarkup.buttons = r.extractedMarkup.buttons :=
  congrArg (fun t => t.2.2.1) (roleListPass_key ist doc r)

theorem roleListPass_rawB (ist : Store) (doc : Node) (r : AnalysisResult) :
    (roleListPass ist doc r).buttons = r.buttons :=
  congrArg (fun t => t.1) (roleListPass_key ist doc r)

theorem roleDialogPass_css (ist : Store) (doc : Node) (r : AnalysisResult) :
    (roleDialogPass ist doc r).cssVariables = r.cssVariables :=
  congrArg (fun t => t.2.1) (roleDialogPass_key ist doc r)

theorem roleDialogPass_emT (ist : Store) (doc : Node) (r : AnalysisResult) :
    (roleDialogPass ist doc r).extractedMarkup.tables = r.extractedMarkup.tables :=
  congrArg (fun t => t.2.2.2) (roleDialogPass_key ist doc r)

theorem roleDialogPass_emB (ist : Store) (doc : Node) (r : AnalysisResult) :
    (roleDialogPass ist doc r).extractedMarkup.buttons = r.extractedMarkup.buttons :=
  congrArg (fun t => t.2.2.1) (roleDialogPass_key ist doc r)

theorem roleDialogPass_rawB (ist : Store) (doc : Node) (r : AnalysisResult) :
    (roleDialogPass ist doc r).buttons = r.buttons :=
  congrArg (fun t => t.1) (roleDialogPass_key ist doc r)

theorem idTabPass_css (ist : Store) (doc : Node) (r : AnalysisResult) :
    (idTabPass ist doc r).cssVariables = r.cssVariables :=
  congrArg (fun t => t.2.1) (idTabPass_key ist doc r)

theorem idTabPass_emT (ist : Store) (doc : Node) (r : AnalysisResult) :
    (idTabPass ist doc r).extractedMarkup.tables = r.extractedMarkup.tables :=
  congrArg (fun t => t.2.2.2) (idTabPass_key ist doc r)

theorem idTabPass_emB (ist : Store) (doc : Node) (r : AnalysisResult) :
    (idTabPass ist doc r).extractedMarkup.buttons = r.extractedMarkup.buttons :=
  congrArg (fun t => t.2.2.1) (idTabPass_key ist doc r)

theorem idTabPass_rawB (ist : Store) (doc : Node) (r : AnalysisResult) :
    (idTabPass ist doc r).buttons = r.buttons :=
  congrArg (fun t => t.1) (idTabPass_key ist doc r)

theorem idModalPass_css (ist : Store) (doc : Node) (r : AnalysisResult) :
    (idModalPass ist doc r).cssVariables = r.cssVariables :=
  congrArg (fun t => t.2.1) (idModalPass_key ist doc r)

theorem idModalPass_emT (ist : Store) (doc : Node) (r : AnalysisResult) :
    (idModalPass ist doc r).extractedMarkup.tables = r.extractedMarkup.tables :=
  congrArg (fun t => t.2.2.2) (idModalPass_key ist doc r)

theorem idModalPass_emB (ist : Store) (doc : Node) (r : AnalysisResult) :
    (idModalPass ist doc r).extractedMarkup.buttons = r.extractedMarkup.buttons :=
  congrArg (fun t => t.2.2.1) (idModalPass_key ist doc r)

theorem idModalPass_rawB (ist : Store) (doc : Node) (r : AnalysisResult) :
    (idModalPass ist doc r).buttons = r.buttons :=
  congrArg (fun t => t.1) (idModalPass_key ist doc r)

theorem idAccordionPass_css (ist : Store) (doc : Node) (r : AnalysisResult) :
    (idAccordionPass ist doc r).cssVariables = r.cssVariables :=
  congrArg (fun t => t.2.1) (idAccordionPass_key ist doc r)

theorem idAccordionPass_emT (ist : Store) (doc : Node) (r : AnalysisResult) :
    (idAccordionPass ist doc r).extractedMarkup.tables = r.extractedMarkup.tables :=
  congrArg (fun t => t.2.2.2) (idAccordionPass_key ist doc r)

theorem idAccordionPass_emB (ist : Store) (doc : Node) (r : AnalysisResult) :
    (idAccordionPass ist doc r).extractedMarkup.buttons = r.extractedMarkup.buttons :=
  congrArg (fun t => t.2.2.1) (idAccordionPass_key ist doc r)

theorem idAccordionPass_rawB (ist : Store) (doc : Node) (r : AnalysisResult) :
    (idAccordionPass ist doc r).buttons = r.buttons :=
  congrArg (fun t => t.1) (idAccordionPass_key ist doc r)

theorem idPagingPass_css (ist : Store) (doc : Node) (r : AnalysisResult) :
    (idPagingPass ist doc r).cssVariables = r.cssVariables :=
  congrArg (fun t => t.2.1) (idPagingPass_key ist doc r)

theorem idPagingPass_emT (ist : Store) (doc : Node) (r : AnalysisResult) :
    (idPagingPass ist doc r).extractedMarkup.tables = r.extractedMarkup.tables :=
  congrArg (fun t => t.2.2.2) (idPagingPass_key ist doc r)

theorem idPagingPass_emB (ist : Store) (doc : Node) (r : AnalysisResult) :
    (idPagingPass ist doc r).extractedMarkup.buttons = r.extractedMarkup.buttons :=
  congrArg (fun t => t.2.2.1) (idPagingPass_key ist doc r)

theorem idPagingPass_rawB (ist : Store) (doc : Node) (r : AnalysisResult) :
    (idPagingPass ist doc r).buttons = r.buttons :=
  congrArg (fun t => t.1) (idPagingPass_key ist doc r)

theorem idFormPass_css (ist : Store) (doc : Node) (r : AnalysisResult) :
    (idFormPass ist doc r).cssVariables = r.cssVariables :=
  congrArg (fun t => t.2.1) (idFormPass_key ist doc r)

theorem idFormPass_emT (ist : Store) (doc : Node) (r : AnalysisResult) :
    (idFormPass ist doc r).extractedMarkup.tables = r.extractedMarkup.tables :=
  congrArg (fun t => t.2.2.2) (idFormPass_key ist doc r)

theorem idFormPass_emB (ist : Store) (doc : Node) (r : AnalysisResult) :
    (idFormPass ist doc r).extractedMarkup.buttons = r.extractedMarkup.buttons :=
  congrArg (fun t => t.2.2.1) (idFormPass_key ist doc r)

theorem idFormPass_rawB (ist : Store) (doc : Node) (r : AnalysisResult) :
    (idFormPass ist doc r).buttons = r.buttons :=
  congrArg (fun t => t.1) (idFormPass_key ist doc r)

theorem inputsPass_css (doc : Node) (r : AnalysisResult) :
    (inputsPass doc r).cssVariables = r.cssVariables :=
  congrArg (fun t => t.2.1) (inputsPass_key doc r)

theorem inputsPass_emT (doc : Node) (r : AnalysisResult) :
    (inputsPass doc r).extractedMarkup.tables = r.extractedMarkup.tables :=
  congrArg (fun t => t.2.2.2) (inputsPass_key doc r)

theorem inputsPass_emB (doc : Node) (r : AnalysisResult) :
    (inputsPass doc r).extractedMarkup.buttons = r.extractedMarkup.buttons :=
  congrArg (fun t => t.2.2.1) (inputsPass_key doc r)

theorem inputsPass_rawB (doc : Node) (r : AnalysisResult) :
    (inputsPass doc r).buttons = r.buttons :=
  congrArg (fun t => t.1) (inputsPass_key doc r)

theorem roleTablistPass_css (doc : Node) (r : AnalysisResult) :
    (roleTablistPass doc r).cssVariables = r.cssVariables :=
  congrArg (fun t => t.2.1) (roleTablistPass_key doc r)

theorem roleTablistPass_emT (doc : Node) (r : AnalysisResult) :
    (roleTablistPass doc r).extractedMarkup.tables = r.extractedMarkup.tables :=
  congrArg (fun t => t.2.2.2) (roleTablistPass_key doc r)

theorem roleTablistPass_emB (doc : Node) (r : AnalysisResult) :
    (roleTablistPass doc r).extractedMarkup.buttons = r.extractedMarkup.buttons :=
  congrArg (fun t => t.2.2.1) (roleTablistPass_key doc r)

theorem roleTablistPass_rawB (doc : Node) (r : AnalysisResult) :
    (roleTablistPass doc r).buttons = r.buttons :=
  congrArg (fun t => t.1) (roleTablistPass_key doc r)

theorem roleNavPass_css (doc : Node) (r : AnalysisResult) :
    (roleNavPass doc r).cssVariables = r.cssVariables :=
  congrArg (fun t => t.2.1) (roleNavPass_key doc r)

theorem roleNavPass_emT (doc : Node) (r : AnalysisResult) :
    (roleNavPass doc r).extractedMarkup.tables = r.extractedMarkup.tables :=
  congrArg (fun t => t.2.2.2) (roleNavPass_key doc r)

theorem roleNavPass_emB (doc : Node) (r : AnalysisResult) :
    (roleNavPass doc r).extractedMarkup.buttons = r.extractedMarkup.buttons :=
  congrArg (fun t => t.2.2.1) (roleNavPass_key doc r)

theorem roleNavPass_rawB (doc : Node) (r : AnalysisResult) :
    (roleNavPass doc r).buttons = r.buttons :=
  congrArg (fun t => t.1) (roleNavPass_key doc r)

theorem idsPass_css (doc : Node) (r : AnalysisResult) :
    (idsPass doc r).cssVariables = r.cssVariables :=
  congrArg (fun t => t.2.1) (idsPass_key doc r)

theorem idsPass_emT (doc : Node) (r : AnalysisResult) :
    (idsPass doc r).extractedMarkup.tables = r.extractedMarkup.tables :=
  congrArg (fun t => t.2.2.2) (idsPass_key doc r)

theorem idsPass_emB (doc : Node) (r : AnalysisResult) :
    (idsPass doc r).extractedMarkup.buttons = r.extractedMarkup.buttons :=
  congrArg (fun t => t.2.2.1) (idsPass_key doc r)

theorem idsPass_rawB (doc : Node) (r : AnalysisResult) :
    (idsPass doc r).buttons = r.buttons :=
  congrArg (fun t => t.1) (idsPass_key doc r)

theorem tagsPass_css (doc : Node) (r : AnalysisResult) :
    (tagsPass doc r).cssVariables = r.cssVariables :=
  congrArg (fun t => t.2.1) (tagsPass_key doc r)

theorem tagsPass_emT (doc : Node) (r : AnalysisResult) :
    (tagsPass doc r).extractedMarkup.tables = r.extractedMarkup.tables :=
  congrArg (fun t => t.2.2.2) (tagsPass_key doc r)

theorem tagsPass_emB (doc : Node) (r : AnalysisResult) :
    (tagsPass doc r).extractedMarkup.buttons = r.extractedMarkup.buttons :=
  congrArg (fun t => t.2.2.1) (tagsPass_key doc r)

theorem tagsPass_rawB (doc : Node) (r : AnalysisResult) :
    (tagsPass doc r).buttons = r.buttons :=
  congrArg (fun t => t.1) (tagsPass_key doc r)

theorem typographyPass_css (doc : Node) (r : AnalysisResult) :
    (typographyPass doc r).cssVariables = r.cssVariables :=
  congrArg (fun t => t.2.1) (typographyPass_key doc r)

theorem typographyPass_emT (doc : Node) (r : AnalysisResult) :
    (typographyPass doc r).extractedMarkup.tables = r.extractedMarkup.tables :=
  congrArg (fun t => t.2.2.2) (typographyPass_key doc r)

theorem typographyPass_emB (doc : Node) (r : AnalysisResult) :
    (typographyPass doc r).extractedMarkup.buttons = r.extractedMarkup.buttons :=
  congrArg (fun t => t.2.2.1) (typographyPass_key doc r)

theorem typographyPass_rawB (doc : Node) (r : AnalysisResult) :
    (typographyPass doc r).buttons = r.buttons :=
  congrArg (fun t => t.1) (typographyPass_key doc r)

theorem iconsPass_css (doc : Node) (r : AnalysisResult) :
    (iconsPass doc r).cssVariables = r.cssVariables :=
  congrArg (fun t => t.2.1) (iconsPass_key doc r)

theorem iconsPass_emT (doc : Node) (r : AnalysisResult) :
    (iconsPass doc r).extractedMarkup.tables = r.extractedMarkup.tables :=
  congrArg (fun t => t.2.2.2) (iconsPass_key doc r)

theorem iconsPass_emB (doc : Node) (r : AnalysisResult) :
    (iconsPass doc r).extractedMarkup.buttons = r.extractedMarkup.buttons :=
  congrArg (fun t => t.2.2.1) (iconsPass_key doc r)

theorem iconsPass_rawB (doc : Node) (r : AnalysisResult) :
    (iconsPass doc r).buttons = r.buttons :=
  congrArg (fun t => t.1) (iconsPass_key doc r)

theorem classesPass_css (doc : Node) (r : AnalysisResult) :
    (classesPass doc r).cssVariables = r.cssVariables :=
  congrArg (fun t => t.2.1) (classesPass_key doc r)

theorem classesPass_emT (doc : Node) (r : AnalysisResult) :
    (classesPass doc r).extractedMarkup.tables = r.extractedMarkup.tables :=
  congrArg (fun t => t.2.2.2) (classesPass_key doc r)

theorem classesPass_emB (doc : Node) (r : AnalysisResult) :
    (classesPass doc r).extractedMarkup.buttons = r.extractedMarkup.buttons :=
  congrArg (fun t => t.2.2.1) (classesPass_key doc r)

theorem classesPass_rawB (doc : Node) (r : AnalysisResult) :
    (classesPass doc r).buttons = r.buttons :=
  congrArg (fun t => t.1) (classesPass_key doc r)

theorem faviconsPass_css (doc : Node) (r : AnalysisResult) :
    (faviconsPass doc r).cssVariables = r.cssVariables :=
  congrArg (fun t => t.2.1) (faviconsPass_key doc r)

theorem faviconsPass_emT (doc : Node) (r : AnalysisResult) :
    (faviconsPass doc r).extractedMarkup.tables = r.extractedMarkup.tables :=
  congrArg (fun t => t.2.2.2) (faviconsPass_key doc r)

theorem faviconsPass_emB (doc : Node) (r : AnalysisResult) :
    (faviconsPass doc r).extractedMarkup.buttons = r.extractedMarkup.buttons :=
  congrArg (fun t => t.2.2.1) (faviconsPass_key doc r)

theorem faviconsPass_rawB (doc : Node) (r : AnalysisResult) :
    (faviconsPass doc r).buttons = r.buttons :=
  congrArg (fun t => t.1) (faviconsPass_key doc r)

theorem ogPass_css (doc : Node) (r : AnalysisResult) :
    (ogPass doc r).cssVariables = r.cssVariables :=
  congrArg (fun t => t.2.1) (ogPass_key doc r)

theorem ogPass_emT (doc : Node) (r : AnalysisResult) :
    (ogPass doc r).extractedMarkup.tables = r.extractedMarkup.tables :=
  congrArg (fun t => t.2.2.2) (ogPass_key doc r)

theorem ogPass_emB (doc : Node) (r : AnalysisResult) :
    (ogPass doc r).extractedMarkup.buttons = r.extractedMarkup.buttons :=
  congrArg (fun t => t.2.2.1) (ogPass_key doc r)

theorem ogPass_rawB (doc : Node) (r : AnalysisResult) :
    (ogPass doc r).buttons = r.buttons :=
  congrArg (fun t => t.1) (ogPass_key doc r)

theorem buttonsPass_css (ist : Store) (doc : Node) (r : AnalysisResult) :
    (buttonsPass ist doc r).cssVariables = r.cssVariables :=
  congrArg (fun t => t.1) (buttonsPass_keyCT ist doc r)

theorem buttonsPass_emT (ist : Store) (doc : Node) (r : AnalysisResult) :
    (buttonsPass ist doc r).extractedMarkup.tables = r.extractedMarkup.tables :=
  congrArg (fun t => t.2) (buttonsPass_keyCT ist doc r)

theorem roleButtonPass_css (ist : Store) (doc : Node) (r : AnalysisResult) :
    (roleButtonPass ist doc r).cssVariables = r.cssVariables :=
  congrArg (fun t => t.2.1) (roleButtonPass_keyBCT ist doc r)

theorem roleButtonPass_emT (ist : Store) (doc : Node) (r : AnalysisResult) :
    (roleButtonPass ist doc r).extractedMarkup.tables = r.extractedMarkup.tables :=
  congrArg (fun t => t.2.2) (roleButtonPass_keyBCT ist doc r)

theorem roleButtonPass_rawB (ist : Store) (doc : Node) (r : AnalysisResult) :
    (roleButtonPass ist doc r).buttons = r.buttons :=
  congrArg (fun t => t.1) (roleButtonPass_keyBCT ist doc r)

theorem tablesPass_css (ist : Store) (doc : Node) (r : AnalysisResult) :
    (tablesPass ist doc r).cssVariables = r.cssVariables :=
  congrArg (fun t => t.2.1) (tablesPass_keyBCB ist doc r)

theorem tablesPass_emB (ist : Store) (doc : Node) (r : AnalysisResult) :
    (tablesPass ist doc r).extractedMarkup.buttons = r.extractedMarkup.buttons :=
  congrArg (fun t => t.2.2) (tablesPass_keyBCB ist doc r)

theorem tablesPass_rawB (ist : Store) (doc : Node) (r : AnalysisResult) :
    (tablesPass ist doc r).buttons = r.buttons :=
  congrArg (fun t => t.1) (tablesPass_keyBCB ist doc r)

theorem roleTablePass_css (ist : Store) (doc : Node) (r : AnalysisResult) :
    (roleTablePass ist doc r).cssVariables = r.cssVariables :=
  congrArg (fun t => t.2.1) (roleTablePass_keyBCB ist doc r)

theorem roleTablePass_emB (ist : Store) (doc : Node) (r : AnalysisResult) :
    (roleTablePass ist doc r).extractedMarkup.buttons = r.extractedMarkup.buttons :=
  congrArg (fun t => t.2.2) (roleTablePass_keyBCB ist doc r)

theorem roleTablePass_rawB (ist : Store) (doc : Node) (r : AnalysisResult) :
    (roleTablePass ist doc r).buttons = r.buttons :=
  congrArg (fun t => t.1) (roleTablePass_keyBCB ist doc r)

theorem analyzeCss_emT (content : String) (r : AnalysisResult) :
    (analyzeCss content r).extractedMarkup.tables = r.extractedMarkup.tables :=
  congrArg (fun t => t.2.tables) (analyzeCss_keyBEm content r)

theorem analyzeCss_emB (content : String) (r : AnalysisResult) :
    (analyzeCss content r).extractedMarkup.buttons = r.extractedMarkup.buttons :=
  congrArg (fun t => t.2.buttons) (analyzeCss_keyBEm content r)

theorem analyzeCss_em (content : String) (r : AnalysisResult) :
    (analyzeCss content r).extractedMarkup = r.extractedMarkup :=
  congrArg (fun t => t.2) (analyzeCss_keyBEm content r)

theorem analyzeCss_rawB (content : String) (r : AnalysisResult) :
    (analyzeCss content r).buttons = r.buttons :=
  congrArg (fun t => t.1) (analyzeCss_keyBEm content r)

/-- `extractComponents` never touches the CSS-variable list. -/
theorem extractComponents_css (ist : Store) (doc : Node) (r : AnalysisResult) :
    (extractComponents ist doc r).cssVariables = r.cssVariables := by
  unfold extractComponents
  simp only [formsPass_css, boxesPass_css, helperBoxesPass_css, listsPass_css, stepListsPass_css, breadcrumbsPass_css, menusPass_css, leftMenusPass_css, tabsPass_css, paginationsPass_css, modalsPass_css, badgesPass_css, accordionsPass_css, roleListPass_css, roleDialogPass_css, idTabPass_css, idModalPass_css, idAccordionPass_css, idPagingPass_css, idFormPass_css, inputsPass_css, roleTablistPass_css, roleNavPass_css, idsPass_css, tagsPass_css, typographyPass_css, iconsPass_css, classesPass_css, faviconsPass_css, ogPass_css, buttonsPass_css, roleButtonPass_css, tablesPass_css, roleTablePass_css]

/-- `analyzeDoc` never touches the CSS-variable list. -/
theorem analyzeDoc_css (ist : Store) (doc : Node) (r : AnalysisResult) :
    (analyzeDoc ist doc r).cssVariables = r.cssVariables := by
  unfold analyzeDoc
  simp only [extractComponents_css, ogPass_css, faviconsPass_css, tagsPass_css,
    idsPass_css, classesPass_css]

/-! ### C1: dedup invariant of the extracted-markup lists -/

set_option maxRecDepth 4000 in
/-- C1 (failing run): feeding two documents that each contain a
`<div id="modal1">` produces **two** `extractedMarkup.modals` entries with
the same selector key `#modal1`: the id-based pass stores the key
`"#" ++ id` but dedup-checks the bare `id` against the stored keys, so the
check never fires and the uniqueness invariant is violated. -/
theorem modal_id_dedup_bug :
    ((analyzeFiles [] [.htmlF "a.html" modalIdDoc,
        .htmlF "b.html" modalIdDoc]).extractedMarkup.modals.map
      (fun m => m.classes)) = ["#modal1", "#modal1"] ∧
    ¬ ((analyzeFiles [] [.htmlF "a.html" modalIdDoc,
        .htmlF "b.html" modalIdDoc]).extractedMarkup.modals.map
      (fun m => m.classes)).Nodup := by
  constructor
  · decide
  · decide

/-! ### C2: table wrapper promotion order -/

set_option maxRecDepth 4000 in
/-- C2 (counterexample): for a `<table>` whose parent **and** grandparent
are both wrapper-looking `div`s, the captured markup is the *grandparent's*
full markup, not the parent's — the code checks the grandparent first, so
the claimed "parent first, first match wins" order is wrong. -/
theorem table_promotion_parent_first_cex :
    ((analyzeFiles [] [.htmlF "t.html" (tableDocA "tb" "x")]).extractedMarkup.tables.map
      (fun m => m.html)) = [cleanMarkup [] (serialize (tableDocA "tb" "x"))] ∧
    cleanMarkup [] (serialize (tableDocA "tb" "x")) ≠
      cleanMarkup [] (serialize (tableParentA "tb" "x")) := by
  constructor
  · decide
  · decide

/-! ### C6: carousel exclusion -/

set_option maxRecDepth 4000 in
/-- C6 (counterexample): an element matched via `role="button"` that is
nested inside a `swiper-*` container but carries a clean class **does**
appear in the buttons extraction — the role pass checks only the element's
own class, so the ancestor-based exclusion claimed for role-matched
buttons does not hold. -/
theorem carousel_role_button_cex :
    ((analyzeFiles [] [.htmlF "s.html" carouselRoleBtnDoc]).extractedMarkup.buttons.map
      (fun m => m.classes)) = ["next-link"] := by
  decide

/-! ### C8: sanitizer idempotence -/

set_option maxRecDepth 4000 in
/-- C8 (counterexample): `cleanMarkup` is *not* idempotent even with an
empty image store: removing a `<script>` block can splice together a new
`<script>` block that only a second application removes. -/
theorem cleanMarkup_not_idempotent :
    cleanMarkup [] "<scr<script>a</script>ipt>b</script>" = "<script>b</script>" ∧
    cleanMarkup [] (cleanMarkup [] "<scr<script>a</script>ipt>b</script>") = "" ∧
    cleanMarkup [] (cleanMarkup [] "<scr<script>a</script>ipt>b</script>") ≠
      cleanMarkup [] "<scr<script>a</script>ipt>b</script>" := by
  refine ⟨by decide, by decide, by decide⟩

/-! ### C9: image-path resolver ambiguity -/

/-- C9 (counterexample): after registering two assets that share the
filename `icon.png`, resolving `icon.png` returns the inline data of the
**second** (most recent) registration, not the first as claimed: the
shared filename key is overwritten by the later `storeImage`. -/
theorem image_resolver_first_match_cex :
    findImageInStore "icon.png"
        (storeImage "b/icon.png" "data2" (storeImage "a/icon.png" "data1" [])) =
      some "data2" ∧
    findImageInStore "icon.png"
        (storeImage "b/icon.png" "data2" (storeImage "a/icon.png" "data1" [])) ≠
      some "data1" := by
  refine ⟨by decide, by decide⟩

theorem find_map_self (k v : String) :
    ∀ (st : Store), (st.any fun p => p.1 == k) = true →
      List.find? (fun p => p.1 == k)
        (st.map fun p => if p.1 == k then (k, v) else p) = some (k, v) := by
  intro st
  induction st with
  | nil => intro h; simp at h
  | cons a as ih =>
    intro h
    by_cases hak : (a.1 == k) = true
    · simp [List.find?, hak]
    · simp only [List.any_cons, Bool.or_eq_true] at h
      rcases h with h | h
      · exact absurd h hak
      · have hfalse : (a.1 == k) = false := by simpa using hak
        simp only [List.map_cons, List.find?, hfalse, Bool.false_eq_true, if_false]
        exact ih h

theorem find_none_of_any_false (k : String) :
    ∀ (st : Store), (st.any fun p => p.1 == k) = false →
      List.find? (fun p => p.1 == k) st = none := by
  intro st
  induction st with
  | nil => intro _; rfl
  | cons a as ih =>
    intro h
    simp only [List.any_cons, Bool.or_eq_false_iff] at h
    simp only [List.find?, h.1]
    exact ih h.2

theorem getKey_setKey_eq (k v : String) (st : Store) :
    getKey k (setKey k v st) = some v := by
  unfold setKey
  by_cases h : (st.any fun p => p.1 == k) = true
  · rw [if_pos h]
    unfold getKey
    rw [find_map_self k v st h]
    rfl
  · rw [if_neg h]
    unfold getKey
    rw [List.find?_append]
    have h' : (st.any fun p => p.1 == k) = false := Bool.eq_false_iff.mpr h
    have hn := find_none_of_any_false k st h'
    simp [hn, List.find?]

theorem find_map_setVal (k a v : String) (st : Store) (hka : k ≠ a) :
    List.find? (fun p => p.1 == k)
        (st.map fun p => if p.1 == a then (a, v) else p) =
      List.find? (fun p => p.1 == k) st := by
  induction st with
  | nil => rfl
  | cons x xs ih =>
    by_cases hxa : (x.1 == a) = true
    · have hx1 : x.1 = a := by simpa using hxa
      have h1 : (a == k) = false :=
        beq_eq_false_iff_ne.mpr fun hh => hka hh.symm
      have h2 : (x.1 == k) = false := by rw [hx1]; exact h1
      simp only [List.map_cons, if_pos hxa, List.find?, h1, h2]
      exact ih
    · simp only [List.map_cons, if_neg hxa, List.find?]
      cases hxk : (x.1 == k) with
      | true => rfl
      | false => exact ih

theorem getKey_setKey_ne (k a v : String) (st : Store) (h : k ≠ a) :
    getKey k (setKey a v st) = getKey k st := by
  unfold setKey getKey
  split
  · rw [find_map_setVal k a v st h]
  · rw [List.find?_append]
    have hav : ((a, v).1 == k) = false :=
      beq_eq_false_iff_ne.mpr fun hh => h hh.symm
    have hone : List.find? (fun p => p.1 == k) [(a, v)] = none := by
      simp [List.find?, hav]
    rw [hone]
    cases List.find? (fun p => p.1 == k) st <;> rfl

theorem getKey_setKeys (k v : String) :
    ∀ (ks : List String) (st : Store),
      getKey k (setKeys ks v st) =
        if k ∈ ks then some v else getKey k st := by
  intro ks
  induction ks with
  | nil => intro st; simp [setKeys]
  | cons a as ih =>
    intro st
    show getKey k (setKeys as v (setKey a v st)) = _
    rw [ih]
    by_cases has : k ∈ as
    · simp [has]
    · by_cases hka : k = a
      · subst hka
        simp [has, getKey_setKey_eq]
      · simp [has, hka, getKey_setKey_ne k a v st hka]

theorem findImageInStore_truthy {path d : String} {st : Store}
    (h : truthyKey path st = some d) : findImageInStore path st = some d := by
  unfold findImageInStore
  rw [h]

set_option maxRecDepth 4000 in
set_option maxHeartbeats 2000000 in
/-- C9 (amended): each truthiness-guarded lookup returns the value
*currently* stored under its key, and registration overwrites shared keys,
so a lookup answered by a shared filename key returns the **last**
matching asset's data no matter what was registered before; a lookup that
only the containment scan resolves returns the value under the
earliest-inserted matching key — here the *earlier* asset's data `d1`; an
unmatched path on an empty store resolves to `none`; no conflict is ever
signalled. -/
theorem image_resolver_lookup_semantics (d2 : String) (st : Store)
    (h2 : d2.isEmpty = false) :
    findImageInStore "icon.png" (storeImage "b/icon.png" d2 st) = some d2 ∧
    findImageInStore "con.png"
      (storeImage "b/icon.png" "data2" (storeImage "a/icon.png" "data1" [])) =
        some "data1" ∧
    ∀ q, findImageInStore q [] = none := by
  refine ⟨?_, ?_, ?_⟩
  · have hkey : getKey "icon.png" (storeImage "b/icon.png" d2 st) = some d2 := by
      unfold storeImage
      dsimp only
      rw [show slashes "b/icon.png" = "b/icon.png" from by decide]
      rw [show splitS '/' "b/icon.png" = ["b", "icon.png"] from by decide]
      rw [show (["b", "icon.png"] : List String).getLastD "" = "icon.png" from by decide]
      rw [show List.range (["b", "icon.png"] : List String).length = [0, 1] from by decide]
      simp only [List.foldl]
      rw [show String.intercalate "/" ((["b", "icon.png"] : List String).drop 0) =
        "b/icon.png" from by decide]
      rw [show String.intercalate "/" ((["b", "icon.png"] : List String).drop 1) =
        "icon.png" from by decide]
      rw [getKey_setKeys]
      simp
    refine findImageInStore_truthy ?_
    unfold truthyKey
    rw [hkey]
    show (if d2.isEmpty = true then none else some d2) = some d2
    rw [if_neg (by simp [h2])]
  · decide
  · intro q
    rfl

set_option maxRecDepth 4000 in
theorem image_resolver_lookup_semantics_witness :
    ("data2" : String).isEmpty = false ∧
    (findImageInStore "icon.png" (storeImage "b/icon.png" "data2" []) =
        some "data2" ∧
      findImageInStore "con.png"
        (storeImage "b/icon.png" "data2" (storeImage "a/icon.png" "data1" [])) =
          some "data1" ∧
      ∀ q, findImageInStore q [] = none) :=
  ⟨by decide, image_resolver_lookup_semantics "data2" [] (by decide)⟩


/-! ### Small computation lemmas for walking `analyzeFiles` -/

theorem analyzeFiles_single_html (ist : Store) (nm : String) (doc : Node) :
    analyzeFiles ist [.htmlF nm doc] =
      categorizeComponents
        (let r := analyzeDoc ist doc { htmlFiles := 1 }
         { r with typographyInfo := sortBy tiGt r.typographyInfo,
                  extractedMarkup := sortMarkup r.extractedMarkup }) := rfl

theorem categorize_em (r : AnalysisResult) :
    (categorizeComponents r).extractedMarkup = r.extractedMarkup := rfl

theorem categorize_rawB (r : AnalysisResult) :
    (categorizeComponents r).buttons = r.buttons := rfl

theorem categorize_css (r : AnalysisResult) :
    (categorizeComponents r).cssVariables = r.cssVariables := rfl

theorem sortMarkup_buttons (m : ExtractedMarkup) :
    (sortMarkup m).buttons = sortBy cmGt m.buttons := rfl

theorem sortMarkup_tables (m : ExtractedMarkup) :
    (sortMarkup m).tables = sortBy cmGt m.tables := rfl

/-- The buttons pass skips the carousel-nested button entirely, whatever
its own class is: the ancestor walk finds the `swiper-container` class. -/
theorem carBtn_buttonsPass (bcls txt : String) (r : AnalysisResult) :
    buttonsPass [] (carouselBtnDoc bcls txt) r = r := by
  have hsl : isSliderRelated
      ⟨[0, 0],
       [.elem "div" [("class", "item")] [.elem "button" [("class", bcls)] [.text txt]],
        carouselBtnDoc bcls txt],
       .elem "button" [("class", bcls)] [.text txt]⟩ = true := by
    unfold isSliderRelated
    simp only [Bool.or_eq_true]
    exact Or.inr rfl
  unfold buttonsPass
  rw [show queryAll (carouselBtnDoc bcls txt) btnSel =
      [⟨[0, 0],
        [.elem "div" [("class", "item")] [.elem "button" [("class", bcls)] [.text txt]],
         carouselBtnDoc bcls txt],
        .elem "button" [("class", bcls)] [.text txt]⟩] from rfl]
  simp only [List.foldl]
  simp [hsl]

set_option maxRecDepth 4000 in
/-- C6 (amended): a `<button>` nested at any ancestor depth inside a
carousel container is excluded from the buttons extraction (both from
`extractedMarkup.buttons` and from the raw observation list) whatever its
own class is; a `role="button"` element is excluded exactly when its
**own** class is carousel-related. -/
theorem carousel_button_exclusion (bcls txt : String) :
    (analyzeFiles [] [.htmlF "p.html" (carouselBtnDoc bcls txt)]).extractedMarkup.buttons = [] ∧
    (analyzeFiles [] [.htmlF "p.html" (carouselBtnDoc bcls txt)]).buttons = [] ∧
    (analyzeFiles [] [.htmlF "s.html" swiperOwnRoleDoc]).extractedMarkup.buttons = [] ∧
    (analyzeFiles [] [.htmlF "s.html" swiperOwnRoleDoc]).buttons = [] := by
  have hrb : ∀ r : AnalysisResult,
      roleButtonPass [] (carouselBtnDoc bcls txt) r = r := fun _ => rfl
  refine ⟨?_, ?_, rfl, rfl⟩
  · rw [analyzeFiles_single_html]
    simp only [categorize_em]
    show (sortMarkup _).buttons = []
    rw [sortMarkup_buttons]
    have hemB : (analyzeDoc [] (carouselBtnDoc bcls txt)
        { htmlFiles := 1 }).extractedMarkup.buttons = [] := by
      unfold analyzeDoc extractComponents
      simp only [idFormPass_emB, idPagingPass_emB, idAccordionPass_emB,
        idModalPass_emB, idTabPass_emB, roleTablePass_emB, roleNavPass_emB,
        hrb, roleDialogPass_emB, roleTablistPass_emB, roleListPass_emB,
        iconsPass_emB, typographyPass_emB, accordionsPass_emB, badgesPass_emB,
        modalsPass_emB, paginationsPass_emB, tabsPass_emB, leftMenusPass_emB,
        menusPass_emB, breadcrumbsPass_emB, stepListsPass_emB, listsPass_emB,
        helperBoxesPass_emB, boxesPass_emB, tablesPass_emB, inputsPass_emB,
        formsPass_emB, carBtn_buttonsPass, ogPass_emB, faviconsPass_emB,
        tagsPass_emB, idsPass_emB, classesPass_emB]
    rw [hemB]
    rfl
  · rw [analyzeFiles_single_html]
    simp only [categorize_rawB]
    show (analyzeDoc [] (carouselBtnDoc bcls txt) { htmlFiles := 1 }).buttons = []
    unfold analyzeDoc extractComponents
    simp only [idFormPass_rawB, idPagingPass_rawB, idAccordionPass_rawB,
      idModalPass_rawB, idTabPass_rawB, roleTablePass_rawB, roleNavPass_rawB,
      hrb, roleDialogPass_rawB, roleTablistPass_rawB, roleListPass_rawB,
      iconsPass_rawB, typographyPass_rawB, accordionsPass_rawB, badgesPass_rawB,
      modalsPass_rawB, paginationsPass_rawB, tabsPass_rawB, leftMenusPass_rawB,
      menusPass_rawB, breadcrumbsPass_rawB, stepListsPass_rawB, listsPass_rawB,
      helperBoxesPass_rawB, boxesPass_rawB, tablesPass_rawB, inputsPass_rawB,
      formsPass_rawB, carBtn_buttonsPass, ogPass_rawB, faviconsPass_rawB,
      tagsPass_rawB, idsPass_rawB, classesPass_rawB]


/-- On the doubly-wrapped table page the tables pass captures the
grandparent wrapper, not the immediate parent. -/
theorem tablesPass_docA (tcls txt : String) (r : AnalysisResult)
    (hlen : (cleanMarkup [] (serialize (tableDocA tcls txt))).length < 5000)
    (hem : r.extractedMarkup.tables = []) :
    (tablesPass [] (tableDocA tcls txt) r).extractedMarkup.tables =
      [{ classes := "table-wrap outer",
         html := cleanMarkup [] (serialize (tableDocA tcls txt)), count := some 1 }] := by
  unfold tablesPass
  rw [show queryAll (tableDocA tcls txt) (tagIs "table") =
      [⟨[0, 0],
        [.elem "div" [("class", "table-wrap inner")]
           [.elem "table" [("class", tcls)] [.text txt]],
         tableDocA tcls txt],
        .elem "table" [("class", tcls)] [.text txt]⟩] from rfl]
  dsimp only [List.foldl]
  rw [show promoteTarget
      ⟨[0, 0],
       [.elem "div" [("class", "table-wrap inner")]
          [.elem "table" [("class", tcls)] [.text txt]],
        tableDocA tcls txt],
       .elem "table" [("class", tcls)] [.text txt]⟩ isTableWrapper
      = (tableDocA tcls txt, ([] : List Nat)) from rfl]
  dsimp only
  rw [show className (tableDocA tcls txt) = "table-wrap outer" from rfl]
  rw [if_pos hlen, hem]
  simp only [hasKey, List.any, Bool.false_eq_true, if_false, ite_false]
  rfl

/-- On the singly-wrapped table page the tables pass captures the parent
wrapper. -/
theorem tablesPass_docB (tcls txt : String) (r : AnalysisResult)
    (hlen : (cleanMarkup [] (serialize (tableParentB tcls txt))).length < 5000)
    (hem : r.extractedMarkup.tables = []) :
    (tablesPass [] (tableDocB tcls txt) r).extractedMarkup.tables =
      [{ classes := "table-wrap only",
         html := cleanMarkup [] (serialize (tableParentB tcls txt)), count := some 1 }] := by
  unfold tablesPass
  rw [show queryAll (tableDocB tcls txt) (tagIs "table") =
      [⟨[0, 0],
        [tableParentB tcls txt, tableDocB tcls txt],
        .elem "table" [("class", tcls)] [.text txt]⟩] from rfl]
  dsimp only [List.foldl]
  rw [show promoteTarget
      ⟨[0, 0],
       [tableParentB tcls txt, tableDocB tcls txt],
       .elem "table" [("class", tcls)] [.text txt]⟩ isTableWrapper
      = (tableParentB tcls txt, ([0] : List Nat)) from rfl]
  dsimp only
  rw [show className (tableParentB tcls txt) = "table-wrap only" from rfl]
  rw [if_pos hlen, hem]
  simp only [hasKey, List.any, Bool.false_eq_true, if_false, ite_false]
  rfl


/-- C2 (amended): wrapper promotion for tables checks the grandparent
first, then the parent, first match winning.  When parent and grandparent
are both wrapper-looking `div`s the captured markup and selector key come
from the grandparent; when only the immediate parent is a wrapper, from the
parent. -/
theorem table_wrapper_promotion (tcls txt : String)
    (hA : (cleanMarkup [] (serialize (tableDocA tcls txt))).length < 5000)
    (hB : (cleanMarkup [] (serialize (tableParentB tcls txt))).length < 5000) :
    (analyzeFiles [] [.htmlF "a.html" (tableDocA tcls txt)]).extractedMarkup.tables =
      [{ classes := "table-wrap outer",
         html := cleanMarkup [] (serialize (tableDocA tcls txt)), count := some 1 }] ∧
    (analyzeFiles [] [.htmlF "b.html" (tableDocB tcls txt)]).extractedMarkup.tables =
      [{ classes := "table-wrap only",
         html := cleanMarkup [] (serialize (tableParentB tcls txt)), count := some 1 }] := by
  constructor
  · have hrtA : ∀ r : AnalysisResult, roleTablePass [] (tableDocA tcls txt) r = r :=
      fun _ => rfl
    rw [analyzeFiles_single_html]
    simp only [categorize_em]
    show (sortMarkup _).tables = _
    rw [sortMarkup_tables]
    have h1 : (analyzeDoc [] (tableDocA tcls txt)
        { htmlFiles := 1 }).extractedMarkup.tables =
        [{ classes := "table-wrap outer",
           html := cleanMarkup [] (serialize (tableDocA tcls txt)), count := some 1 }] := by
      unfold analyzeDoc extractComponents
      simp only [idFormPass_emT, idPagingPass_emT, idAccordionPass_emT, idModalPass_emT,
        idTabPass_emT, hrtA, roleNavPass_emT, roleButtonPass_emT, roleDialogPass_emT,
        roleTablistPass_emT, roleListPass_emT, iconsPass_emT, typographyPass_emT,
        accordionsPass_emT, badgesPass_emT, modalsPass_emT, paginationsPass_emT,
        tabsPass_emT, leftMenusPass_emT, menusPass_emT, breadcrumbsPass_emT,
        stepListsPass_emT, listsPass_emT, helperBoxesPass_emT, boxesPass_emT]
      refine tablesPass_docA tcls txt _ hA ?_
      simp only [inputsPass_emT, formsPass_emT, buttonsPass_emT, ogPass_emT,
        faviconsPass_emT, tagsPass_emT, idsPass_emT, classesPass_emT]
    rw [h1]
    rfl
  · have hrtB : ∀ r : AnalysisResult, roleTablePass [] (tableDocB tcls txt) r = r :=
      fun _ => rfl
    rw [analyzeFiles_single_html]
    simp only [categorize_em]
    show (sortMarkup _).tables = _
    rw [sortMarkup_tables]
    have h1 : (analyzeDoc [] (tableDocB tcls txt)
        { htmlFiles := 1 }).extractedMarkup.tables =
        [{ classes := "table-wrap only",
           html := cleanMarkup [] (serialize (tableParentB tcls txt)), count := some 1 }] := by
      unfold analyzeDoc extractComponents
      simp only [idFormPass_emT, idPagingPass_emT, idAccordionPass_emT, idModalPass_emT,
        idTabPass_emT, hrtB, roleNavPass_emT, roleButtonPass_emT, roleDialogPass_emT,
        roleTablistPass_emT, roleListPass_emT, iconsPass_emT, typographyPass_emT,
        accordionsPass_emT, badgesPass_emT, modalsPass_emT, paginationsPass_emT,
        tabsPass_emT, leftMenusPass_emT, menusPass_emT, breadcrumbsPass_emT,
        stepListsPass_emT, listsPass_emT, helperBoxesPass_emT, boxesPass_emT]
      refine tablesPass_docB tcls txt _ hB ?_
      simp only [inputsPass_emT, formsPass_emT, buttonsPass_emT, ogPass_emT,
        faviconsPass_emT, tagsPass_emT, idsPass_emT, classesPass_emT]
    rw [h1]
    rfl

set_option maxRecDepth 4000 in
theorem table_wrapper_promotion_witness :
    (analyzeFiles [] [.htmlF "a.html" (tableDocA "data" "cell")]).extractedMarkup.tables =
      [{ classes := "table-wrap outer",
         html := cleanMarkup [] (serialize (tableDocA "data" "cell")), count := some 1 }] ∧
    (analyzeFiles [] [.htmlF "b.html" (tableDocB "data" "cell")]).extractedMarkup.tables =
      [{ classes := "table-wrap only",
         html := cleanMarkup [] (serialize (tableParentB "data" "cell")), count := some 1 }] :=
  table_wrapper_promotion "data" "cell" (by decide) (by decide)


/-! ### C7: cross-document count accumulation -/

theorem buttonsPass_btnDoc_base (i : Nat) (r : AnalysisResult)
    (hem : r.extractedMarkup.buttons = []) :
    (buttonsPass [] (btnDoc i) r).extractedMarkup.buttons =
      [{ classes := "btn-primary", html := btnHtml i,
         text := some (btnTxt i), count := some 1 }] := by
  show pushOrBump "btn-primary"
      (cleanMarkup [] (serialize
        (Node.elem "button" [("class", "btn-primary")] [Node.text ("Go" ++ toString i)])))
      (some (takeS 30 (trimS (textContent
        (Node.elem "button" [("class", "btn-primary")] [Node.text ("Go" ++ toString i)])))))
      r.extractedMarkup.buttons = _
  rw [hem]
  rfl

theorem buttonsPass_btnDoc_bump (i c : Nat) (r : AnalysisResult)
    (hem : r.extractedMarkup.buttons = [Ebtn c]) :
    (buttonsPass [] (btnDoc i) r).extractedMarkup.buttons = [Ebtn (c + 1)] := by
  show pushOrBump "btn-primary"
      (cleanMarkup [] (serialize
        (Node.elem "button" [("class", "btn-primary")] [Node.text ("Go" ++ toString i)])))
      (some (takeS 30 (trimS (textContent
        (Node.elem "button" [("class", "btn-primary")] [Node.text ("Go" ++ toString i)])))))
      r.extractedMarkup.buttons = _
  rw [hem]
  rfl

theorem analyzeDoc_btnDoc_base (i : Nat) (r : AnalysisResult)
    (hem : r.extractedMarkup.buttons = []) :
    (analyzeDoc [] (btnDoc i) r).extractedMarkup.buttons =
      [{ classes := "btn-primary", html := btnHtml i,
         text := some (btnTxt i), count := some 1 }] := by
  have hrb : ∀ r : AnalysisResult, roleButtonPass [] (btnDoc i) r = r := fun _ => rfl
  unfold analyzeDoc extractComponents
  simp only [idFormPass_emB, idPagingPass_emB, idAccordionPass_emB,
    idModalPass_emB, idTabPass_emB, roleTablePass_emB, roleNavPass_emB,
    hrb, roleDialogPass_emB, roleTablistPass_emB, roleListPass_emB,
    iconsPass_emB, typographyPass_emB, accordionsPass_emB, badgesPass_emB,
    modalsPass_emB, paginationsPass_emB, tabsPass_emB, leftMenusPass_emB,
    menusPass_emB, breadcrumbsPass_emB, stepListsPass_emB, listsPass_emB,
    helperBoxesPass_emB, boxesPass_emB, tablesPass_emB, inputsPass_emB,
    formsPass_emB]
  refine buttonsPass_btnDoc_base i _ ?_
  simp only [ogPass_emB, faviconsPass_emB, tagsPass_emB, idsPass_emB,
    classesPass_emB, hem]

theorem analyzeDoc_btnDoc_bump (i c : Nat) (r : AnalysisResult)
    (hem : r.extractedMarkup.buttons = [Ebtn c]) :
    (analyzeDoc [] (btnDoc i) r).extractedMarkup.buttons = [Ebtn (c + 1)] := by
  have hrb : ∀ r : AnalysisResult, roleButtonPass [] (btnDoc i) r = r := fun _ => rfl
  unfold analyzeDoc extractComponents
  simp only [idFormPass_emB, idPagingPass_emB, idAccordionPass_emB,
    idModalPass_emB, idTabPass_emB, roleTablePass_emB, roleNavPass_emB,
    hrb, roleDialogPass_emB, roleTablistPass_emB, roleListPass_emB,
    iconsPass_emB, typographyPass_emB, accordionsPass_emB, badgesPass_emB,
    modalsPass_emB, paginationsPass_emB, tabsPass_emB, leftMenusPass_emB,
    menusPass_emB, breadcrumbsPass_emB, stepListsPass_emB, listsPass_emB,
    helperBoxesPass_emB, boxesPass_emB, tablesPass_emB, inputsPass_emB,
    formsPass_emB]
  refine buttonsPass_btnDoc_bump i c _ ?_
  simp only [ogPass_emB, faviconsPass_emB, tagsPass_emB, idsPass_emB,
    classesPass_emB, hem]

theorem btnFold_bump (l : List Nat) (r : AnalysisResult) (c : Nat)
    (hem : r.extractedMarkup.buttons = [Ebtn c]) :
    (((l.map btnFileOf).foldl
      (fun r f => match f with
        | .htmlF _ doc => analyzeDoc [] doc r
        | _ => r) r)).extractedMarkup.buttons = [Ebtn (c + l.length)] := by
  induction l generalizing r c with
  | nil => simpa using hem
  | cons a t ih =>
    simp only [List.map_cons, List.foldl_cons, List.length_cons]
    have h1 := analyzeDoc_btnDoc_bump a c r hem
    have h2 := ih (analyzeDoc [] (btnDoc a) r) (c + 1) h1
    dsimp only [btnFileOf]
    rw [h2]
    have : c + 1 + t.length = c + (t.length + 1) := by omega
    rw [this]

theorem btnFiles_filter_html (n : Nat) :
    (btnFiles n).filter isHtmlF = (List.range n).map btnFileOf := by
  have h : ∀ l : List Nat,
      (l.map btnFileOf).filter isHtmlF = l.map btnFileOf := by
    intro l
    induction l with
    | nil => rfl
    | cons a t ih =>
      simp only [List.map_cons,
        List.filter_cons_of_pos (show isHtmlF (btnFileOf a) = true from rfl), ih]
  exact h (List.range n)

theorem btnFiles_filter_css (n : Nat) :
    (btnFiles n).filter isCssF = [] := by
  have h : ∀ l : List Nat, (l.map btnFileOf).filter isCssF = [] := by
    intro l
    induction l with
    | nil => rfl
    | cons a t ih =>
      simp only [List.map_cons,
        List.filter_cons_of_neg
          (show ¬ isCssF (btnFileOf a) = true from by
            simp [show isCssF (btnFileOf a) = false from rfl]), ih]
  exact h (List.range n)


/-- C7: the per-key count accumulates across documents: analyzing `N`
one-button pages that share the `btn-primary` key yields a single buttons
entry whose markup and text sample come from the first page and whose count
is `N`. -/
theorem button_count_accumulates (N : Nat) (hN : 1 ≤ N) :
    (analyzeFiles [] (btnFiles N)).extractedMarkup.buttons =
      [{ classes := "btn-primary", html := btnHtml 0,
         text := some (btnTxt 0), count := some N }] := by
  obtain ⟨m, rfl⟩ : ∃ m, N = m + 1 := ⟨N - 1, by omega⟩
  unfold analyzeFiles
  rw [btnFiles_filter_html, btnFiles_filter_css]
  simp only [List.foldl_nil, categorize_em]
  show (sortMarkup _).buttons = _
  rw [sortMarkup_buttons]
  rw [List.range_succ_eq_map]
  simp only [List.map_cons, List.foldl_cons]
  dsimp only [btnFileOf]
  rw [btnFold_bump _ _ 1 (analyzeDoc_btnDoc_base 0 _ rfl)]
  simp only [List.length_map, List.length_range]
  rw [Nat.add_comm 1 m]
  rfl

theorem button_count_accumulates_witness :
    (analyzeFiles [] (btnFiles 3)).extractedMarkup.buttons =
      [{ classes := "btn-primary", html := btnHtml 0,
         text := some (btnTxt 0), count := some 3 }] :=
  button_count_accumulates 3 (by decide)


/-! ### C3: first-seen-wins CSS variables -/

theorem cssVarStep_css (r : AnalysisResult) (nv : String × String) :
    (cssVarStep r nv).cssVariables =
      if r.cssVariables.any (fun v => v.name == nv.1) then r.cssVariables
      else r.cssVariables ++ [cssEntry nv] := by
  unfold cssVarStep
  split <;> simp_all [cssEntry]

theorem foldl_cssVarStep (ds : List (String × String)) (r : AnalysisResult) :
    (ds.foldl cssVarStep r).cssVariables = varAcc r.cssVariables ds := by
  induction ds generalizing r with
  | nil => rfl
  | cons nv rest ih =>
    rw [List.foldl_cons, ih, cssVarStep_css]
    by_cases h : (r.cssVariables.any fun v => v.name == nv.1) = true
    · rw [if_pos h]
      conv_rhs => rw [varAcc]
      rw [if_pos h]
    · rw [if_neg h]
      conv_rhs => rw [varAcc]
      rw [if_neg h]

theorem analyzeCss_cssVars (content : String) (r : AnalysisResult) :
    (analyzeCss content r).cssVariables =
      varAcc r.cssVariables (cssVarDecls (content.data.length + 1) content.data) := by
  unfold analyzeCss
  rw [foldl_cssVarStep]

theorem varAcc_append (acc : List CSSVariable) (ds1 ds2 : List (String × String)) :
    varAcc acc (ds1 ++ ds2) = varAcc (varAcc acc ds1) ds2 := by
  induction ds1 generalizing acc with
  | nil => rfl
  | cons nv rest ih =>
    rw [List.cons_append]
    simp only [varAcc]
    by_cases h : (acc.any fun v => v.name == nv.1) = true
    · simp only [if_pos h, ih]
    · simp only [if_neg h, ih]

theorem htmlFold_css (ist : Store) (fs : List UFile) (r : AnalysisResult) :
    ((fs.foldl (fun r f => match f with
      | .htmlF _ doc => analyzeDoc ist doc r
      | _ => r) r)).cssVariables = r.cssVariables := by
  induction fs generalizing r with
  | nil => rfl
  | cons f fs ih =>
    rw [List.foldl_cons, ih]
    cases f <;> simp [analyzeDoc_css]

theorem cssFold_varAcc (fs : List UFile) (r : AnalysisResult) :
    ((fs.foldl (fun r f => analyzeCss (ufText f) r) r)).cssVariables =
      varAcc r.cssVariables (fs.flatMap fun f =>
        cssVarDecls ((ufText f).data.length + 1) (ufText f).data) := by
  induction fs generalizing r with
  | nil => rfl
  | cons f fs ih =>
    rw [List.foldl_cons, ih, analyzeCss_cssVars, ← varAcc_append,
      List.flatMap_cons]

theorem varAcc_firstWins (ds : List (String × String)) (acc : List CSSVariable) :
    varAcc acc ds = acc ++ (firstWins (acc.map fun v => v.name) ds).map cssEntry := by
  induction ds generalizing acc with
  | nil => simp [varAcc, firstWins]
  | cons nv rest ih =>
    have hc : ((acc.map fun v => v.name).any fun s => s == nv.1) =
        (acc.any fun v => v.name == nv.1) := by
      induction acc with
      | nil => rfl
      | cons a t iha => simp only [List.map_cons, List.any_cons, iha]
    simp only [varAcc, firstWins, hc]
    by_cases h : (acc.any fun v => v.name == nv.1) = true
    · rw [if_pos h, if_pos h]
      exact ih acc
    · rw [if_neg h, if_neg h]
      rw [ih (acc ++ [cssEntry nv])]
      simp [cssEntry, List.map_append, List.append_assoc]

theorem firstWins_nodup (ds : List (String × String)) (seen : List String) :
    ((firstWins seen ds).map fun nv => nv.1).Nodup ∧
    ∀ x ∈ (firstWins seen ds).map fun nv => nv.1,
      (seen.any fun s => s == x) = false := by
  induction ds generalizing seen with
  | nil => simp [firstWins]
  | cons nv rest ih =>
    by_cases h : (seen.any fun s => s == nv.1) = true
    · simp only [firstWins, if_pos h]
      exact ih seen
    · simp only [firstWins, if_neg h, List.map_cons, List.nodup_cons]
      obtain ⟨ihn, ihm⟩ := ih (seen ++ [nv.1])
      refine ⟨⟨?_, ihn⟩, ?_⟩
      · intro hmem
        simpa using ihm nv.1 hmem
      · intro x hx
        rcases List.mem_cons.mp hx with hx0 | hx'
        · subst hx0
          exact Bool.eq_false_iff.mpr h
        · have hthis := ihm x hx'
          rw [List.any_append] at hthis
          exact (Bool.or_eq_false_iff.mp hthis).1

/-- C3: CSS custom-property extraction is first-seen-wins and unique by
name: the final `cssVariables` list is exactly the concatenated declaration
stream of the CSS files, in file order, with every later re-declaration of
an already-seen name dropped, each entry classified from its own (first)
value; no two entries share a name. -/
theorem css_variables_first_wins (ist : Store) (files : List UFile) :
    (analyzeFiles ist files).cssVariables =
      (firstWins [] ((files.filter isCssF).flatMap fun f =>
        cssVarDecls ((ufText f).data.length + 1) (ufText f).data)).map cssEntry ∧
    ((analyzeFiles ist files).cssVariables.map fun v => v.name).Nodup := by
  have hmain : (analyzeFiles ist files).cssVariables =
      (firstWins [] ((files.filter isCssF).flatMap fun f =>
        cssVarDecls ((ufText f).data.length + 1) (ufText f).data)).map cssEntry := by
    unfold analyzeFiles
    dsimp only
    rw [categorize_css]
    show ((files.filter isCssF).foldl (fun r f => analyzeCss (ufText f) r)
      _).cssVariables = _
    rw [cssFold_varAcc, htmlFold_css, varAcc_firstWins]
    rfl
  refine ⟨hmain, ?_⟩
  rw [hmain, List.map_map]
  have hcomp : ((fun v : CSSVariable => v.name) ∘ cssEntry) =
      fun nv : String × String => nv.1 := rfl
  rw [hcomp]
  exact (firstWins_nodup _ []).1


/-! ### C5: section filtering, numbering and the TOC -/

theorem runBuilders_toc (bs : List SectionB) (num cnt : Nat) :
    (runBuilders bs num cnt).2.1 =
      (bs.filter fun b => b.check).map fun b => (b.sid, b.title) := by
  induction bs generalizing num cnt with
  | nil => rfl
  | cons b bs ih =>
    by_cases h : b.check = true
    · simp only [runBuilders, if_pos h, List.filter_cons_of_pos h, List.map_cons]
      rw [ih]
    · simp only [runBuilders, if_neg h,
        List.filter_cons_of_neg (by simpa using h)]
      exact ih num cnt

theorem runBuilders_sections (bs : List SectionB) (num cnt : Nat) :
    (runBuilders bs num cnt).1 =
      numberedBuilds (bs.filter fun b => b.check) num cnt := by
  induction bs generalizing num cnt with
  | nil => rfl
  | cons b bs ih =>
    by_cases h : b.check = true
    · simp only [runBuilders, if_pos h, List.filter_cons_of_pos h, numberedBuilds]
      rw [ih]
    · simp only [runBuilders, if_neg h,
        List.filter_cons_of_neg (by simpa using h)]
      exact ih num cnt

theorem runBuilders_no_sid (bs : List SectionB) (num cnt : Nat) (sid : String)
    (h : ∀ b ∈ bs, b.sid = sid → b.check = false) :
    ∀ t ∈ (runBuilders bs num cnt).2.1, t.1 ≠ sid := by
  intro t ht
  rw [runBuilders_toc] at ht
  obtain ⟨b, hbf, rfl⟩ := List.mem_map.mp ht
  obtain ⟨hbm, hbc⟩ := List.mem_filter.mp hbf
  intro hsid
  have := h b hbm hsid
  rw [this] at hbc
  exact Bool.false_ne_true hbc

/-- C5: sections are rendered in the fixed builder order with every
`check = false` section skipped, sequential display numbers are assigned
only to rendered sections, and the TOC lists exactly the rendered sections
in the same filtered order; when the badges option is off, or there are no
badge components, no extracted badge markup and no additional badge
classes, no rendered section or TOC entry has the `badges` id. -/
theorem section_filtering_order (result : AnalysisResult)
    (secOpts : SectionOptions) (styOpts : StyleOptions)
    (addl : Option AdditionalClasses) (num cnt : Nat)
    (hb : secOpts.badge = false ∨
      (result.components.badges = [] ∧ result.extractedMarkup.badges = [] ∧
       addlGet addl (fun a => a.badge) = "")) :
    (runBuilders (buildersOf result secOpts styOpts addl) num cnt).1 =
      numberedBuilds
        ((buildersOf result secOpts styOpts addl).filter fun b => b.check)
        num cnt ∧
    (runBuilders (buildersOf result secOpts styOpts addl) num cnt).2.1 =
      ((buildersOf result secOpts styOpts addl).filter fun b => b.check).map
        (fun b => (b.sid, b.title)) ∧
    ∀ t ∈ (runBuilders (buildersOf result secOpts styOpts addl) num cnt).2.1,
      t.1 ≠ "badges" := by
  refine ⟨runBuilders_sections _ num cnt, runBuilders_toc _ num cnt, ?_⟩
  refine runBuilders_no_sid _ num cnt _ ?_
  intro b hbm hsid
  dsimp only [buildersOf] at hbm
  fin_cases hbm <;> simp_all
  rcases hb with hb | ⟨h1, h2, h3⟩
  · simp [hb]
  · simp [h1, h2, h3]

theorem section_filtering_order_witness :
    (runBuilders (buildersOf (analyzeFiles [] []) { badge := false } {} none) 0 0).1 =
      numberedBuilds
        ((buildersOf (analyzeFiles [] []) { badge := false } {} none).filter
          fun b => b.check) 0 0 ∧
    (runBuilders (buildersOf (analyzeFiles [] []) { badge := false } {} none) 0 0).2.1 =
      ((buildersOf (analyzeFiles [] []) { badge := false } {} none).filter
        fun b => b.check).map (fun b => (b.sid, b.title)) ∧
    ∀ t ∈ (runBuilders (buildersOf (analyzeFiles [] []) { badge := false } {} none)
        0 0).2.1, t.1 ≠ "badges" :=
  section_filtering_order (analyzeFiles [] []) { badge := false } {} none 0 0
    (Or.inl rfl)


/-! ### C4: builder determinism up to the code-block counter -/

theorem go_hoist (s : String) (l : List String) : ∀ x y : String,
    String.intercalate.go (x ++ y) s l = x ++ String.intercalate.go y s l := by
  induction l with
  | nil => intro x y; rfl
  | cons b bs ih =>
    intro x y
    show String.intercalate.go (x ++ y ++ s ++ b) s bs =
      x ++ String.intercalate.go (y ++ s ++ b) s bs
    rw [String.append_assoc, String.append_assoc, ← String.append_assoc y s b]
    exact ih x (y ++ s ++ b)

theorem joinS_cons2 (sep a b : String) (rest : List String) :
    joinS sep (a :: b :: rest) = a ++ sep ++ joinS sep (b :: rest) := by
  show String.intercalate.go (a ++ sep ++ b) sep rest =
    a ++ sep ++ String.intercalate.go b sep rest
  exact go_hoist sep rest (a ++ sep) b

theorem renderChunks_append (k1 k2 : List Chunk) (c : Nat) :
    renderChunks (k1 ++ k2) c =
      ((renderChunks k1 c).1 ++ (renderChunks k2 (renderChunks k1 c).2).1,
       (renderChunks k2 (renderChunks k1 c).2).2) := by
  induction k1 generalizing c with
  | nil => rfl
  | cons ch k1 ih =>
    cases ch with
    | lit s =>
      simp only [List.cons_append, renderChunks, List.append_eq]
      rw [ih]
      exact Prod.ext (String.append_assoc ..).symm rfl
    | blk h =>
      simp only [List.cons_append, renderChunks, List.append_eq]
      rw [ih]
      exact Prod.ext (String.append_assoc ..).symm rfl

theorem renderChunks_joinChunks (sep : String) (ks : List (List Chunk)) (c : Nat) :
    renderChunks (joinChunks sep ks) c =
      (joinS sep (renderSeq ks c).1, (renderSeq ks c).2) := by
  induction ks generalizing c with
  | nil => rfl
  | cons k ks ih =>
    cases ks with
    | nil =>
      show renderChunks k c = _
      simp only [renderSeq, renderChunks]
      exact Prod.ext rfl rfl
    | cons k2 ks2 =>
      show renderChunks (k ++ [Chunk.lit sep] ++ joinChunks sep (k2 :: ks2)) c = _
      rw [renderChunks_append, renderChunks_append, ih]
      simp only [renderChunks, renderSeq, joinS_cons2, String.append_empty,
        String.append_assoc]

theorem bridged_run (bs : List SectionB) (cs : List SectionC)
    (h : List.Forall₂ Bridged bs cs) : ∀ num cnt,
    (runBuilders bs num cnt).1 = (renderSeq (runBuildersC cs num).1 cnt).1 ∧
    (runBuilders bs num cnt).2.1 = (runBuildersC cs num).2.1 ∧
    (runBuilders bs num cnt).2.2.1 = (runBuildersC cs num).2.2 ∧
    (runBuilders bs num cnt).2.2.2 = (renderSeq (runBuildersC cs num).1 cnt).2 := by
  induction h with
  | nil => exact fun num cnt => ⟨rfl, rfl, rfl, rfl⟩
  | @cons a c bs cs h1 h2 ih =>
    intro num cnt
    obtain ⟨hc, hs, ht, hb⟩ := h1
    simp only [runBuilders, runBuildersC, ← hc]
    by_cases hck : a.check = true
    · rw [if_pos hck, if_pos hck]
      obtain ⟨i1, i2, i3, i4⟩ := ih (num + 1) (renderChunks (c.chunks (num + 1)) cnt).2
      simp only [renderSeq, hb]
      exact ⟨by rw [i1], by rw [hs, ht, i2], i3, i4⟩
    · rw [if_neg hck, if_neg hck]
      exact ih num cnt


theorem buildCB_bridge (parts : String × String) (ic : Bool) (cnt : Nat) :
    (parts.1 ++ (buildCodeBlock parts.2 ic cnt).1 ++ "</section>",
     (buildCodeBlock parts.2 ic cnt).2) =
      renderChunks (sectionChunks parts ic) cnt := by
  unfold buildCodeBlock sectionChunks
  by_cases h : (!ic || parts.2 == "") = true
  · rw [if_pos h, if_pos h]
    simp only [renderChunks, String.append_empty, String.append_assoc]
  · rw [if_neg h, if_neg h]
    simp only [renderChunks, String.append_empty, String.append_assoc]

theorem buildersOf_bridged (result : AnalysisResult) (secOpts : SectionOptions)
    (styOpts : StyleOptions) (addl : Option AdditionalClasses) :
    List.Forall₂ Bridged (buildersOf result secOpts styOpts addl)
      (chunkBuildersOf result secOpts styOpts addl) := by
  unfold buildersOf chunkBuildersOf
  dsimp only
  refine .cons ⟨rfl, rfl, rfl, fun n k => ?_⟩ (.cons ⟨rfl, rfl, rfl, fun n k => ?_⟩
    (.cons ⟨rfl, rfl, rfl, fun n k => ?_⟩ (.cons ⟨rfl, rfl, rfl, fun n k => ?_⟩
    (.cons ⟨rfl, rfl, rfl, fun n k => ?_⟩ (.cons ⟨rfl, rfl, rfl, fun n k => ?_⟩
    (.cons ⟨rfl, rfl, rfl, fun n k => ?_⟩ (.cons ⟨rfl, rfl, rfl, fun n k => ?_⟩
    (.cons ⟨rfl, rfl, rfl, fun n k => ?_⟩ (.cons ⟨rfl, rfl, rfl, fun n k => ?_⟩
    (.cons ⟨rfl, rfl, rfl, fun n k => ?_⟩ (.cons ⟨rfl, rfl, rfl, fun n k => ?_⟩
    (.cons ⟨rfl, rfl, rfl, fun n k => ?_⟩ (.cons ⟨rfl, rfl, rfl, fun n k => ?_⟩
    .nil)))))))))))))
  · exact Prod.ext (String.append_empty _).symm rfl
  · exact buildCB_bridge _ _ _
  · exact Prod.ext (String.append_empty _).symm rfl
  · exact buildCB_bridge _ _ _
  · exact buildCB_bridge _ _ _
  · exact buildCB_bridge _ _ _
  · exact buildCB_bridge _ _ _
  · exact buildCB_bridge _ _ _
  · exact buildCB_bridge _ _ _
  · exact buildCB_bridge _ _ _
  · exact buildCB_bridge _ _ _
  · exact buildCB_bridge _ _ _
  · exact buildCB_bridge _ _ _
  · exact Prod.ext (String.append_empty _).symm rfl

theorem buildStyleGuide_renderChunks (ist : Store) (files : List UFile)
    (result : AnalysisResult) (secOpts : SectionOptions) (styOpts : StyleOptions)
    (proj : ProjectInfo) (addl : Option AdditionalClasses) (today : String)
    (cnt : Nat) :
    buildStyleGuide ist files result secOpts styOpts proj addl today cnt =
      renderChunks
        (buildStyleGuideChunks ist files result secOpts styOpts proj addl today)
        cnt := by
  obtain ⟨e1, e2, e3, e4⟩ :=
    bridged_run _ _ (buildersOf_bridged result secOpts styOpts addl) 0 cnt
  unfold buildStyleGuide buildStyleGuideChunks
  dsimp only
  simp only [renderChunks]
  rw [renderChunks_append, renderChunks_joinChunks]
  simp only [renderChunks, String.append_empty]
  rw [← e1, ← e2, ← e4]
  exact Prod.ext (String.append_assoc ..) rfl

/-- C4: the builder is deterministic up to the code-block id counter: for a
fixed input tuple the output at any starting counter value is the rendering
of one counter-independent chunk skeleton, so two calls on the same day
differ only in the sequential numeric suffixes their code-block ids start
from. -/
theorem builder_deterministic (ist : Store) (files : List UFile)
    (result : AnalysisResult) (secOpts : SectionOptions) (styOpts : StyleOptions)
    (proj : ProjectInfo) (addl : Option AdditionalClasses) (today : String)
    (c1 c2 : Nat) :
    buildStyleGuide ist files result secOpts styOpts proj addl today c1 =
      renderChunks
        (buildStyleGuideChunks ist files result secOpts styOpts proj addl today)
        c1 ∧
    buildStyleGuide ist files result secOpts styOpts proj addl today c2 =
      renderChunks
        (buildStyleGuideChunks ist files result secOpts styOpts proj addl today)
        c2 :=
  ⟨buildStyleGuide_renderChunks ist files result secOpts styOpts proj addl today c1,
   buildStyleGuide_renderChunks ist files result secOpts styOpts proj addl today c2⟩


/-! ### C8: idempotence of the whitespace stages on one-pass output -/

theorem dropWhile_head_false {p : Char → Bool} :
    ∀ (l : List Char) (d : Char) (ds : List Char),
      l.dropWhile p = d :: ds → p d = false := by
  intro l
  induction l with
  | nil => intro d ds h; cases h
  | cons c cs ih =>
    intro d ds h
    rw [List.dropWhile_cons] at h
    by_cases hc : p c = true
    · rw [if_pos hc] at h
      exact ih d ds h
    · rw [if_neg hc] at h
      cases h
      exact Bool.eq_false_iff.mpr hc

theorem dropWhile_length_le (p : Char → Bool) :
    ∀ l : List Char, (l.dropWhile p).length ≤ l.length := by
  intro l
  induction l with
  | nil => simp
  | cons c cs ih =>
    rw [List.dropWhile_cons]
    split
    · exact Nat.le_trans ih (Nat.le_succ _)
    · exact Nat.le_refl _

theorem dropWhile_of_nonws (l : List Char) (h : nextNonWs l = true) :
    l.dropWhile jsWs = l := by
  cases l with
  | nil => rfl
  | cons c cs =>
    rw [List.dropWhile_cons, if_neg]
    simpa [nextNonWs] using h

theorem nextNonWs_dropWhile (l : List Char) :
    nextNonWs (l.dropWhile jsWs) = true := by
  cases hd : l.dropWhile jsWs with
  | nil => rfl
  | cons d ds =>
    simp [nextNonWs, dropWhile_head_false l d ds hd]

theorem nextNonWs_wsCollapse (f : Nat) (l : List Char)
    (h : nextNonWs l = true) : nextNonWs (wsCollapse f l) = true := by
  cases f with
  | zero => exact h
  | succ f =>
    cases l with
    | nil => rfl
    | cons c cs =>
      have hc : jsWs c = false := by simpa [nextNonWs] using h
      simp [wsCollapse, hc, nextNonWs]

theorem spOk_tail {c : Char} {cs : List Char} (h : spOk (c :: cs) = true) :
    spOk cs = true := by
  simp only [spOk, Bool.and_eq_true] at h
  exact h.2

theorem spOk_wsCollapse : ∀ (f : Nat) (l : List Char), l.length < f →
    spOk (wsCollapse f l) = true := by
  intro f
  induction f with
  | zero => intro l h; exact absurd h (Nat.not_lt_zero _)
  | succ f ih =>
    intro l h
    cases l with
    | nil => rfl
    | cons c cs =>
      simp only [List.length_cons, Nat.succ_lt_succ_iff] at h
      by_cases hc : jsWs c = true
      · simp only [wsCollapse, if_pos hc]
        have hlen : (cs.dropWhile jsWs).length < f :=
          Nat.lt_of_le_of_lt (dropWhile_length_le jsWs cs) h
        have hnw : nextNonWs (wsCollapse f (cs.dropWhile jsWs)) = true :=
          nextNonWs_wsCollapse f _ (nextNonWs_dropWhile cs)
        simp [spOk, jsWs, hnw, ih _ hlen]
      · simp only [wsCollapse, if_neg hc]
        simp [spOk, hc, ih cs h]


theorem beq_nl_false {c : Char} (h : jsWs c = false) : (c == '\n') = false := by
  cases hb : c == '\n'
  · rfl
  · rw [eq_of_beq hb] at h
    exact absurd h (by decide)

theorem beq_sp_false {c : Char} (h : jsWs c = false) : (c == ' ') = false := by
  cases hb : c == ' '
  · rfl
  · rw [eq_of_beq hb] at h
    exact absurd h (by decide)

theorem gapCtx_cons_of_nonws {c : Char} (p : Char) (X : List Char)
    (h : jsWs c = false) : gapCtx p (c :: X) = gapCtx c X := by
  simp [gapCtx, beq_nl_false h, beq_sp_false h, h]

theorem gapCtx_tail {p c : Char} {cs : List Char}
    (h : gapCtx p (c :: cs) = true) : gapCtx c cs = true := by
  by_cases hws : jsWs c = true
  · simp only [gapCtx] at h
    by_cases hn : (c == '\n') = true
    · rw [if_pos hn] at h
      simp only [Bool.and_eq_true] at h
      exact h.2
    · rw [if_neg hn] at h
      by_cases hs : (c == ' ') = true
      · rw [if_pos hs] at h
        simp only [Bool.and_eq_true] at h
        exact h.2
      · rw [if_neg hs, if_pos hws] at h
        cases h
  · rw [gapCtx_cons_of_nonws p cs (Bool.eq_false_iff.mpr hws)] at h
    exact h

theorem spOk_ws_head {c : Char} {cs : List Char} (h : spOk (c :: cs) = true)
    (hws : jsWs c = true) : c = ' ' ∧ nextNonWs cs = true := by
  simp only [spOk, Bool.and_eq_true, Bool.or_eq_true] at h
  rcases h.1 with h1 | h1
  · rw [hws] at h1
    cases h1
  · exact ⟨eq_of_beq h1.1, h1.2⟩

theorem gapAt_spOk_some {cs r : List Char} (hsp : spOk cs = true)
    (h : gapAt cs = some r) : cs = ' ' :: '<' :: r := by
  cases cs with
  | nil => cases h
  | cons d ds =>
    simp only [gapAt] at h
    by_cases hd : jsWs d = true
    · rw [if_pos hd] at h
      obtain ⟨hd', hnn⟩ := spOk_ws_head hsp hd
      subst hd'
      rw [List.dropWhile_cons, if_pos (by decide), dropWhile_of_nonws ds hnn] at h
      split at h
      · cases h
        rfl
      · cases h
    · rw [if_neg hd] at h
      cases h

theorem headIs_tagGap : ∀ (f : Nat) (x d : Char) (ds : List Char),
    headIs x (tagGap f (d :: ds)) = (d == x) := by
  intro f x d ds
  cases f with
  | zero => rfl
  | succ f =>
    simp only [tagGap]
    by_cases hd : (d == '>') = true
    · rw [if_pos hd]
      cases gapAt ds with
      | none => rfl
      | some r =>
        rw [eq_of_beq hd]
        rfl
    · rw [if_neg hd]
      rfl

theorem nextNonWs_tagGap (f : Nat) (l : List Char) (h : nextNonWs l = true) :
    nextNonWs (tagGap f l) = true := by
  cases f with
  | zero => exact h
  | succ f =>
    cases l with
    | nil => rfl
    | cons c cs =>
      have hc : jsWs c = false := by simpa [nextNonWs] using h
      simp only [tagGap]
      by_cases hgt : (c == '>') = true
      · rw [if_pos hgt]
        cases gapAt cs with
        | none => simpa [nextNonWs] using h
        | some r => rfl
      · rw [if_neg hgt]
        simpa [nextNonWs] using h


theorem tagGap_nil : ∀ f : Nat, tagGap f [] = [] := by
  intro f
  cases f <;> rfl

theorem gapCtx_tagGap : ∀ (f : Nat) (l : List Char) (p : Char), l.length < f →
    spOk l = true → ((p == '>') = true → gapAt l = none) →
    gapCtx p (tagGap f l) = true := by
  intro f
  induction f with
  | zero => intro l p h _ _; exact absurd h (Nat.not_lt_zero _)
  | succ f ih =>
    intro l p h hsp hgap
    cases l with
    | nil => rfl
    | cons c cs =>
      simp only [List.length_cons, Nat.succ_lt_succ_iff] at h
      simp only [tagGap]
      by_cases hgt : (c == '>') = true
      · rw [if_pos hgt]
        have hc : c = '>' := eq_of_beq hgt
        subst hc
        cases hga : gapAt cs with
        | some r =>
          have hcs := gapAt_spOk_some (spOk_tail hsp) hga
          subst hcs
          rw [gapCtx_cons_of_nonws p _ (by decide)]
          have h1 : gapCtx '<' (tagGap f r) = true :=
            ih r '<' (by simp only [List.length_cons] at h; omega)
              (spOk_tail (spOk_tail (spOk_tail hsp)))
              (fun hq => absurd hq (by decide))
          show (('>' == '>' && headIs '<' ('<' :: tagGap f r)) &&
            gapCtx '\n' ('<' :: tagGap f r)) = true
          rw [gapCtx_cons_of_nonws '\n' _ (by decide), h1]
          rfl
        | none =>
          rw [gapCtx_cons_of_nonws p _ (by decide)]
          exact ih cs '>' h (spOk_tail hsp) (fun _ => hga)
      · rw [if_neg hgt]
        by_cases hws : jsWs c = true
        · obtain ⟨hc, hnn⟩ := spOk_ws_head hsp hws
          subst hc
          show ((!(p == '>' && headIs '<' (tagGap f cs))) &&
            nextNonWs (tagGap f cs) && gapCtx ' ' (tagGap f cs)) = true
          have hnn2 : nextNonWs (tagGap f cs) = true := nextNonWs_tagGap f cs hnn
          have hrec : gapCtx ' ' (tagGap f cs) = true :=
            ih cs ' ' h (spOk_tail hsp) (fun hq => absurd hq (by decide))
          by_cases hp : (p == '>') = true
          · have hhead : headIs '<' (tagGap f cs) = false := by
              have hnone := hgap hp
              cases cs with
              | nil => rw [tagGap_nil]; rfl
              | cons d ds =>
                rw [headIs_tagGap]
                by_cases hd : (d == '<') = true
                · exfalso
                  have hd' : d = '<' := eq_of_beq hd
                  subst hd'
                  exact Option.noConfusion
                    (show (some ds : Option (List Char)) = none from hnone)
                · exact Bool.eq_false_iff.mpr hd
            rw [hp, hhead, hnn2, hrec]
            rfl
          · rw [Bool.eq_false_iff.mpr hp, hnn2, hrec]
            rfl
        · rw [gapCtx_cons_of_nonws p _ (Bool.eq_false_iff.mpr hws)]
          exact ih cs c h (spOk_tail hsp) (fun hq => absurd hq hgt)


theorem headIs_elim {x : Char} {cs : List Char} (h : headIs x cs = true) :
    ∃ ds, cs = x :: ds := by
  cases cs with
  | nil => cases h
  | cons d ds => exact ⟨ds, by rw [eq_of_beq (show (d == x) = true from h)]⟩

theorem gapCtx_false_of_other_ws {p c : Char} {cs : List Char}
    (hws : jsWs c = true) (hn : ¬(c == '\n') = true) (hs : ¬(c == ' ') = true) :
    gapCtx p (c :: cs) = false := by
  simp [gapCtx, hn, hs, hws]

theorem gapCtx_ws_of_true {p c : Char} {cs : List Char}
    (hg : gapCtx p (c :: cs) = true) (hcase : jsWs c = true)
    (hn : ¬(c == '\n') = true) (hs : ¬(c == ' ') = true) : False := by
  rw [gapCtx_false_of_other_ws hcase hn hs] at hg
  cases hg

theorem wsCollapse_mapWs : ∀ (f : Nat) (l : List Char) (p : Char),
    l.length < f → gapCtx p l = true → wsCollapse f l = mapWs l := by
  intro f
  induction f with
  | zero => intro l p h _; exact absurd h (Nat.not_lt_zero _)
  | succ f ih =>
    intro l p h hg
    cases l with
    | nil => rfl
    | cons c cs =>
      simp only [List.length_cons, Nat.succ_lt_succ_iff] at h
      by_cases hn : (c == '\n') = true
      · have hc : c = '\n' := eq_of_beq hn
        subst hc
        have hg' : ((p == '>' && headIs '<' cs) && gapCtx '\n' cs) = true := hg
        simp only [Bool.and_eq_true] at hg'
        obtain ⟨ds, hds⟩ := headIs_elim hg'.1.2
        show ' ' :: wsCollapse f (cs.dropWhile jsWs) = ' ' :: mapWs cs
        rw [dropWhile_of_nonws cs (by rw [hds]; rfl), ih cs '\n' h hg'.2]
      · by_cases hs : (c == ' ') = true
        · have hc : c = ' ' := eq_of_beq hs
          subst hc
          have hg' : ((!(p == '>' && headIs '<' cs)) && nextNonWs cs &&
            gapCtx ' ' cs) = true := hg
          simp only [Bool.and_eq_true] at hg'
          show ' ' :: wsCollapse f (cs.dropWhile jsWs) = ' ' :: mapWs cs
          rw [dropWhile_of_nonws cs hg'.1.2, ih cs ' ' h hg'.2]
        · have hws : jsWs c = false := by
            cases hcase : jsWs c
            · rfl
            · exact absurd (gapCtx_ws_of_true hg hcase hn hs) id
          simp only [wsCollapse]
          rw [if_neg (by simp [hws]),
            ih cs c h (by rwa [gapCtx_cons_of_nonws p cs hws] at hg)]
          rw [show mapWs (c :: cs) = (if jsWs c then ' ' else c) :: mapWs cs
            from rfl, if_neg (by simp [hws])]

theorem tagGap_mapWs : ∀ (f : Nat) (l : List Char) (p : Char),
    l.length < f → gapCtx p l = true →
    ((p == '>') = true → gapAt (mapWs l) = none) →
    tagGap f (mapWs l) = l := by
  intro f
  induction f with
  | zero => intro l p h _ _; exact absurd h (Nat.not_lt_zero _)
  | succ f ih =>
    intro l p h hg hgap
    cases l with
    | nil => rfl
    | cons c cs =>
      simp only [List.length_cons, Nat.succ_lt_succ_iff] at h
      by_cases hn : (c == '\n') = true
      · exfalso
        have hc : c = '\n' := eq_of_beq hn
        subst hc
        have hg' : ((p == '>' && headIs '<' cs) && gapCtx '\n' cs) = true := hg
        simp only [Bool.and_eq_true] at hg'
        obtain ⟨ds, hds⟩ := headIs_elim hg'.1.2
        subst hds
        exact Option.noConfusion
          (show (some (mapWs ds) : Option (List Char)) = none from
            hgap hg'.1.1)
      · by_cases hs : (c == ' ') = true
        · have hc : c = ' ' := eq_of_beq hs
          subst hc
          have hg' : ((!(p == '>' && headIs '<' cs)) && nextNonWs cs &&
            gapCtx ' ' cs) = true := hg
          simp only [Bool.and_eq_true] at hg'
          show ' ' :: tagGap f (mapWs cs) = ' ' :: cs
          rw [ih cs ' ' h hg'.2 (fun hq => absurd hq (by decide))]
        · by_cases hgt : (c == '>') = true
          · have hc : c = '>' := eq_of_beq hgt
            subst hc
            have hg2 : gapCtx '>' cs = true := by
              rwa [gapCtx_cons_of_nonws p cs (by decide)] at hg
            show (match gapAt (mapWs cs) with
              | some r => '>' :: '\n' :: '<' :: tagGap f r
              | none => '>' :: tagGap f (mapWs cs)) = '>' :: cs
            cases hga : gapAt (mapWs cs) with
            | none =>
              show '>' :: tagGap f (mapWs cs) = '>' :: cs
              rw [ih cs '>' h hg2 (fun _ => hga)]
            | some r =>
              cases cs with
              | nil => cases hga
              | cons d ds =>
                by_cases hd : jsWs d = true
                · by_cases hdn : (d == '\n') = true
                  · have hd' : d = '\n' := eq_of_beq hdn
                    subst hd'
                    have hg3 : (('>' == '>' && headIs '<' ds) &&
                      gapCtx '\n' ds) = true := hg2
                    simp only [Bool.and_eq_true] at hg3
                    obtain ⟨cs3, hds⟩ := headIs_elim hg3.1.2
                    subst hds
                    have hr : (some (mapWs cs3) : Option (List Char)) = some r :=
                      hga
                    cases hr
                    show '>' :: '\n' :: '<' :: tagGap f (mapWs cs3) =
                      '>' :: '\n' :: '<' :: cs3
                    have hg4 : gapCtx '<' cs3 = true := by
                      have h5 := hg3.2
                      rwa [gapCtx_cons_of_nonws '\n' cs3 (by decide)] at h5
                    rw [ih cs3 '<' (by simp only [List.length_cons] at h; omega)
                      hg4 (fun hq => absurd hq (by decide))]
                  · by_cases hds : (d == ' ') = true
                    · exfalso
                      have hd' : d = ' ' := eq_of_beq hds
                      subst hd'
                      have hg3 : ((!('>' == '>' && headIs '<' ds)) &&
                        nextNonWs ds && gapCtx ' ' ds) = true := hg2
                      simp only [Bool.and_eq_true] at hg3
                      have hh : headIs '<' ds = false := by
                        cases hic : headIs '<' ds
                        · rfl
                        · have := hg3.1.1
                          rw [hic] at this
                          exact absurd this (by decide)
                      -- gapAt (mapWs (' ' :: ds)) reduces past the space
                      have hnone : gapAt (mapWs (' ' :: ds)) = none := by
                        show gapAt (' ' :: mapWs ds) = none
                        simp only [gapAt]
                        rw [if_pos (by decide), List.dropWhile_cons,
                          if_pos (by decide),
                          dropWhile_of_nonws (mapWs ds) ?hnw]
                        case hnw =>
                          cases hdd : ds with
                          | nil => rfl
                          | cons e es =>
                            have : nextNonWs ds = true := hg3.1.2
                            rw [hdd] at this
                            show (!jsWs (if jsWs e then ' ' else e)) = true
                            rw [if_neg (by simpa [nextNonWs] using this)]
                            simpa [nextNonWs] using this
                        cases hdd : ds with
                        | nil => rfl
                        | cons e es =>
                          have hnn : nextNonWs ds = true := hg3.1.2
                          rw [hdd] at hnn hh
                          show (match (if jsWs e then ' ' else e) :: mapWs es with
                            | '<' :: r => some r
                            | _ => none) = none
                          rw [if_neg (by simpa [nextNonWs] using hnn)]
                          split
                          next heq =>
                            exfalso
                            rw [show e = '<' from by injection heq] at hh
                            exact absurd
                              (show (('<' : Char) == '<') = false from hh)
                              (by decide)
                          next => rfl
                      rw [hnone] at hga
                      cases hga
                    · exact (gapCtx_ws_of_true hg2 hd hdn hds).elim
                · exfalso
                  have : gapAt (mapWs (d :: ds)) = none := by
                    show gapAt ((if jsWs d then ' ' else d) :: mapWs ds) = none
                    rw [if_neg (by simp [hd])]
                    simp only [gapAt]
                    rw [if_neg (by simp [hd])]
                  rw [this] at hga
                  cases hga
          · have hws : jsWs c = false := by
              cases hcase : jsWs c
              · rfl
              · exact absurd (gapCtx_ws_of_true hg hcase hn hs) id
            have hg2 : gapCtx c cs = true := by
              rwa [gapCtx_cons_of_nonws p cs hws] at hg
            show tagGap (f + 1) ((if jsWs c then ' ' else c) :: mapWs cs) =
              c :: cs
            rw [if_neg (by simp [hws])]
            simp only [tagGap]
            rw [if_neg hgt, ih cs c h hg2 (fun hq => absurd hq hgt)]


theorem rstrip_eq : ∀ l : List Char,
    rstrip l = (l.reverse.dropWhile jsWs).reverse := by
  intro l
  induction l with
  | nil => rfl
  | cons c cs ih =>
    rw [List.reverse_cons, List.dropWhile_append]
    cases hE : cs.reverse.dropWhile jsWs with
    | nil =>
      have hnil : rstrip cs = [] := by rw [ih, hE]; rfl
      show (match rstrip cs with
        | [] => if jsWs c then [] else [c]
        | d :: ds => c :: d :: ds) = _
      rw [hnil]
      show (if jsWs c then ([] : List Char) else [c]) =
        (List.dropWhile jsWs [c]).reverse
      by_cases hws : jsWs c = true
      · rw [if_pos hws, List.dropWhile_cons, if_pos hws]
        rfl
      · rw [if_neg hws, List.dropWhile_cons, if_neg hws]
        rfl
    | cons d ds =>
      show rstrip (c :: cs) = ((d :: ds) ++ [c]).reverse
      cases hR : rstrip cs with
      | nil =>
        rw [ih, hE] at hR
        exact absurd hR (by simp)
      | cons y ys =>
        show (match rstrip cs with
          | [] => if jsWs c then [] else [c]
          | d :: ds => c :: d :: ds) = _
        rw [hR]
        show c :: y :: ys = ((d :: ds) ++ [c]).reverse
        rw [← hR, ih, hE]
        simp

theorem rstrip_head : ∀ (l : List Char) (d : Char) (ds : List Char),
    rstrip l = d :: ds → ∃ es, l = d :: es := by
  intro l d ds h
  cases l with
  | nil => cases h
  | cons x xs =>
    refine ⟨xs, ?_⟩
    revert h
    show (match rstrip xs with
      | [] => if jsWs x then [] else [x]
      | e :: es => x :: e :: es) = d :: ds → x :: xs = d :: xs
    cases rstrip xs with
    | nil =>
      by_cases hws : jsWs x = true
      · rw [if_pos hws]
        intro h
        cases h
      · rw [if_neg hws]
        intro h
        rw [show x = d from by injection h]
    | cons e es =>
      intro h
      rw [show x = d from by injection h]

theorem gapCtx_head_irrel {p q : Char} (hp : (p == '>') = false)
    (hq : (q == '>') = false) : ∀ l, gapCtx p l = gapCtx q l := by
  intro l
  cases l with
  | nil => rfl
  | cons c cs => simp [gapCtx, hp, hq]

theorem gapCtx_dropWhile : ∀ (l : List Char) (p : Char),
    gapCtx p l = true → (p == '>') = false →
    gapCtx p (l.dropWhile jsWs) = true := by
  intro l
  induction l with
  | nil => intro p h _; exact h
  | cons c cs ih =>
    intro p h hp
    by_cases hws : jsWs c = true
    · rw [List.dropWhile_cons, if_pos hws]
      have htail : gapCtx c cs = true := gapCtx_tail h
      have hcsp : gapCtx p cs = true := by
        by_cases hn : (c == '\n') = true
        · exfalso
          have hc : c = '\n' := eq_of_beq hn
          subst hc
          have hg' : ((p == '>' && headIs '<' cs) && gapCtx '\n' cs) = true := h
          simp only [Bool.and_eq_true] at hg'
          rw [hp] at hg'
          exact absurd hg'.1.1 (by decide)
        · by_cases hs : (c == ' ') = true
          · rw [gapCtx_head_irrel hp
              (show ((' ' : Char) == '>') = false from rfl) cs,
              ← eq_of_beq hs]
            exact htail
          · exact (gapCtx_ws_of_true h hws hn hs).elim
      exact ih p hcsp hp
    · rw [List.dropWhile_cons, if_neg hws]
      exact h

theorem nextNonWs_append_left {A : List Char} (B : List Char) (a : Char)
    (as : List Char) (hA : A = a :: as) :
    nextNonWs (A ++ B) = nextNonWs A := by
  subst hA
  rfl

theorem rstrip_cons_eq (c : Char) (cs : List Char) :
    rstrip (c :: cs) = (match rstrip cs with
      | [] => if jsWs c then ([] : List Char) else [c]
      | d :: ds => c :: d :: ds) := rfl

theorem gapCtx_rstrip : ∀ (l : List Char) (p : Char), gapCtx p l = true →
    gapCtx p (rstrip l) = true ∧ nextNonWs (rstrip l).reverse = true := by
  intro l
  induction l with
  | nil => intro p _; exact ⟨rfl, rfl⟩
  | cons c cs ih =>
    intro p h
    cases hr : rstrip cs with
    | nil =>
      simp only [rstrip_cons_eq, hr]
      by_cases hws : jsWs c = true
      · rw [if_pos hws]
        exact ⟨rfl, rfl⟩
      · rw [if_neg hws]
        constructor
        · rw [gapCtx_cons_of_nonws p [] (Bool.eq_false_iff.mpr hws)]
          rfl
        · show (!jsWs c) = true
          simp [hws]
    | cons d ds =>
      obtain ⟨ih1, ih2⟩ := ih c (gapCtx_tail h)
      rw [hr] at ih1 ih2
      obtain ⟨es, hes⟩ := rstrip_head cs d ds hr
      simp only [rstrip_cons_eq, hr]
      constructor
      · -- transfer the head condition from `c :: cs` to `c :: d :: ds`
        by_cases hn : (c == '\n') = true
        · have hc : c = '\n' := eq_of_beq hn
          subst hc
          have hg' : ((p == '>' && headIs '<' cs) && gapCtx '\n' cs) = true := h
          simp only [Bool.and_eq_true] at hg'
          show ((p == '>' && headIs '<' (d :: ds)) &&
            gapCtx '\n' (d :: ds)) = true
          rw [hes] at hg'
          have hh : headIs '<' (d :: ds) = headIs '<' (d :: es) := rfl
          rw [hh]
          simp only [Bool.and_eq_true]
          exact ⟨hg'.1, ih1⟩
        · by_cases hs : (c == ' ') = true
          · have hc : c = ' ' := eq_of_beq hs
            subst hc
            have hg' : ((!(p == '>' && headIs '<' cs)) && nextNonWs cs &&
              gapCtx ' ' cs) = true := h
            simp only [Bool.and_eq_true] at hg'
            show ((!(p == '>' && headIs '<' (d :: ds))) &&
              nextNonWs (d :: ds) && gapCtx ' ' (d :: ds)) = true
            rw [hes] at hg'
            simp only [Bool.and_eq_true]
            exact ⟨⟨hg'.1.1, hg'.1.2⟩, ih1⟩
          · have hws : jsWs c = false := by
              cases hcase : jsWs c
              · rfl
              · exact absurd (gapCtx_ws_of_true h hcase hn hs) id
            rw [gapCtx_cons_of_nonws p (d :: ds) hws]
            exact ih1
      · rw [List.reverse_cons]
        cases hrev : (d :: ds).reverse with
        | nil => exact absurd hrev (by simp)
        | cons y ys =>
          rw [nextNonWs_append_left [c] y ys rfl]
          rw [← hrev]
          exact ih2

theorem trim_fix (l : List Char) (h1 : nextNonWs l = true)
    (h2 : nextNonWs l.reverse = true) : trimList l = l := by
  unfold trimList
  rw [dropWhile_of_nonws l h1, dropWhile_of_nonws l.reverse h2,
    List.reverse_reverse]


theorem trimList_eq_rstrip (l : List Char) :
    trimList l = rstrip (l.dropWhile jsWs) := by
  rw [rstrip_eq]
  rfl

theorem wsPipe_idem (u : String) :
    trimS (tagGapS (wsCollapseS (trimS (tagGapS (wsCollapseS u))))) =
      trimS (tagGapS (wsCollapseS u)) := by
  have hsp : spOk (wsCollapse (u.data.length + 1) u.data) = true :=
    spOk_wsCollapse _ _ (Nat.lt_succ_self _)
  have hctx : gapCtx 'x'
      (tagGap ((wsCollapse (u.data.length + 1) u.data).length + 1)
        (wsCollapse (u.data.length + 1) u.data)) = true :=
    gapCtx_tagGap _ _ 'x' (Nat.lt_succ_self _) hsp
      (fun hq => absurd hq (by decide))
  have h1 : gapCtx 'x'
      ((tagGap ((wsCollapse (u.data.length + 1) u.data).length + 1)
        (wsCollapse (u.data.length + 1) u.data)).dropWhile jsWs) = true :=
    gapCtx_dropWhile _ 'x' hctx (by decide)
  have h2 : nextNonWs
      ((tagGap ((wsCollapse (u.data.length + 1) u.data).length + 1)
        (wsCollapse (u.data.length + 1) u.data)).dropWhile jsWs) = true :=
    nextNonWs_dropWhile _
  obtain ⟨h3, h4⟩ := gapCtx_rstrip
    ((tagGap ((wsCollapse (u.data.length + 1) u.data).length + 1)
      (wsCollapse (u.data.length + 1) u.data)).dropWhile jsWs) 'x' h1
  have h5 : nextNonWs (rstrip
      ((tagGap ((wsCollapse (u.data.length + 1) u.data).length + 1)
        (wsCollapse (u.data.length + 1) u.data)).dropWhile jsWs)) = true := by
    cases hr : rstrip
        ((tagGap ((wsCollapse (u.data.length + 1) u.data).length + 1)
          (wsCollapse (u.data.length + 1) u.data)).dropWhile jsWs) with
    | nil => rfl
    | cons d ds =>
      obtain ⟨es, hes⟩ := rstrip_head _ d ds hr
      rw [hes] at h2
      exact h2
  have hRHS : trimS (tagGapS (wsCollapseS u)) =
      ⟨rstrip ((tagGap ((wsCollapse (u.data.length + 1) u.data).length + 1)
        (wsCollapse (u.data.length + 1) u.data)).dropWhile jsWs)⟩ := by
    show (⟨trimList (tagGap ((wsCollapse (u.data.length + 1) u.data).length + 1)
      (wsCollapse (u.data.length + 1) u.data))⟩ : String) = _
    rw [trimList_eq_rstrip]
  have hA := wsCollapse_mapWs
    ((rstrip ((tagGap ((wsCollapse (u.data.length + 1) u.data).length + 1)
      (wsCollapse (u.data.length + 1) u.data)).dropWhile jsWs)).length + 1)
    (rstrip ((tagGap ((wsCollapse (u.data.length + 1) u.data).length + 1)
      (wsCollapse (u.data.length + 1) u.data)).dropWhile jsWs))
    'x' (Nat.lt_succ_self _) h3
  have hB := tagGap_mapWs
    ((mapWs (rstrip ((tagGap ((wsCollapse (u.data.length + 1) u.data).length + 1)
      (wsCollapse (u.data.length + 1) u.data)).dropWhile jsWs))).length + 1)
    (rstrip ((tagGap ((wsCollapse (u.data.length + 1) u.data).length + 1)
      (wsCollapse (u.data.length + 1) u.data)).dropWhile jsWs))
    'x' (by rw [show (mapWs (rstrip ((tagGap ((wsCollapse
        (u.data.length + 1) u.data).length + 1)
        (wsCollapse (u.data.length + 1) u.data)).dropWhile jsWs))).length =
      (rstrip ((tagGap ((wsCollapse (u.data.length + 1) u.data).length + 1)
        (wsCollapse (u.data.length + 1) u.data)).dropWhile jsWs)).length
      from List.length_map _ _]; exact Nat.lt_succ_self _)
    h3 (fun hq => absurd hq (by decide))
  have hC := trim_fix
    (rstrip ((tagGap ((wsCollapse (u.data.length + 1) u.data).length + 1)
      (wsCollapse (u.data.length + 1) u.data)).dropWhile jsWs)) h5 h4
  have s1 : wsCollapseS
      ⟨rstrip ((tagGap ((wsCollapse (u.data.length + 1) u.data).length + 1)
        (wsCollapse (u.data.length + 1) u.data)).dropWhile jsWs)⟩ =
      ⟨mapWs (rstrip ((tagGap ((wsCollapse (u.data.length + 1) u.data).length + 1)
        (wsCollapse (u.data.length + 1) u.data)).dropWhile jsWs))⟩ :=
    congrArg String.mk hA
  have s2 : tagGapS
      ⟨mapWs (rstrip ((tagGap ((wsCollapse (u.data.length + 1) u.data).length + 1)
        (wsCollapse (u.data.length + 1) u.data)).dropWhile jsWs))⟩ =
      ⟨rstrip ((tagGap ((wsCollapse (u.data.length + 1) u.data).length + 1)
        (wsCollapse (u.data.length + 1) u.data)).dropWhile jsWs)⟩ :=
    congrArg String.mk hB
  have s3 : trimS
      ⟨rstrip ((tagGap ((wsCollapse (u.data.length + 1) u.data).length + 1)
        (wsCollapse (u.data.length + 1) u.data)).dropWhile jsWs)⟩ =
      ⟨rstrip ((tagGap ((wsCollapse (u.data.length + 1) u.data).length + 1)
        (wsCollapse (u.data.length + 1) u.data)).dropWhile jsWs)⟩ :=
    congrArg String.mk hC
  rw [hRHS, s1, s2, s3]

/-- C8 (amended): `cleanMarkup` is not idempotent in general, but it is
idempotent (with an inactive image store) on every input whose one-pass
output is a fixed point of the script/style-removal, handler-removal and
href-neutralisation stages: the whitespace-collapse, reflow and trim stages
never change a one-pass output again. -/
theorem cleanMarkup_conditional_idempotent (s : String)
    (h1 : stripScriptStyle (cleanMarkup [] s) = cleanMarkup [] s)
    (h2 : stripHandlersS (cleanMarkup [] s) = cleanMarkup [] s)
    (h3 : hrefDqS (cleanMarkup [] s) = cleanMarkup [] s)
    (h4 : hrefSqS (cleanMarkup [] s) = cleanMarkup [] s) :
    cleanMarkup [] (cleanMarkup [] s) = cleanMarkup [] s := by
  have e1 : cleanMarkup [] (cleanMarkup [] s) =
      trimS (tagGapS (wsCollapseS (cleanMarkup [] s))) := by
    show trimS (tagGapS (wsCollapseS (replaceImagePaths []
      (hrefSqS (hrefDqS (stripHandlersS (stripScriptStyle
        (cleanMarkup [] s)))))))) = _
    rw [h1, h2, h3, h4]
    rfl
  rw [e1]
  exact wsPipe_idem
    (replaceImagePaths [] (hrefSqS (hrefDqS (stripHandlersS (stripScriptStyle s)))))

set_option maxRecDepth 4000 in
theorem cleanMarkup_conditional_idempotent_witness :
    cleanMarkup [] (cleanMarkup [] "<p>a</p>") = cleanMarkup [] "<p>a</p>" :=
  cleanMarkup_conditional_idempotent "<p>a</p>"
    (by decide) (by decide) (by decide) (by decide)


/-! ### C10: unconditional link neutralisation -/

theorem charToNat_ofNat (n : Nat) (h : Nat.isValidChar n) :
    (Char.ofNat n).toNat = n := by
  unfold Char.ofNat
  rw [dif_pos h]
  rfl

/-- A character below the lowercase-letter range is fixed by `lowCh` and
hit by no other character. -/
theorem lowCh_fix {q : Char} (hq : q.toNat < 97) :
    ∀ c : Char, lowCh c = q → c = q := by
  intro c h
  unfold lowCh at h
  split at h
  next hc =>
    exfalso
    simp only [Bool.and_eq_true, decide_eq_true_eq] at hc
    have h1 : 65 ≤ c.toNat := by
      have hle := hc.1
      rw [Char.le_def] at hle
      exact hle
    have h2 : c.toNat ≤ 90 := by
      have hle := hc.2
      rw [Char.le_def] at hle
      exact hle
    have h3 : (Char.ofNat (c.toNat + 32)).toNat = c.toNat + 32 :=
      charToNat_ofNat _ (Or.inl (by omega))
    rw [h] at h3
    omega
  next => exact h

theorem starts_take : ∀ (p l : List Char),
    starts p l = starts p (l.take p.length) := by
  intro p
  induction p with
  | nil => intro l; rfl
  | cons x ps ih =>
    intro l
    cases l with
    | nil => rfl
    | cons c cs =>
      show (x == c && starts ps cs) = (x == c && starts ps (cs.take ps.length))
      rw [ih]

theorem starts_append {p u : List Char} (v : List Char)
    (h : starts p u = true) : starts p (u ++ v) = true := by
  induction p generalizing u with
  | nil => rfl
  | cons x ps ih =>
    cases u with
    | nil => cases h
    | cons c cs =>
      simp only [starts, Bool.and_eq_true] at h
      show (x == c && starts ps (cs ++ v)) = true
      simp only [Bool.and_eq_true]
      exact ⟨h.1, ih h.2⟩

theorem startsCI_head_ne {q c : Char} (cs : List Char)
    (h : ¬ lowCh c = 'h') : startsCI (hrefPat q) (c :: cs) = false := by
  show (('h' == lowCh c) && _) = false
  rw [beq_eq_false_iff_ne.mpr (fun he => h he.symm)]
  rfl

/-- Decomposition of a case-insensitive `href=<quote>` match (the sixth
character is literally the quote when nothing else lowers to it). -/
theorem hrefPat_decomp {q : Char} (hq : ∀ c : Char, lowCh c = q → c = q)
    (hql : lowCh q = q) (l : List Char) (h : startsCI (hrefPat q) l = true) :
    ∃ c1 c2 c3 c4 c5 rest, l = c1 :: c2 :: c3 :: c4 :: c5 :: q :: rest ∧
      lowCh c1 = 'h' ∧ lowCh c2 = 'r' ∧ lowCh c3 = 'e' ∧ lowCh c4 = 'f' ∧
      lowCh c5 = '=' := by
  match l with
  | [] => exact absurd h (by simp [startsCI, starts, hrefPat])
  | [_] => exact absurd h (by simp [startsCI, starts, hrefPat])
  | [_, _] => exact absurd h (by simp [startsCI, starts, hrefPat])
  | [_, _, _] => exact absurd h (by simp [startsCI, starts, hrefPat])
  | [_, _, _, _] => exact absurd h (by simp [startsCI, starts, hrefPat])
  | [_, _, _, _, _] => exact absurd h (by simp [startsCI, starts, hrefPat])
  | c1 :: c2 :: c3 :: c4 :: c5 :: c6 :: rest =>
    have h' : (('h' == lowCh c1) && (('r' == lowCh c2) && (('e' == lowCh c3) &&
        (('f' == lowCh c4) && (('=' == lowCh c5) &&
        ((lowCh q == lowCh c6) && true)))))) = true := h
    simp only [Bool.and_eq_true] at h'
    have h6 : lowCh c6 = lowCh q := (eq_of_beq h'.2.2.2.2.2.1).symm
    have hc6 : c6 = q := hq c6 (h6.trans hql)
    subst hc6
    exact ⟨c1, c2, c3, c4, c5, rest, rfl, (eq_of_beq h'.1).symm,
      (eq_of_beq h'.2.1).symm, (eq_of_beq h'.2.2.1).symm,
      (eq_of_beq h'.2.2.2.1).symm, (eq_of_beq h'.2.2.2.2.1).symm⟩

theorem hrefDq_eq_gen : ∀ f l, hrefDq f l = hrefGen '"' f l := by
  intro f
  induction f with
  | zero => intro l; rfl
  | succ f ih =>
    intro l
    cases l with
    | nil => rfl
    | cons c cs =>
      simp only [hrefDq, hrefGen, ih]
      rfl

theorem hrefSq_eq_gen : ∀ f l, hrefSq f l = hrefGen '\x27' f l := by
  intro f
  induction f with
  | zero => intro l; rfl
  | succ f ih =>
    intro l
    cases l with
    | nil => rfl
    | cons c cs =>
      simp only [hrefSq, hrefGen, ih]
      rfl


theorem dropWhile_exists_drop (p : Char → Bool) :
    ∀ l : List Char, ∃ n, l.dropWhile p = l.drop n := by
  intro l
  induction l with
  | nil => exact ⟨0, rfl⟩
  | cons c cs ih =>
    by_cases h : p c = true
    · obtain ⟨n, hn⟩ := ih
      exact ⟨n + 1, by rw [List.dropWhile_cons, if_pos h]; simpa using hn⟩
    · exact ⟨0, by rw [List.dropWhile_cons, if_neg h, List.drop_zero]⟩

theorem hrefNeutral_drop {q : Char} {l : List Char} (h : hrefNeutral q l)
    (k : Nat) : hrefNeutral q (l.drop k) := by
  intro i
  rw [List.drop_drop]
  exact h (k + i)

theorem hrefGen_lowTake {q : Char} (hql : lowCh q = q)
    (hq : ∀ c : Char, lowCh c = q → c = q) :
    ∀ f l k, k ≤ 6 →
      ((hrefGen q f l).take k).map lowCh = (l.take k).map lowCh := by
  intro f
  induction f with
  | zero => intro l k _; rfl
  | succ f ih =>
    intro l k hk
    cases l with
    | nil => rfl
    | cons c cs =>
      by_cases hm : startsCI (hrefPat q) (c :: cs) = true
      · obtain ⟨c1, c2, c3, c4, c5, rest, hdec, e1, e2, e3, e4, e5⟩ :=
          hrefPat_decomp hq hql _ hm
        simp only [hrefGen]
        rw [if_pos hm]
        cases hdw : ((c :: cs).drop 6).dropWhile (fun d => !(d == q)) with
        | nil =>
          simp only
          cases k with
          | zero => rfl
          | succ k =>
            simp only [List.take_succ_cons, List.map_cons]
            rw [ih cs k (by omega)]
        | cons x r2 =>
          simp only
          rw [hdec]
          rcases k with _|_|_|_|_|_|_|k
          · rfl
          · simp [e1, hql]
            all_goals decide
          · simp [e1, e2, hql]
            all_goals decide
          · simp [e1, e2, e3, hql]
            all_goals decide
          · simp [e1, e2, e3, e4, hql]
            all_goals decide
          · simp [e1, e2, e3, e4, e5, hql]
            all_goals decide
          · simp [e1, e2, e3, e4, e5, hql]
            all_goals decide
          · exact absurd hk (by omega)
      · simp only [hrefGen]
        rw [if_neg hm]
        cases k with
        | zero => rfl
        | succ k =>
          simp only [List.take_succ_cons, List.map_cons]
          rw [ih cs k (by omega)]

theorem hrefGen_startsCI {q : Char} (hql : lowCh q = q)
    (hq : ∀ c : Char, lowCh c = q → c = q) (q' : Char) (f : Nat)
    (l : List Char) :
    startsCI (hrefPat q') (hrefGen q f l) = startsCI (hrefPat q') l := by
  have h1 := hrefGen_lowTake hql hq f l 6 (Nat.le_refl 6)
  show starts ((hrefPat q').map lowCh) ((hrefGen q f l).map lowCh) =
    starts ((hrefPat q').map lowCh) (l.map lowCh)
  rw [starts_take _ ((hrefGen q f l).map lowCh),
    starts_take _ (l.map lowCh)]
  rw [show ((hrefPat q').map lowCh).length = 6 from by simp [hrefPat]]
  rw [← List.map_take, ← List.map_take, h1]

theorem hrefGen_copies (q : Char) : ∀ (A : List Char) (f : Nat) (l : List Char),
    (∀ i, i < A.length → startsCI (hrefPat q) ((A ++ l).drop i) = false) →
    hrefGen q f (A ++ l) = A ++ hrefGen q (f - A.length) l := by
  intro A
  induction A with
  | nil => intro f l _; rfl
  | cons a A ih =>
    intro f l hni
    cases f with
    | zero =>
      rw [Nat.zero_sub]
      rfl
    | succ f =>
      have h0 : startsCI (hrefPat q) (a :: (A ++ l)) = false := by
        have h0' := hni 0 (Nat.succ_pos _)
        rwa [List.drop_zero, List.cons_append] at h0'
      simp only [List.cons_append, List.append_eq, hrefGen]
      rw [if_neg (by rw [h0]; exact Bool.false_ne_true)]
      rw [ih f l (fun i hi => by
        have hs := hni (i + 1) (by simpa using Nat.succ_lt_succ hi)
        rwa [show ((a :: A ++ l).drop (i + 1)) = (A ++ l).drop i from rfl] at hs)]
      rw [show (a :: A).length = A.length + 1 from rfl, Nat.succ_sub_succ]

theorem hrefGen_id (q : Char) : ∀ (f : Nat) (l : List Char),
    (∀ i, startsCI (hrefPat q) (l.drop i) = false) → hrefGen q f l = l := by
  intro f
  induction f with
  | zero => intro l _; rfl
  | succ f ih =>
    intro l h
    cases l with
    | nil => rfl
    | cons c cs =>
      have h0 : startsCI (hrefPat q) (c :: cs) = false := by
        have h0' := h 0
        rwa [List.drop_zero] at h0'
      simp only [hrefGen]
      rw [if_neg (by rw [h0]; exact Bool.false_ne_true)]
      rw [ih cs (fun i => h (i + 1))]

theorem noQuote_hrefGen {q q2 : Char}
    (hins : noQuote q ['h', 'r', 'e', 'f', '=', q2, '#']) :
    ∀ (f : Nat) (l : List Char), noQuote q l → noQuote q (hrefGen q2 f l) := by
  intro f
  induction f with
  | zero => intro l h; exact h
  | succ f ih =>
    intro l h
    cases l with
    | nil => exact h
    | cons c cs =>
      have hcs : noQuote q cs := fun y hy => h y (List.mem_cons_of_mem c hy)
      simp only [hrefGen]
      by_cases hm : startsCI (hrefPat q2) (c :: cs) = true
      · rw [if_pos hm]
        cases hdw : ((c :: cs).drop 6).dropWhile (fun d => !(d == q2)) with
        | nil =>
          simp only
          intro y hy
          rcases List.mem_cons.mp hy with rfl | hy'
          · exact h y (List.mem_cons_self _ _)
          · exact ih cs hcs y hy'
        | cons x r2 =>
          simp only
          have hr2 : noQuote q r2 := by
            intro y hy
            have hy2 : y ∈ ((c :: cs).drop 6).dropWhile (fun d => !(d == q2)) := by
              rw [hdw]
              exact List.mem_cons_of_mem x hy
            have hy3 : y ∈ (c :: cs).drop 6 :=
              (List.dropWhile_sublist _).subset hy2
            exact h y (List.drop_subset _ _ hy3)
          intro y hy
          simp only [List.mem_cons] at hy
          rcases hy with rfl | rfl | rfl | rfl | rfl | rfl | rfl | rfl | hy'
          · exact hins _ (by simp)
          · exact hins _ (by simp)
          · exact hins _ (by simp)
          · exact hins _ (by simp)
          · exact hins _ (by simp)
          · exact hins _ (by simp)
          · exact hins _ (by simp)
          · exact hins _ (by simp)
          · exact ih r2 hr2 y hy'
      · rw [if_neg hm]
        intro y hy
        rcases List.mem_cons.mp hy with rfl | hy'
        · exact h y (List.mem_cons_self _ _)
        · exact ih cs hcs y hy'


theorem startsCI_nil (q : Char) : startsCI (hrefPat q) [] = false := rfl

theorem hrefGen_startsCI_cons {q : Char} (hql : lowCh q = q)
    (hq : ∀ c : Char, lowCh c = q → c = q) (q' c : Char) (f : Nat)
    (cs : List Char) :
    startsCI (hrefPat q') (c :: hrefGen q f cs) =
      startsCI (hrefPat q') (c :: cs) := by
  show (('h' == lowCh c) &&
      starts ((['r', 'e', 'f', '=', q'] : List Char).map lowCh)
        ((hrefGen q f cs).map lowCh)) =
    (('h' == lowCh c) &&
      starts ((['r', 'e', 'f', '=', q'] : List Char).map lowCh)
        (cs.map lowCh))
  congr 1
  rw [starts_take _ ((hrefGen q f cs).map lowCh), starts_take _ (cs.map lowCh),
    show ((['r', 'e', 'f', '=', q'] : List Char).map lowCh).length = 5 from by
      simp,
    ← List.map_take, ← List.map_take, hrefGen_lowTake hql hq f cs 5 (by omega)]

/-- Establishment: the output of a full-fuel `hrefGen q` run is neutral for
`q`. -/
theorem hrefGen_neutral {q : Char} (hql : lowCh q = q)
    (hq : ∀ c : Char, lowCh c = q → c = q) (hqh : ¬ q = 'h') :
    ∀ (f : Nat) (l : List Char), l.length < f →
      hrefNeutral q (hrefGen q f l) := by
  intro f
  induction f with
  | zero => intro l h; exact absurd h (Nat.not_lt_zero _)
  | succ f ih =>
    intro l hlen
    cases l with
    | nil =>
      show hrefNeutral q ([] : List Char)
      intro i hi
      rw [List.drop_nil, startsCI_nil] at hi
      exact absurd hi Bool.false_ne_true
    | cons c cs =>
      simp only [List.length_cons, Nat.succ_lt_succ_iff] at hlen
      by_cases hm : startsCI (hrefPat q) (c :: cs) = true
      · obtain ⟨c1, c2, c3, c4, c5, rest, hdec, e1, e2, e3, e4, e5⟩ :=
          hrefPat_decomp hq hql _ hm
        have hc : c = c1 := by injection hdec
        have hcs : cs = c2 :: c3 :: c4 :: c5 :: q :: rest := by injection hdec
        cases hdw : ((c :: cs).drop 6).dropWhile (fun d => !(d == q)) with
        | nil =>
          have hnoq : ∀ y ∈ (c :: cs).drop 6, (y == q) = false := by
            intro y hy
            rw [List.dropWhile_eq_nil_iff] at hdw
            have := hdw y hy
            simpa using this
          have hrest : (c :: cs).drop 6 = rest := by rw [hdec]; rfl
          have hallcs : ∀ i, startsCI (hrefPat q) (cs.drop i) = false := by
            intro i
            rcases i with _|_|_|_|_|i
            · rw [List.drop_zero, hcs]
              exact startsCI_head_ne _ (by rw [e2]; decide)
            · rw [hcs]
              exact startsCI_head_ne _ (by rw [e3]; decide)
            · rw [hcs]
              exact startsCI_head_ne _ (by rw [e4]; decide)
            · rw [hcs]
              exact startsCI_head_ne _ (by rw [e5]; decide)
            · rw [hcs]
              exact startsCI_head_ne _ (by rw [hql]; exact hqh)
            · cases hfalse : startsCI (hrefPat q) (cs.drop (i + 5)) with
              | false => rfl
              | true =>
                exfalso
                obtain ⟨d1, d2, d3, d4, d5, rr, hd, _, _, _, _, _⟩ :=
                  hrefPat_decomp hq hql _ hfalse
                have hqmem : q ∈ cs.drop (i + 5) := by rw [hd]; simp
                have hqrest : q ∈ rest := by
                  have : cs.drop (i + 5) = rest.drop i := by rw [hcs]; rfl
                  rw [this] at hqmem
                  exact List.drop_subset _ _ hqmem
                have := hnoq q (by rw [hrest]; exact hqrest)
                simp at this
          have hout : hrefGen q (f + 1) (c :: cs) = c :: cs := by
            simp only [hrefGen]
            rw [if_pos hm, hdw]
            simp only
            rw [hrefGen_id q f cs hallcs]
          rw [hout]
          intro i hi
          cases i with
          | zero =>
            refine Or.inr ?_
            rw [List.drop_zero]
            exact hnoq
          | succ j =>
            rw [show (c :: cs).drop (j + 1) = cs.drop j from rfl, hallcs j] at hi
            exact absurd hi Bool.false_ne_true
        | cons x r2 =>
          have hr2len : r2.length < f := by
            have h1 : (x :: r2).length ≤ ((c :: cs).drop 6).length := by
              rw [← hdw]
              exact dropWhile_length_le _ _
            have h2 : (c :: cs).drop 6 = rest := by rw [hdec]; rfl
            have h3 : cs.length = rest.length + 5 := by rw [hcs]; simp
            rw [h2] at h1
            simp only [List.length_cons] at h1
            omega
          have hrec := ih r2 hr2len
          simp only [hrefGen]
          rw [if_pos hm, hdw]
          simp only
          intro i hi
          rcases i with _|_|_|_|_|_|_|_|i
          · refine Or.inl ?_
            show (('#' == '#') && ((q == q) && true)) = true
            simp
          · simp only [List.drop_succ_cons, List.drop_zero] at hi
            rw [startsCI_head_ne _ (by decide)] at hi
            exact absurd hi Bool.false_ne_true
          · simp only [List.drop_succ_cons, List.drop_zero] at hi
            rw [startsCI_head_ne _ (by decide)] at hi
            exact absurd hi Bool.false_ne_true
          · simp only [List.drop_succ_cons, List.drop_zero] at hi
            rw [startsCI_head_ne _ (by decide)] at hi
            exact absurd hi Bool.false_ne_true
          · simp only [List.drop_succ_cons, List.drop_zero] at hi
            rw [startsCI_head_ne _ (by decide)] at hi
            exact absurd hi Bool.false_ne_true
          · simp only [List.drop_succ_cons, List.drop_zero] at hi
            rw [startsCI_head_ne _ (by rw [hql]; exact hqh)] at hi
            exact absurd hi Bool.false_ne_true
          · simp only [List.drop_succ_cons, List.drop_zero] at hi
            rw [startsCI_head_ne _ (by decide)] at hi
            exact absurd hi Bool.false_ne_true
          · simp only [List.drop_succ_cons, List.drop_zero] at hi
            rw [startsCI_head_ne _ (by rw [hql]; exact hqh)] at hi
            exact absurd hi Bool.false_ne_true
          · exact hrec i hi
      · simp only [hrefGen]
        rw [if_neg hm]
        intro i hi
        cases i with
        | zero =>
          exfalso
          rw [List.drop_zero, hrefGen_startsCI_cons hql hq q c f cs] at hi
          exact hm hi
        | succ j =>
          exact ih cs hlen j hi


/-- Preservation: the other-quote rewriter keeps `q`-neutrality. -/
theorem hrefGen_pres {q q2 : Char}
    (hql : lowCh q = q) (hq : ∀ c : Char, lowCh c = q → c = q)
    (hq2l : lowCh q2 = q2) (hq2 : ∀ c : Char, lowCh c = q2 → c = q2)
    (hqq2 : ¬ q = q2) (hqh : ¬ q = 'h') (hq2h : ¬ q2 = 'h')
    (hins : noQuote q ['h', 'r', 'e', 'f', '=', q2, '#']) :
    ∀ (f : Nat) (l : List Char), hrefNeutral q l →
      hrefNeutral q (hrefGen q2 f l) := by
  intro f
  induction f with
  | zero => intro l h; exact h
  | succ f ih =>
    intro l hN
    cases l with
    | nil => exact hN
    | cons c cs =>
      have hNcs : hrefNeutral q cs := hrefNeutral_drop hN 1
      by_cases hm2 : startsCI (hrefPat q2) (c :: cs) = true
      · obtain ⟨c1, c2, c3, c4, c5, rest, hdec, e1, e2, e3, e4, e5⟩ :=
          hrefPat_decomp hq2 hq2l _ hm2
        cases hdw : ((c :: cs).drop 6).dropWhile (fun d => !(d == q2)) with
        | nil =>
          simp only [hrefGen]
          rw [if_pos hm2, hdw]
          simp only
          intro i hi
          cases i with
          | zero =>
            exfalso
            rw [List.drop_zero, hrefGen_startsCI_cons hq2l hq2 q c f cs] at hi
            obtain ⟨d1, d2, d3, d4, d5, rr, hd2, _, _, _, _, _⟩ :=
              hrefPat_decomp hq hql _ hi
            rw [hdec] at hd2
            have h6 : q2 = q := by
              simp only [List.cons.injEq] at hd2
              exact hd2.2.2.2.2.2.1
            exact hqq2 h6.symm
          | succ j =>
            exact ih cs hNcs j hi
        | cons x r2 =>
          have hr2drop : ∃ n, r2 = (c :: cs).drop n := by
            obtain ⟨m, hm⟩ :=
              dropWhile_exists_drop (fun d => !(d == q2)) ((c :: cs).drop 6)
            rw [hm, List.drop_drop] at hdw
            refine ⟨6 + m + 1, ?_⟩
            have ht := congrArg List.tail hdw
            rw [List.tail_drop] at ht
            exact ht.symm
          obtain ⟨n, hr2⟩ := hr2drop
          have hNr2 : hrefNeutral q r2 := by
            rw [hr2]
            exact hrefNeutral_drop hN n
          have hrec := ih r2 hNr2
          simp only [hrefGen]
          rw [if_pos hm2, hdw]
          simp only
          intro i hi
          rcases i with _|_|_|_|_|_|_|_|i
          · exfalso
            rw [List.drop_zero] at hi
            obtain ⟨d1, d2, d3, d4, d5, rr, hd2, _, _, _, _, _⟩ :=
              hrefPat_decomp hq hql _ hi
            have h6 : q2 = q := by
              simp only [List.cons.injEq] at hd2
              exact hd2.2.2.2.2.2.1
            exact hqq2 h6.symm
          · simp only [List.drop_succ_cons, List.drop_zero] at hi
            rw [startsCI_head_ne _ (by decide)] at hi
            exact absurd hi Bool.false_ne_true
          · simp only [List.drop_succ_cons, List.drop_zero] at hi
            rw [startsCI_head_ne _ (by decide)] at hi
            exact absurd hi Bool.false_ne_true
          · simp only [List.drop_succ_cons, List.drop_zero] at hi
            rw [startsCI_head_ne _ (by decide)] at hi
            exact absurd hi Bool.false_ne_true
          · simp only [List.drop_succ_cons, List.drop_zero] at hi
            rw [startsCI_head_ne _ (by decide)] at hi
            exact absurd hi Bool.false_ne_true
          · simp only [List.drop_succ_cons, List.drop_zero] at hi
            rw [startsCI_head_ne _ (by rw [hq2l]; exact hq2h)] at hi
            exact absurd hi Bool.false_ne_true
          · simp only [List.drop_succ_cons, List.drop_zero] at hi
            rw [startsCI_head_ne _ (by decide)] at hi
            exact absurd hi Bool.false_ne_true
          · simp only [List.drop_succ_cons, List.drop_zero] at hi
            rw [startsCI_head_ne _ (by rw [hq2l]; exact hq2h)] at hi
            exact absurd hi Bool.false_ne_true
          · exact hrec i hi
      · simp only [hrefGen]
        rw [if_neg hm2]
        intro i hi
        cases i with
        | zero =>
          rw [List.drop_zero, hrefGen_startsCI_cons hq2l hq2 q c f cs] at hi
          have h0 := hN 0 (by rwa [List.drop_zero])
          rw [List.drop_zero] at h0
          obtain ⟨d1, d2, d3, d4, d5, rr, hd, f1, f2, f3, f4, f5⟩ :=
            hrefPat_decomp hq hql _ hi
          have hdrop6 : (c :: cs).drop 6 = rr := by rw [hd]; rfl
          rcases h0 with ha | hb
          · rw [hdrop6] at ha
            obtain ⟨rr2, hrr⟩ : ∃ rr2, rr = '#' :: q :: rr2 := by
              cases rr with
              | nil => exact absurd ha (by simp [starts])
              | cons y ys =>
                cases ys with
                | nil => exact absurd ha (by simp [starts])
                | cons z zs =>
                  have ha' : (('#' == y) && ((q == z) && true)) = true := ha
                  simp only [Bool.and_eq_true] at ha'
                  refine ⟨zs, ?_⟩
                  rw [← eq_of_beq ha'.1, ← eq_of_beq ha'.2.1]
            have hinput : c :: cs = [d1, d2, d3, d4, d5, q, '#', q] ++ rr2 := by
              rw [hd, hrr]
              rfl
            have hcopies : hrefGen q2 (f + 1) (c :: cs) =
                [d1, d2, d3, d4, d5, q, '#', q] ++
                  hrefGen q2 (f + 1 - 8) rr2 := by
              rw [hinput]
              refine hrefGen_copies q2 _ _ _ ?_
              intro j hj
              rw [← hinput]
              rcases j with _|_|_|_|_|_|_|_|j
              · rw [List.drop_zero]
                exact Bool.eq_false_iff.mpr hm2
              · rw [hd]
                simp only [List.drop_succ_cons, List.drop_zero]
                exact startsCI_head_ne _ (by rw [f2]; decide)
              · rw [hd]
                simp only [List.drop_succ_cons, List.drop_zero]
                exact startsCI_head_ne _ (by rw [f3]; decide)
              · rw [hd]
                simp only [List.drop_succ_cons, List.drop_zero]
                exact startsCI_head_ne _ (by rw [f4]; decide)
              · rw [hd]
                simp only [List.drop_succ_cons, List.drop_zero]
                exact startsCI_head_ne _ (by rw [f5]; decide)
              · rw [hd]
                simp only [List.drop_succ_cons, List.drop_zero]
                exact startsCI_head_ne _ (by rw [hql]; exact hqh)
              · rw [hd, hrr]
                simp only [List.drop_succ_cons, List.drop_zero]
                exact startsCI_head_ne _ (by decide)
              · rw [hd, hrr]
                simp only [List.drop_succ_cons, List.drop_zero]
                exact startsCI_head_ne _ (by rw [hql]; exact hqh)
              · exact absurd hj (by simp)
            refine Or.inl ?_
            rw [List.drop_zero,
              show (c :: hrefGen q2 f cs) = hrefGen q2 (f + 1) (c :: cs) from by
                simp only [hrefGen]; rw [if_neg hm2],
              hcopies]
            show (('#' == '#') && ((q == q) && true)) = true
            simp
          · obtain hinput : c :: cs = [d1, d2, d3, d4, d5, q] ++ rr := by
              rw [hd]
              rfl
            have hcopies : hrefGen q2 (f + 1) (c :: cs) =
                [d1, d2, d3, d4, d5, q] ++ hrefGen q2 (f + 1 - 6) rr := by
              rw [hinput]
              refine hrefGen_copies q2 _ _ _ ?_
              intro j hj
              rw [← hinput]
              rcases j with _|_|_|_|_|_|j
              · rw [List.drop_zero]
                exact Bool.eq_false_iff.mpr hm2
              · rw [hd]
                simp only [List.drop_succ_cons, List.drop_zero]
                exact startsCI_head_ne _ (by rw [f2]; decide)
              · rw [hd]
                simp only [List.drop_succ_cons, List.drop_zero]
                exact startsCI_head_ne _ (by rw [f3]; decide)
              · rw [hd]
                simp only [List.drop_succ_cons, List.drop_zero]
                exact startsCI_head_ne _ (by rw [f4]; decide)
              · rw [hd]
                simp only [List.drop_succ_cons, List.drop_zero]
                exact startsCI_head_ne _ (by rw [f5]; decide)
              · rw [hd]
                simp only [List.drop_succ_cons, List.drop_zero]
                exact startsCI_head_ne _ (by rw [hql]; exact hqh)
              · exact absurd hj (by simp)
            refine Or.inr ?_
            rw [List.drop_zero,
              show (c :: hrefGen q2 f cs) = hrefGen q2 (f + 1) (c :: cs) from by
                simp only [hrefGen]; rw [if_neg hm2],
              hcopies]
            show noQuote q (hrefGen q2 (f + 1 - 6) rr)
            refine noQuote_hrefGen hins _ rr ?_
            rwa [hdrop6] at hb
        | succ j =>
          exact ih cs hNcs j hi

theorem starts_length : ∀ {p l : List Char}, starts p l = true → p.length ≤ l.length := by
  intro p
  induction p with
  | nil => intro l _; exact Nat.zero_le _
  | cons x ps ih =>
    intro l h
    cases l with
    | nil => cases h
    | cons c cs =>
      have h' : ((x == c) && starts ps cs) = true := h
      simp only [Bool.and_eq_true] at h'
      exact Nat.succ_le_succ (ih h'.2)

theorem starts_hashq_elim {q : Char} {m : List Char}
    (h : starts ['#', q] m = true) : ∃ t, m = '#' :: q :: t := by
  cases m with
  | nil => exact absurd h (by simp [starts])
  | cons y ys =>
    cases ys with
    | nil => exact absurd h (by simp [starts])
    | cons z zs =>
      have h' : (('#' == y) && ((q == z) && true)) = true := h
      simp only [Bool.and_eq_true] at h'
      exact ⟨zs, by rw [← eq_of_beq h'.1, ← eq_of_beq h'.2.1]⟩

theorem drop_append_len {A B : List Char} {n : Nat} (h : A.length = n) :
    (A ++ B).drop n = B := by
  subst h
  exact List.drop_left A B

/-- A whitespace-free pattern found in the collapsed string occurs at the
same position of the input, whose first `pl.length` characters the collapse
copies verbatim. -/
theorem wsCollapse_starts_copy : ∀ (pl : List Char),
    (∀ x ∈ pl, jsWs x = false) → ∀ (f : Nat) (l : List Char),
    starts pl ((wsCollapse f l).map lowCh) = true →
    starts pl (l.map lowCh) = true ∧
      wsCollapse f l = l.take pl.length ++
        wsCollapse (f - pl.length) (l.drop pl.length) := by
  intro pl
  induction pl with
  | nil =>
    intro _ f l _
    refine ⟨rfl, ?_⟩
    simp only [List.length_nil, Nat.sub_zero, List.take_zero, List.drop_zero,
      List.nil_append]
  | cons p ps ih =>
    intro hpl f l hst
    cases f with
    | zero =>
      refine ⟨hst, ?_⟩
      rw [Nat.zero_sub]
      exact (List.take_append_drop _ l).symm
    | succ f =>
      cases l with
      | nil => exact absurd hst (by simp [starts])
      | cons c cs =>
        by_cases hws : jsWs c = true
        · exfalso
          rw [show wsCollapse (f + 1) (c :: cs) =
              ' ' :: wsCollapse f (cs.dropWhile jsWs) from by
            simp only [wsCollapse]; rw [if_pos hws]] at hst
          have hst' : ((p == ' ') &&
              starts ps ((wsCollapse f (cs.dropWhile jsWs)).map lowCh)) =
              true := hst
          simp only [Bool.and_eq_true] at hst'
          have hp : p = ' ' := eq_of_beq hst'.1
          have hnp := hpl p (List.mem_cons_self p ps)
          rw [hp] at hnp
          exact absurd hnp (by decide)
        · rw [show wsCollapse (f + 1) (c :: cs) = c :: wsCollapse f cs from by
            simp only [wsCollapse]; rw [if_neg hws]] at hst
          have hst' : ((p == lowCh c) &&
              starts ps ((wsCollapse f cs).map lowCh)) = true := hst
          simp only [Bool.and_eq_true] at hst'
          obtain ⟨ihs, iheq⟩ :=
            ih (fun x hx => hpl x (List.mem_cons_of_mem p hx)) f cs hst'.2
          constructor
          · show ((p == lowCh c) && starts ps (cs.map lowCh)) = true
            simp only [Bool.and_eq_true]
            exact ⟨hst'.1, ihs⟩
          · rw [show wsCollapse (f + 1) (c :: cs) = c :: wsCollapse f cs from by
              simp only [wsCollapse]; rw [if_neg hws], iheq,
              show (p :: ps).length = ps.length + 1 from rfl]
            rw [show f + 1 - (ps.length + 1) = f - ps.length from by omega]
            rfl

theorem noQuote_wsCollapse {q : Char} (hspq : ((' ' : Char) == q) = false) :
    ∀ (f : Nat) (m : List Char), noQuote q m → noQuote q (wsCollapse f m) := by
  intro f
  induction f with
  | zero => intro m h; exact h
  | succ f ih =>
    intro m h
    cases m with
    | nil => exact h
    | cons c cs =>
      by_cases hws : jsWs c = true
      · rw [show wsCollapse (f + 1) (c :: cs) =
            ' ' :: wsCollapse f (cs.dropWhile jsWs) from by
          simp only [wsCollapse]; rw [if_pos hws]]
        intro y hy
        rcases List.mem_cons.mp hy with rfl | hy'
        · exact hspq
        · refine ih (cs.dropWhile jsWs) ?_ y hy'
          obtain ⟨m, hm⟩ := dropWhile_exists_drop jsWs cs
          rw [hm]
          intro z hz
          exact h z (List.mem_cons_of_mem c (List.drop_subset m cs hz))
      · rw [show wsCollapse (f + 1) (c :: cs) = c :: wsCollapse f cs from by
          simp only [wsCollapse]; rw [if_neg hws]]
        intro y hy
        rcases List.mem_cons.mp hy with rfl | hy'
        · exact h y (List.mem_cons_self y cs)
        · exact ih cs (fun z hz => h z (List.mem_cons_of_mem c hz)) y hy'

theorem starts_hashq_wsCollapse {q : Char} (hqws : jsWs q = false) :
    ∀ (g : Nat) (rest : List Char),
    starts ['#', q] (wsCollapse g ('#' :: q :: rest)) = true := by
  intro g rest
  cases g with
  | zero => simp [starts]
  | succ g =>
    rw [show wsCollapse (g + 1) ('#' :: q :: rest) =
        '#' :: wsCollapse g (q :: rest) from by
      simp only [wsCollapse]; rw [if_neg (by decide)]]
    cases g with
    | zero => simp [starts]
    | succ g =>
      rw [show wsCollapse (g + 1) (q :: rest) = q :: wsCollapse g rest from by
        simp only [wsCollapse]; rw [if_neg (by simp [hqws])]]
      simp [starts]

/-- The whitespace-collapse stage preserves href neutrality. -/
theorem hrefNeutral_wsCollapse {q : Char} (hql : lowCh q = q)
    (hqws : jsWs q = false) (hspq : ((' ' : Char) == q) = false) :
    ∀ (f : Nat) (l : List Char), hrefNeutral q l →
      hrefNeutral q (wsCollapse f l) := by
  intro f
  induction f with
  | zero => intro l h; exact h
  | succ f ih =>
    intro l hN
    cases l with
    | nil => exact hN
    | cons c cs =>
      by_cases hws : jsWs c = true
      · rw [show wsCollapse (f + 1) (c :: cs) =
            ' ' :: wsCollapse f (cs.dropWhile jsWs) from by
          simp only [wsCollapse]; rw [if_pos hws]]
        have hN' : hrefNeutral q (cs.dropWhile jsWs) := by
          obtain ⟨m, hm⟩ := dropWhile_exists_drop jsWs cs
          rw [hm, show cs.drop m = (c :: cs).drop (m + 1) from rfl]
          exact hrefNeutral_drop hN (m + 1)
        intro i hi
        cases i with
        | zero =>
          rw [List.drop_zero, startsCI_head_ne _ (by decide)] at hi
          exact absurd hi Bool.false_ne_true
        | succ j =>
          simp only [List.drop_succ_cons] at hi ⊢
          exact ih (cs.dropWhile jsWs) hN' j hi
      · have hstep : wsCollapse (f + 1) (c :: cs) = c :: wsCollapse f cs := by
          simp only [wsCollapse]; rw [if_neg hws]
        rw [hstep]
        intro i hi
        cases i with
        | succ j =>
          simp only [List.drop_succ_cons] at hi ⊢
          exact ih cs (hrefNeutral_drop hN 1) j hi
        | zero =>
          rw [List.drop_zero] at hi ⊢
          rw [← hstep] at hi ⊢
          have hi' : starts ((hrefPat q).map lowCh)
              ((wsCollapse (f + 1) (c :: cs)).map lowCh) = true := hi
          have hpln : ∀ x ∈ (hrefPat q).map lowCh, jsWs x = false := by
            intro x hx
            simp only [hrefPat, List.map_cons, List.map_nil, List.mem_cons,
              List.not_mem_nil, or_false] at hx
            rcases hx with rfl | rfl | rfl | rfl | rfl | rfl
            · decide
            · decide
            · decide
            · decide
            · decide
            · rw [hql]; exact hqws
          obtain ⟨hsti, heq⟩ := wsCollapse_starts_copy ((hrefPat q).map lowCh)
            hpln (f + 1) (c :: cs) hi'
          rw [show ((hrefPat q).map lowCh).length = 6 from rfl] at heq
          have h0 := hN 0 hsti
          rw [List.drop_zero] at h0
          have hlen : 6 ≤ (c :: cs).length := by
            have h6 := starts_length hsti
            rw [List.length_map, List.length_map] at h6
            exact h6
          have htk : ((c :: cs).take 6).length = 6 := by
            rw [List.length_take]; omega
          rw [heq, drop_append_len htk]
          rcases h0 with ha | hb
          · obtain ⟨t, ht⟩ := starts_hashq_elim ha
            rw [ht]
            exact Or.inl (starts_hashq_wsCollapse hqws (f + 1 - 6) t)
          · exact Or.inr (noQuote_wsCollapse hspq (f + 1 - 6) _ hb)

theorem gapAt_drop {cs r : List Char} (hg : gapAt cs = some r) :
    ∃ n, r = cs.drop n := by
  cases cs with
  | nil => cases hg
  | cons d ds =>
    simp only [gapAt] at hg
    by_cases hd : jsWs d = true
    · rw [if_pos hd] at hg
      obtain ⟨m, hm⟩ := dropWhile_exists_drop jsWs (d :: ds)
      rw [hm] at hg
      split at hg
      · rename_i r2 heq
        cases hg
        exact ⟨m + 1, by rw [← List.tail_drop, heq, List.tail_cons]⟩
      · cases hg
    · rw [if_neg hd] at hg
      cases hg

/-- A `>`-free pattern found in the reflowed string occurs at the same
position of the input, whose first `pl.length` characters the reflow
copies verbatim. -/
theorem tagGap_starts_copy : ∀ (pl : List Char),
    (∀ x ∈ pl, (x == '>') = false) → ∀ (f : Nat) (l : List Char),
    starts pl ((tagGap f l).map lowCh) = true →
    starts pl (l.map lowCh) = true ∧
      tagGap f l = l.take pl.length ++
        tagGap (f - pl.length) (l.drop pl.length) := by
  intro pl
  induction pl with
  | nil =>
    intro _ f l _
    refine ⟨rfl, ?_⟩
    simp only [List.length_nil, Nat.sub_zero, List.take_zero, List.drop_zero,
      List.nil_append]
  | cons p ps ih =>
    intro hpl f l hst
    cases f with
    | zero =>
      refine ⟨hst, ?_⟩
      rw [Nat.zero_sub]
      exact (List.take_append_drop _ l).symm
    | succ f =>
      cases l with
      | nil => exact absurd hst (by simp [starts])
      | cons c cs =>
        by_cases hgt : (c == '>') = true
        · cases hg : gapAt cs with
          | some r =>
            exfalso
            rw [show tagGap (f + 1) (c :: cs) =
                '>' :: '\n' :: '<' :: tagGap f r from by
              simp only [tagGap]; rw [if_pos hgt, hg]] at hst
            have hst' : ((p == '>') &&
                starts ps (('\n' :: '<' :: tagGap f r).map lowCh)) = true := hst
            simp only [Bool.and_eq_true] at hst'
            have hp : p = '>' := eq_of_beq hst'.1
            have hc := hpl p (List.mem_cons_self p ps)
            rw [hp] at hc
            exact absurd hc (by decide)
          | none =>
            rw [show tagGap (f + 1) (c :: cs) = c :: tagGap f cs from by
              simp only [tagGap]; rw [if_pos hgt, hg]] at hst
            have hst' : ((p == lowCh c) &&
                starts ps ((tagGap f cs).map lowCh)) = true := hst
            simp only [Bool.and_eq_true] at hst'
            obtain ⟨ihs, iheq⟩ :=
              ih (fun x hx => hpl x (List.mem_cons_of_mem p hx)) f cs hst'.2
            constructor
            · show ((p == lowCh c) && starts ps (cs.map lowCh)) = true
              simp only [Bool.and_eq_true]
              exact ⟨hst'.1, ihs⟩
            · rw [show tagGap (f + 1) (c :: cs) = c :: tagGap f cs from by
                simp only [tagGap]; rw [if_pos hgt, hg], iheq,
                show (p :: ps).length = ps.length + 1 from rfl]
              rw [show f + 1 - (ps.length + 1) = f - ps.length from by omega]
              rfl
        · rw [show tagGap (f + 1) (c :: cs) = c :: tagGap f cs from by
            simp only [tagGap]; rw [if_neg hgt]] at hst
          have hst' : ((p == lowCh c) &&
              starts ps ((tagGap f cs).map lowCh)) = true := hst
          simp only [Bool.and_eq_true] at hst'
          obtain ⟨ihs, iheq⟩ :=
            ih (fun x hx => hpl x (List.mem_cons_of_mem p hx)) f cs hst'.2
          constructor
          · show ((p == lowCh c) && starts ps (cs.map lowCh)) = true
            simp only [Bool.and_eq_true]
            exact ⟨hst'.1, ihs⟩
          · rw [show tagGap (f + 1) (c :: cs) = c :: tagGap f cs from by
              simp only [tagGap]; rw [if_neg hgt], iheq,
              show (p :: ps).length = ps.length + 1 from rfl]
            rw [show f + 1 - (ps.length + 1) = f - ps.length from by omega]
            rfl

theorem noQuote_tagGap {q : Char} (hnl : (('\n' : Char) == q) = false)
    (hlt : (('<' : Char) == q) = false) (hgtq : (('>' : Char) == q) = false) :
    ∀ (f : Nat) (m : List Char), noQuote q m → noQuote q (tagGap f m) := by
  intro f
  induction f with
  | zero => intro m h; exact h
  | succ f ih =>
    intro m h
    cases m with
    | nil => exact h
    | cons c cs =>
      by_cases hgt : (c == '>') = true
      · cases hg : gapAt cs with
        | some r =>
          rw [show tagGap (f + 1) (c :: cs) =
              '>' :: '\n' :: '<' :: tagGap f r from by
            simp only [tagGap]; rw [if_pos hgt, hg]]
          intro y hy
          simp only [List.mem_cons] at hy
          rcases hy with rfl | rfl | rfl | hy
          · exact hgtq
          · exact hnl
          · exact hlt
          · refine ih r ?_ y hy
            obtain ⟨n, hn⟩ := gapAt_drop hg
            rw [hn]
            intro z hz
            exact h z (List.mem_cons_of_mem c (List.drop_subset n cs hz))
        | none =>
          rw [show tagGap (f + 1) (c :: cs) = c :: tagGap f cs from by
            simp only [tagGap]; rw [if_pos hgt, hg]]
          intro y hy
          rcases List.mem_cons.mp hy with rfl | hy'
          · exact h y (List.mem_cons_self y cs)
          · exact ih cs (fun z hz => h z (List.mem_cons_of_mem c hz)) y hy'
      · rw [show tagGap (f + 1) (c :: cs) = c :: tagGap f cs from by
          simp only [tagGap]; rw [if_neg hgt]]
        intro y hy
        rcases List.mem_cons.mp hy with rfl | hy'
        · exact h y (List.mem_cons_self y cs)
        · exact ih cs (fun z hz => h z (List.mem_cons_of_mem c hz)) y hy'

theorem starts_hashq_tagGap {q : Char} (hqgt : (q == '>') = false) :
    ∀ (g : Nat) (rest : List Char),
    starts ['#', q] (tagGap g ('#' :: q :: rest)) = true := by
  intro g rest
  cases g with
  | zero => simp [starts]
  | succ g =>
    rw [show tagGap (g + 1) ('#' :: q :: rest) =
        '#' :: tagGap g (q :: rest) from by
      simp only [tagGap]; rw [if_neg (by decide)]]
    cases g with
    | zero => simp [starts]
    | succ g =>
      rw [show tagGap (g + 1) (q :: rest) = q :: tagGap g rest from by
        simp only [tagGap]; rw [if_neg (by simp [hqgt])]]
      simp [starts]

/-- The copy step of the reflow scanner preserves href neutrality (shared by
the `gapAt`-miss and non-`>` branches). -/
theorem tagGap_copy_case {q : Char} (hql : lowCh q = q)
    (hqgt : (q == '>') = false) (hnl : (('\n' : Char) == q) = false)
    (hlt : (('<' : Char) == q) = false) (hgtq : (('>' : Char) == q) = false)
    {f : Nat} {c : Char} {cs : List Char}
    (hstep : tagGap (f + 1) (c :: cs) = c :: tagGap f cs)
    (ih : ∀ l : List Char, hrefNeutral q l → hrefNeutral q (tagGap f l))
    (hN : hrefNeutral q (c :: cs)) :
    hrefNeutral q (c :: tagGap f cs) := by
  intro i hi
  cases i with
  | succ j =>
    simp only [List.drop_succ_cons] at hi ⊢
    exact ih cs (hrefNeutral_drop hN 1) j hi
  | zero =>
    rw [List.drop_zero] at hi ⊢
    rw [← hstep] at hi ⊢
    have hi' : starts ((hrefPat q).map lowCh)
        ((tagGap (f + 1) (c :: cs)).map lowCh) = true := hi
    have hpln : ∀ x ∈ (hrefPat q).map lowCh, (x == '>') = false := by
      intro x hx
      simp only [hrefPat, List.map_cons, List.map_nil, List.mem_cons,
        List.not_mem_nil, or_false] at hx
      rcases hx with rfl | rfl | rfl | rfl | rfl | rfl
      · decide
      · decide
      · decide
      · decide
      · decide
      · rw [hql]; exact hqgt
    obtain ⟨hsti, heq⟩ := tagGap_starts_copy ((hrefPat q).map lowCh) hpln
      (f + 1) (c :: cs) hi'
    rw [show ((hrefPat q).map lowCh).length = 6 from rfl] at heq
    have h0 := hN 0 hsti
    rw [List.drop_zero] at h0
    have hlen : 6 ≤ (c :: cs).length := by
      have h6 := starts_length hsti
      rw [List.length_map, List.length_map] at h6
      exact h6
    have htk : ((c :: cs).take 6).length = 6 := by
      rw [List.length_take]; omega
    rw [heq, drop_append_len htk]
    rcases h0 with ha | hb
    · obtain ⟨t, ht⟩ := starts_hashq_elim ha
      rw [ht]
      exact Or.inl (starts_hashq_tagGap hqgt (f + 1 - 6) t)
    · exact Or.inr (noQuote_tagGap hnl hlt hgtq (f + 1 - 6) _ hb)

/-- The tag-gap reflow stage preserves href neutrality. -/
theorem hrefNeutral_tagGap {q : Char} (hql : lowCh q = q)
    (hqgt : (q == '>') = false) (hnl : (('\n' : Char) == q) = false)
    (hlt : (('<' : Char) == q) = false) (hgtq : (('>' : Char) == q) = false) :
    ∀ (f : Nat) (l : List Char), hrefNeutral q l →
      hrefNeutral q (tagGap f l) := by
  intro f
  induction f with
  | zero => intro l h; exact h
  | succ f ih =>
    intro l hN
    cases l with
    | nil => exact hN
    | cons c cs =>
      by_cases hgt : (c == '>') = true
      · cases hg : gapAt cs with
        | some r =>
          rw [show tagGap (f + 1) (c :: cs) =
              '>' :: '\n' :: '<' :: tagGap f r from by
            simp only [tagGap]; rw [if_pos hgt, hg]]
          have hNr : hrefNeutral q r := by
            obtain ⟨n, hn⟩ := gapAt_drop hg
            rw [hn, show cs.drop n = (c :: cs).drop (n + 1) from rfl]
            exact hrefNeutral_drop hN (n + 1)
          intro i hi
          rcases i with _ | _ | _ | j
          · rw [List.drop_zero, startsCI_head_ne _ (by decide)] at hi
            exact absurd hi Bool.false_ne_true
          · simp only [List.drop_succ_cons, List.drop_zero] at hi
            rw [startsCI_head_ne _ (by decide)] at hi
            exact absurd hi Bool.false_ne_true
          · simp only [List.drop_succ_cons, List.drop_zero] at hi
            rw [startsCI_head_ne _ (by decide)] at hi
            exact absurd hi Bool.false_ne_true
          · simp only [List.drop_succ_cons] at hi ⊢
            exact ih r hNr j hi
        | none =>
          have hstep : tagGap (f + 1) (c :: cs) = c :: tagGap f cs := by
            simp only [tagGap]; rw [if_pos hgt, hg]
          rw [hstep]
          exact tagGap_copy_case hql hqgt hnl hlt hgtq hstep ih hN
      · have hstep : tagGap (f + 1) (c :: cs) = c :: tagGap f cs := by
          simp only [tagGap]; rw [if_neg hgt]
        rw [hstep]
        exact tagGap_copy_case hql hqgt hnl hlt hgtq hstep ih hN

theorem rstrip_decomp (m : List Char) :
    ∃ w, m = rstrip m ++ w ∧ ∀ y ∈ w, jsWs y = true := by
  refine ⟨(m.reverse.takeWhile jsWs).reverse, ?_, ?_⟩
  · rw [rstrip_eq, ← List.reverse_append, List.takeWhile_append_dropWhile,
      List.reverse_reverse]
  · intro y hy
    rw [List.mem_reverse] at hy
    exact List.mem_takeWhile_imp hy

theorem starts_of_append_ws : ∀ (P : List Char), (∀ x ∈ P, jsWs x = false) →
    ∀ (w : List Char), (∀ y ∈ w, jsWs y = true) →
    ∀ (u : List Char), starts P (u ++ w) = true → starts P u = true := by
  intro P
  induction P with
  | nil => intro _ w _ u _; rfl
  | cons x ps ih =>
    intro hP w hw u h
    cases u with
    | nil =>
      exfalso
      cases w with
      | nil => exact absurd h (by simp [starts])
      | cons y ys =>
        have h' : ((x == y) && starts ps ys) = true := h
        simp only [Bool.and_eq_true] at h'
        have h1 := hP x (List.mem_cons_self x ps)
        rw [eq_of_beq h'.1, hw y (List.mem_cons_self y ys)] at h1
        cases h1
    | cons c cs =>
      have h' : ((x == c) && starts ps (cs ++ w)) = true := h
      simp only [Bool.and_eq_true] at h'
      show ((x == c) && starts ps cs) = true
      simp only [Bool.and_eq_true]
      exact ⟨h'.1,
        ih (fun z hz => hP z (List.mem_cons_of_mem x hz)) w hw cs h'.2⟩

/-- Trailing-whitespace removal preserves href neutrality: an occurrence in
the stripped string is an occurrence in the input, and the neutralised
value characters `#`/quote are non-whitespace, so they cannot have been in
the removed tail. -/
theorem hrefNeutral_rstrip {q : Char} (hqws : jsWs q = false)
    {m : List Char} (hN : hrefNeutral q m) : hrefNeutral q (rstrip m) := by
  obtain ⟨w, hm, hw⟩ := rstrip_decomp m
  have hPq : ∀ x ∈ ['#', q], jsWs x = false := by
    intro x hx
    simp only [List.mem_cons, List.not_mem_nil, or_false] at hx
    rcases hx with rfl | rfl
    · decide
    · exact hqws
  intro i hi
  have hocc : startsCI (hrefPat q) (m.drop i) = true := by
    rw [hm, List.drop_append_eq_append_drop]
    have hi' : starts ((hrefPat q).map lowCh)
        (((rstrip m).drop i).map lowCh) = true := hi
    have h2 := starts_append
      ((w.drop (i - (rstrip m).length)).map lowCh) hi'
    rw [← List.map_append] at h2
    exact h2
  have h0 := hN i hocc
  rcases h0 with ha | hb
  · refine Or.inl ?_
    rw [hm, List.drop_append_eq_append_drop,
      List.drop_append_eq_append_drop] at ha
    exact starts_of_append_ws ['#', q] hPq _
      (fun y hy => hw y (List.drop_subset _ _ (List.drop_subset _ _ hy))) _ ha
  · refine Or.inr ?_
    intro z hz
    refine hb z ?_
    rw [hm, List.drop_append_eq_append_drop, List.drop_append_eq_append_drop]
    exact List.mem_append_left _ hz

/-- The final `trim` stage preserves href neutrality. -/
theorem hrefNeutral_trimList {q : Char} (hqws : jsWs q = false)
    {m : List Char} (hN : hrefNeutral q m) : hrefNeutral q (trimList m) := by
  rw [trimList_eq_rstrip]
  refine hrefNeutral_rstrip hqws ?_
  obtain ⟨n, hn⟩ := dropWhile_exists_drop jsWs m
  rw [hn]
  exact hrefNeutral_drop hN n

/-- The whole whitespace tail of `cleanMarkup` (collapse, reflow, trim)
preserves href neutrality. -/
theorem pipeline_neutral {q : Char} (hql : lowCh q = q) (hqws : jsWs q = false)
    (hspq : ((' ' : Char) == q) = false) (hqgt : (q == '>') = false)
    (hnl : (('\n' : Char) == q) = false) (hlt : (('<' : Char) == q) = false)
    (hgtq : (('>' : Char) == q) = false)
    {l : List Char} (hN : hrefNeutral q l) (f1 f2 : Nat) :
    hrefNeutral q (trimList (tagGap f2 (wsCollapse f1 l))) :=
  hrefNeutral_trimList hqws
    (hrefNeutral_tagGap hql hqgt hnl hlt hgtq f2 _
      (hrefNeutral_wsCollapse hql hqws hspq f1 l hN))

/-- C10: every captured markup sample has its links neutralised
unconditionally — on every input string, in the output of `cleanMarkup`
(with the image store empty, so the resolver performs no replacement)
every occurrence of a double-quoted or single-quoted `href=` attribute
opening carries the value `#` (or its quote is never closed, so no
attribute value exists to retain); the rewriting is applied by the
unconditional `hrefDq`/`hrefSq` stages, not gated by any option. -/
theorem href_neutralized (s : String) :
    hrefNeutral '"' (cleanMarkup [] s).data ∧
    hrefNeutral '\x27' (cleanMarkup [] s).data := by
  have hcm : cleanMarkup [] s =
      trimS (tagGapS (wsCollapseS (hrefSqS (hrefDqS
        (stripHandlersS (stripScriptStyle s)))))) := rfl
  have hqd : ∀ c : Char, lowCh c = '"' → c = '"' := lowCh_fix (by decide)
  have hqs : ∀ c : Char, lowCh c = '\x27' → c = '\x27' :=
    lowCh_fix (by decide)
  have hNdq : hrefNeutral '"'
      (hrefDqS (stripHandlersS (stripScriptStyle s))).data := by
    show hrefNeutral '"'
      (hrefDq ((stripHandlersS (stripScriptStyle s)).data.length + 1)
        (stripHandlersS (stripScriptStyle s)).data)
    rw [hrefDq_eq_gen]
    exact hrefGen_neutral (by decide) hqd (by decide) _ _ (Nat.lt_succ_self _)
  constructor
  · rw [hcm]
    refine pipeline_neutral (by decide) (by decide) (by decide) (by decide)
      (by decide) (by decide) (by decide) ?_ _ _
    show hrefNeutral '"'
      (hrefSq ((hrefDqS (stripHandlersS (stripScriptStyle s))).data.length + 1)
        (hrefDqS (stripHandlersS (stripScriptStyle s))).data)
    rw [hrefSq_eq_gen]
    have hins : noQuote '"' ['h', 'r', 'e', 'f', '=', '\x27', '#'] := by
      intro c hc
      simp only [List.mem_cons, List.not_mem_nil, or_false] at hc
      rcases hc with rfl | rfl | rfl | rfl | rfl | rfl | rfl
      all_goals decide
    exact hrefGen_pres (by decide) hqd (by decide) hqs (by decide) (by decide)
      (by decide) hins _ _ hNdq
  · rw [hcm]
    refine pipeline_neutral (by decide) (by decide) (by decide) (by decide)
      (by decide) (by decide) (by decide) ?_ _ _
    show hrefNeutral '\x27'
      (hrefSq ((hrefDqS (stripHandlersS (stripScriptStyle s))).data.length + 1)
        (hrefDqS (stripHandlersS (stripScriptStyle s))).data)
    rw [hrefSq_eq_gen]
    exact hrefGen_neutral (by decide) hqs (by decide) _ _ (Nat.lt_succ_self _)

end SGP
